import Mathlib

/-!
# Authentication and account-security core of `pub_good_system`

A shallow embedding of the Go backend (`src/backend`): the verification-code
table (`app/models/verification_code.go`), the account table
(`app/models/user.go`), the token issuer (`utils/jwt.go`) and the request
handlers of `app/controllers/auth_controller.go`, followed by theorems about
them.

Conventions of the embedding.

* The MySQL tables are lists of rows in insertion order together with the
  `AUTO_INCREMENT` counter.  A SQL statement is the list operation it denotes:
  `UPDATE .. WHERE` is a `map`, `DELETE .. WHERE` a `filter`, `INSERT` an append,
  `SELECT .. LIMIT 1` a search.
* `WHERE col = ?` on a `VARCHAR` column compares under the collation of the
  column.  The schema (`internal/db/mysql.go`) only says
  `DEFAULT CHARSET=utf8mb4`, so the collation is the server default; it is a
  parameter (`Collation`), an equivalence relation on strings.
* Time is an integer number of nanoseconds since the Unix epoch (`time.Time`);
  `unix` is `Time.Unix()`.  One request is treated as instantaneous: every
  `time.Now()` (and every `NOW()` of the database) inside one call reads the
  same instant, passed in as `now`.
* Go integers are unbounded integers, except the `uint8` / `TINYINT UNSIGNED`
  failure counter, whose range is modelled.  Timestamps, durations and ids are
  assumed to stay inside their 64-bit and column ranges (the clock reads a time
  after the epoch).
* The width of the `VARCHAR` columns of `users` and the range of `money` are
  modelled where `CreateUser` and `UserService.Update` write them: in strict SQL
  mode a value that does not fit is refused (errors 1406 and 1264), otherwise
  it is cut to fit.  The email of a verification code is taken to fit its
  column, `VARCHAR(255)`; a theorem that depends on it says so.
* Connection and driver failures of the store are not modelled; a statement
  fails only where the schema makes it fail (range of `login_failure`, widths
  and unique keys of `users`).
-/

namespace Fst

/-! ## Collaborators that are not part of the sources -/

/-- Equality of the collation of the `VARCHAR` columns (`col = ?`). -/
structure Collation where
  eq : String → String → Bool
  refl : ∀ a, eq a a = true
  symm : ∀ a b, eq a b = true → eq b a = true
  trans : ∀ a b c, eq a b = true → eq b c = true → eq a c = true

/-- The binary collation: two strings are equal when they are the same string. -/
def Collation.binary : Collation where
  eq a b := decide (a = b)
  refl a := by simp
  symm a b h := by simpa [eq_comm] using h
  trans a b c h₁ h₂ := by
    simp only [decide_eq_true_eq] at h₁ h₂ ⊢
    exact h₁.trans h₂

/-- What the handlers are parametrised by: the SQL mode and collation of the
MySQL server, `utils.CheckPasswordHash` (its file is not among the sources),
the `email` tag of the request validator, and the sanitiser.  The theorems
about the handlers hold for every sanitiser; the sanitiser of the sources is
`Clean_XSS` below, and `cleanDeps` is a server that uses it. -/
structure Deps where
  strict : Bool
  coll : Collation
  Clean_XSS : String → String
  CheckPasswordHash : String → String → Bool
  validEmail : String → Bool

/-! ## Time -/

/-- Nanoseconds in a second (`time.Second`). -/
def Second : Int := 1000000000

/-- Nanoseconds in a minute (`time.Minute`). -/
def Minute : Int := 60 * Second

/-- Seconds since the epoch of an instant: `Time.Unix()`. -/
def unix (t : Int) : Int := t / Second

/-! ## Verification codes (`app/models/verification_code.go`) -/

/-- A row of `verification_codes`. -/
structure VerificationCode where
  ID : Nat
  Email : String
  Code : String
  CodeType : String
  ExpiresAt : Int
  IsUsed : Nat
  IsDeleted : Nat
  CreatedAt : Int
  UpdatedAt : Int
deriving DecidableEq, Repr

/-- The table `verification_codes`. -/
structure CodeTable where
  rows : List VerificationCode
  nextID : Nat
deriving DecidableEq, Repr

/-- The table before any code was issued. -/
def CodeTable.empty : CodeTable := ⟨[], 1⟩

/-- `WHERE email = ? AND code_type = ?`. -/
def VerificationCode.isFor (c : Collation) (r : VerificationCode) (email codeType : String) : Bool :=
  c.eq r.Email email && c.eq r.CodeType codeType

/-- `is_used = 0 AND is_deleted = 0`. -/
def VerificationCode.active (r : VerificationCode) : Bool :=
  r.IsUsed == 0 && r.IsDeleted == 0

/-- `ORDER BY created_at DESC LIMIT 1`.  SQL leaves the order of rows with equal
`created_at` open; here the earliest inserted of them is taken. -/
def latest : List VerificationCode → Option VerificationCode
  | [] => none
  | r :: rs =>
    match latest rs with
    | none => some r
    | some b => if r.CreatedAt < b.CreatedAt then some b else some r

/-- `CreateVerificationCode`: soft-delete the unused, undeleted codes of
`(email, codeType)`, then insert the new code. -/
def CreateVerificationCode (c : Collation) (t : CodeTable) (now : Int)
    (email code codeType : String) (expiresAt : Int) : CodeTable :=
  { rows :=
      t.rows.map (fun r =>
        if r.isFor c email codeType && r.IsDeleted == 0 && r.IsUsed == 0 then
          { r with IsDeleted := 1, UpdatedAt := now }
        else r)
      ++ [{ ID := t.nextID, Email := email, Code := code, CodeType := codeType,
            ExpiresAt := expiresAt, IsUsed := 0, IsDeleted := 0,
            CreatedAt := now, UpdatedAt := now }]
    nextID := t.nextID + 1 }

/-- `GetValidVerificationCode`: the latest unused, undeleted code of
`(email, codeType)` with `expires_at > NOW()`. -/
def GetValidVerificationCode (c : Collation) (t : CodeTable) (now : Int)
    (email codeType : String) : Option VerificationCode :=
  latest (t.rows.filter (fun r =>
    r.isFor c email codeType && r.IsUsed == 0 && r.IsDeleted == 0 && decide (r.ExpiresAt > now)))

/-- `MarkVerificationCodeAsUsed`: `UPDATE .. SET is_used = 1 WHERE id = ?`
(`updated_at` moves only when the row changes). -/
def MarkVerificationCodeAsUsed (t : CodeTable) (now : Int) (id : Nat) : CodeTable :=
  { t with rows := t.rows.map (fun r =>
      if r.ID == id && r.IsUsed != 1 then { r with IsUsed := 1, UpdatedAt := now } else r) }

/-- `MarkVerificationCodeAsDeleted`: `UPDATE .. SET is_deleted = 1 WHERE id = ?`. -/
def MarkVerificationCodeAsDeleted (t : CodeTable) (now : Int) (id : Nat) : CodeTable :=
  { t with rows := t.rows.map (fun r =>
      if r.ID == id && r.IsDeleted != 1 then { r with IsDeleted := 1, UpdatedAt := now } else r) }

/-- `DeleteVerificationCodesByEmail`: `DELETE .. WHERE email = ?`, with
`AND code_type = ?` when `codeType` is not empty. -/
def DeleteVerificationCodesByEmail (c : Collation) (t : CodeTable)
    (email codeType : String) : CodeTable :=
  { t with rows := t.rows.filter (fun r =>
      !(c.eq r.Email email && (codeType == "" || c.eq r.CodeType codeType))) }

/-- `SoftDeleteExpiredCodes`: `.. SET is_deleted = 1 WHERE expires_at <= NOW()
AND is_deleted = 0`. -/
def SoftDeleteExpiredCodes (t : CodeTable) (now : Int) : CodeTable :=
  { t with rows := t.rows.map (fun r =>
      if decide (r.ExpiresAt ≤ now) && r.IsDeleted == 0 then
        { r with IsDeleted := 1, UpdatedAt := now }
      else r) }

/-- `CleanupOldVerificationCodes`: `DELETE .. WHERE (is_deleted = 1 OR
is_used = 1) AND updated_at < DATE_SUB(NOW(), INTERVAL 7 DAY)`. -/
def CleanupOldVerificationCodes (t : CodeTable) (now : Int) : CodeTable :=
  { t with rows := t.rows.filter (fun r =>
      !((r.IsDeleted == 1 || r.IsUsed == 1) && decide (r.UpdatedAt < now - 7 * 24 * 60 * Minute))) }

/-- The two rows are both unused and undeleted and belong to the same
`(email, code_type)`. -/
def VerificationCode.clash (c : Collation) (a b : VerificationCode) : Prop :=
  a.active = true ∧ b.active = true ∧ c.eq a.Email b.Email = true
    ∧ c.eq a.CodeType b.CodeType = true

/-- At most one unused, undeleted row for each `(email, code_type)`. -/
def CodeTable.oneActive (c : Collation) (t : CodeTable) : Prop :=
  t.rows.Pairwise (fun a b => ¬ VerificationCode.clash c a b)

/-- The text of `sql.ErrNoRows`. -/
def ErrNoRows : String := "sql: no rows in result set"

/-- `VerifyCode`: the latest unused, undeleted row with this email, code and
type; `(false, 0, err)` when there is none, `(false, 0, nil)` when
`vc.ExpiresAt.Before(time.Now())`, and `(true, vc.ID, nil)` otherwise. -/
def VerifyCode (c : Collation) (t : CodeTable) (now : Int)
    (email code codeType : String) : Bool × Nat × Option String :=
  match latest (t.rows.filter (fun r =>
      c.eq r.Email email && c.eq r.Code code && c.eq r.CodeType codeType
        && r.IsUsed == 0 && r.IsDeleted == 0)) with
  | none => (false, 0, some ErrNoRows)
  | some vc => if vc.ExpiresAt < now then (false, 0, none) else (true, vc.ID, none)

/-- The states of the code table the program can reach: from the empty table
by the six operations of `verification_code.go`, at any time and on any
arguments. -/
inductive CodeTable.Reachable (c : Collation) : CodeTable → Prop
  | empty : Reachable c CodeTable.empty
  | create {t} (now : Int) (email code codeType : String) (expiresAt : Int) :
      Reachable c t → Reachable c (CreateVerificationCode c t now email code codeType expiresAt)
  | markUsed {t} (now : Int) (id : Nat) :
      Reachable c t → Reachable c (MarkVerificationCodeAsUsed t now id)
  | markDeleted {t} (now : Int) (id : Nat) :
      Reachable c t → Reachable c (MarkVerificationCodeAsDeleted t now id)
  | deleteByEmail {t} (email codeType : String) :
      Reachable c t → Reachable c (DeleteVerificationCodesByEmail c t email codeType)
  | softDeleteExpired {t} (now : Int) :
      Reachable c t → Reachable c (SoftDeleteExpiredCodes t now)
  | cleanupOld {t} (now : Int) :
      Reachable c t → Reachable c (CleanupOldVerificationCodes t now)

/-! ## Accounts (`app/models/user.go`) -/

/-- A row of `users` (the columns of the schema in `internal/db/mysql.go`;
`money` is the `DECIMAL(10,2)` value in hundredths). -/
structure User where
  ID : Nat
  GroupId : Nat
  Username : String
  Nickname : String
  Email : String
  Mobile : String
  Avatar : String
  BackGround : String
  Gender : Nat
  Birthday : Option Int
  Money : Int
  Score : Int
  Level : Nat
  Role : String
  LastLoginTime : Option Int
  LastLoginIp : String
  LoginFailure : Nat
  LockUntil : Option Int
  JoinIp : String
  JoinTime : Option Int
  Motto : String
  Password : String
  Status : Nat
  Apikey : Option String
  UpdateTime : Option Int
  CreateTime : Option Int
  DeleteTime : Option Int
  Language : String
  Country : String
  Token : String
deriving DecidableEq, Repr

/-- The table `users`. -/
structure UserTable where
  rows : List User
  nextID : Nat
deriving DecidableEq, Repr

/-- The table before any account was created. -/
def UserTable.empty : UserTable := ⟨[], 1⟩

/-- `GetUserByUsername`: `.. WHERE username = ? AND delete_time IS NULL`. -/
def GetUserByUsername (c : Collation) (t : UserTable) (username : String) : Option User :=
  t.rows.find? (fun u => c.eq u.Username username && u.DeleteTime.isNone)

/-- `GetUserByEmail`: `.. WHERE email = ? AND delete_time IS NULL`. -/
def GetUserByEmail (c : Collation) (t : UserTable) (email : String) : Option User :=
  t.rows.find? (fun u => c.eq u.Email email && u.DeleteTime.isNone)

/-- `GetUserByUsernameOrEmail`: `.. WHERE (username = ? OR email = ?) AND
delete_time IS NULL`; `none` is `sql.ErrNoRows`.  Of several matching rows the
first of the table is taken. -/
def GetUserByUsernameOrEmail (c : Collation) (t : UserTable) (identifier : String) : Option User :=
  t.rows.find? (fun u =>
    (c.eq u.Username identifier || c.eq u.Email identifier) && u.DeleteTime.isNone)

/-- `GetUserByID`: `.. WHERE id = ? AND delete_time IS NULL`. -/
def GetUserByID (t : UserTable) (id : Nat) : Option User :=
  t.rows.find? (fun u => u.ID == id && u.DeleteTime.isNone)

/-- The text of MySQL error 1062 (a unique key is violated). -/
def ErrDuplicate : String := "Error 1062 (23000): Duplicate entry"

/-- The text of MySQL error 1264 (a value outside the range of its column). -/
def ErrOutOfRange : String := "Error 1264 (22003): Out of range value for column"

/-- The text of MySQL error 1406 (a string longer than its column). -/
def ErrDataTooLong : String := "Error 1406 (22001): Data too long for column"

/-- A string is refused by a `VARCHAR(n)` column: in strict SQL mode, when it
has more than `n` characters and the characters after the `n`-th are not all
spaces (excess trailing spaces are cut in every mode). -/
def varcharRefused (strict : Bool) (n : Nat) (s : String) : Bool :=
  strict && decide (n < s.length) && !(s.data.drop n).all (fun ch => ch == ' ')

/-- The value a `VARCHAR(n)` column holds for a string that was written to it:
the string, cut to its first `n` characters when it has more. -/
def varcharStored (n : Nat) (s : String) : String :=
  if s.length ≤ n then s else String.mk (s.data.take n)

/-- The largest value of a `DECIMAL(10,2)` column, in hundredths. -/
def maxMoney : Int := 9999999999

/-- The error of the first column of `users` (`internal/db/mysql.go`) that
refuses its value of the `INSERT` of `CreateUser`, in strict SQL mode.  The
integer columns have the range of their Go types. -/
def User.refused (strict : Bool) (user : User) : Option String :=
  if varcharRefused strict 100 user.Username || varcharRefused strict 100 user.Nickname
      || varcharRefused strict 150 user.Email || varcharRefused strict 50 user.Mobile
      || varcharRefused strict 255 user.Avatar || varcharRefused strict 255 user.BackGround then
    some ErrDataTooLong
  else if strict && (decide (user.Money < -maxMoney) || decide (maxMoney < user.Money)) then
    some ErrOutOfRange
  else if varcharRefused strict 20 user.Role || varcharRefused strict 50 user.LastLoginIp
      || varcharRefused strict 50 user.JoinIp || varcharRefused strict 255 user.Motto
      || varcharRefused strict 255 user.Password
      || (match user.Apikey with
          | some key => varcharRefused strict 255 key
          | none => false)
      || varcharRefused strict 20 user.Language || varcharRefused strict 50 user.Country
      || varcharRefused strict 255 user.Token then
    some ErrDataTooLong
  else none

/-- The values of the `INSERT` of `CreateUser` as the columns of `users` hold
them: a string is cut to the width of its column, `money` to the range of
`DECIMAL(10,2)`. -/
def User.stored (user : User) : User :=
  { user with
    Username := varcharStored 100 user.Username
    Nickname := varcharStored 100 user.Nickname
    Email := varcharStored 150 user.Email
    Mobile := varcharStored 50 user.Mobile
    Avatar := varcharStored 255 user.Avatar
    BackGround := varcharStored 255 user.BackGround
    Money := max (-maxMoney) (min maxMoney user.Money)
    Role := varcharStored 20 user.Role
    LastLoginIp := varcharStored 50 user.LastLoginIp
    JoinIp := varcharStored 50 user.JoinIp
    Motto := varcharStored 255 user.Motto
    Password := varcharStored 255 user.Password
    Apikey := user.Apikey.map (varcharStored 255)
    Language := varcharStored 20 user.Language
    Country := varcharStored 50 user.Country
    Token := varcharStored 255 user.Token }

/-- The Go value of the account after `CreateUser` has filled in the times
(`now`, in seconds; the join time only when it is not set) and the defaults of
the group, the level, the status and the language, each where the field has
its zero value. -/
def User.withDefaults (user : User) (now : Int) : User :=
  { user with
    CreateTime := some now
    UpdateTime := some now
    JoinTime := if user.JoinTime.isNone then some now else user.JoinTime
    GroupId := if user.GroupId == 0 then 1 else user.GroupId
    Level := if user.Level == 0 then 1 else user.Level
    Status := if user.Status == 0 then 1 else user.Status
    Language := if user.Language == "" then "zh-CN" else user.Language }

/-- `CreateUser`: fill in the times and defaults, then `INSERT`.  The insert
fails when a column refuses its value (`User.refused`), or when a row
(soft-deleted or not) has the username, the email or the non-null api key that
would be stored: the unique keys `idx_users_username`, `idx_users_email`,
`idx_users_api_key`.  `lock_until` and `delete_time` are not among the inserted
columns and take their default, `NULL`.  Returns the table, the Go value of
the account and the error. -/
def CreateUser (strict : Bool) (c : Collation) (t : UserTable) (now : Int) (user : User) :
    UserTable × User × Option String :=
  let user := user.withDefaults (unix now)
  match user.refused strict with
  | some err => (t, user, some err)
  | none =>
    let row := user.stored
    if t.rows.any (fun u => c.eq u.Username row.Username || c.eq u.Email row.Email
        || (match u.Apikey, row.Apikey with
            | some a, some b => c.eq a b
            | _, _ => false)) then
      (t, user, some ErrDuplicate)
    else
      ({ rows := t.rows ++ [{ row with ID := t.nextID, LockUntil := none, DeleteTime := none }],
         nextID := t.nextID + 1 }, { user with ID := t.nextID }, none)

/-- `UpdatePassword`: `UPDATE users SET password = ?, update_time = ? WHERE id = ?`. -/
def UpdatePassword (t : UserTable) (now : Int) (userID : Nat) (hashedPassword : String) : UserTable :=
  { t with rows := t.rows.map (fun u =>
      if u.ID == userID then
        { u with Password := hashedPassword, UpdateTime := some (unix now) }
      else u) }

/-- `UpdateLoginInfo`: `UPDATE users SET last_login_time = ?, last_login_ip = ?,
login_failure = 0, lock_until = NULL, update_time = ? WHERE id = ?`. -/
def UpdateLoginInfo (t : UserTable) (now : Int) (userID : Nat) (loginIP : String) : UserTable :=
  { t with rows := t.rows.map (fun u =>
      if u.ID == userID then
        { u with LastLoginTime := some (unix now), LastLoginIp := loginIP, LoginFailure := 0,
                 LockUntil := none, UpdateTime := some (unix now) }
      else u) }

/-- The row after `UPDATE users SET login_failure = login_failure + 1,
update_time = ?` (outside strict mode a value above the `TINYINT UNSIGNED`
range is stored as 255). -/
def User.failed (u : User) (now : Int) : User :=
  { u with LoginFailure := min (u.LoginFailure + 1) 255, UpdateTime := some now }

/-- The row after `UPDATE users SET lock_until = ?, update_time = ?`. -/
def User.lockedTo (u : User) (now lockUntil : Int) : User :=
  { u with LockUntil := some lockUntil, UpdateTime := some now }

/-- `IncrementLoginFailure`: add one to `login_failure`, read it back and, when
it has reached `maxFailureCount`, set `lock_until` to `now + lockDurationMinutes*60`.

`login_failure` is `TINYINT UNSIGNED` (and `uint8` in Go): at 255 the first
`UPDATE` is rejected in strict SQL mode (error 1264, the function returns it
before locking) and leaves 255 in place otherwise. -/
def IncrementLoginFailure (strict : Bool) (t : UserTable) (now : Int) (userID : Nat)
    (maxFailureCount lockDurationMinutes : Int) : UserTable × Option String :=
  let now := unix now
  if strict && t.rows.any (fun u => u.ID == userID && decide (255 < u.LoginFailure + 1)) then
    (t, some ErrOutOfRange)
  else
    let t₁ : UserTable :=
      { t with rows := t.rows.map (fun u => if u.ID == userID then u.failed now else u) }
    match t₁.rows.find? (fun u => u.ID == userID) with
    | none => (t₁, some ErrNoRows)
    | some user =>
      if maxFailureCount ≤ (user.LoginFailure : Int) then
        let lockUntil := now + lockDurationMinutes * 60
        ({ t₁ with rows := t₁.rows.map (fun u =>
            if u.ID == userID then u.lockedTo now lockUntil else u) }, none)
      else (t₁, none)

/-! ## Tokens (`utils/jwt.go`, over `github.com/golang-jwt/jwt/v5`) -/

/-- `Claims`: `user_id`, `role` and the registered claim `exp`, a `NumericDate`
in whole seconds.  The other registered claims are never written by this
program and are left out. -/
structure Claims where
  UserID : Nat
  Role : String
  ExpiresAt : Option Int
deriving DecidableEq, Repr

/-- A message authentication code, symbolically: the algorithm, the key and
the message it was computed from.  Two codes are equal exactly when these are
(an ideal MAC). -/
structure Mac where
  alg : String
  key : String
  msg : Claims
deriving DecidableEq, Repr

/-- A well-formed compact token `header.payload.signature`. -/
structure SignedToken where
  alg : String
  claims : Claims
  mac : Mac
deriving DecidableEq, Repr

/-- A token string as it travels: well-formed or not. -/
inductive TokenString where
  | malformed (raw : String)
  | jws (tok : SignedToken)
deriving DecidableEq, Repr

/-- Why `jwt.ParseWithClaims` rejects a token. -/
inductive TokenError where
  | malformed
  | unverifiable
  | signatureInvalid
  | expired
deriving DecidableEq, Repr

/-- `GenerateTokenWithTTL`: claims `user_id`, `role` and
`exp = jwt.NewNumericDate(time.Now().Add(ttl))`, signed with HS256 under the
configured secret.  `NewNumericDate` truncates to `jwt.TimePrecision`, one
second.  Signing with a byte-slice key has no failing path. -/
def GenerateTokenWithTTL (secret : String) (now : Int) (userID : Nat) (role : String)
    (ttl : Int) : Except TokenError TokenString :=
  let claims : Claims := { UserID := userID, Role := role, ExpiresAt := some ((now + ttl) / Second) }
  .ok (.jws { alg := "HS256", claims := claims, mac := ⟨"HS256", secret, claims⟩ })

/-- `ParseToken`: `jwt.ParseWithClaims` with the configured secret as the key
for every token.  The library splits the token, checks the signature for the
algorithm named in the header (the byte-slice key fits the HMAC family only),
then validates the claims: with `exp` present it requires
`now.Before(exp)`. -/
def ParseToken (secret : String) (now : Int) (tokenString : TokenString) :
    Except TokenError Claims :=
  match tokenString with
  | .malformed _ => .error .malformed
  | .jws tok =>
    if !(tok.alg == "HS256" || tok.alg == "HS384" || tok.alg == "HS512") then
      .error .unverifiable
    else if tok.mac != ⟨tok.alg, secret, tok.claims⟩ then
      .error .signatureInvalid
    else
      match tok.claims.ExpiresAt with
      | some exp => if now < exp * Second then .ok tok.claims else .error .expired
      | none => .ok tok.claims

/-! ## Responses (`utils/response.go`) and configuration -/

/-- The `data` member of a response, one constructor for each shape the
handlers of `auth_controller.go` send. -/
inductive Payload where
  | null
  | message (text : String)
  | login (id : Nat) (userName email : String) (role : List String)
      (accessToken refreshToken : TokenString) (expiresAt : Int)
  | tokens (accessToken refreshToken : TokenString) (expiresAt : Int)
  | routes
deriving DecidableEq, Repr

/-- `utils.Response`. -/
structure Response where
  Code : Int
  Message : String
  Data : Payload
deriving DecidableEq, Repr

/-- `utils.Success`. -/
def Success (data : Payload) : Response := ⟨200, "OK", data⟩

/-- `utils.Fail`. -/
def Fail (code : Int) (message : String) : Response := ⟨code, message, .null⟩

/-- The fields of `config.GlobalConfig` the handlers read. -/
structure Config where
  AppName : String
  AppMode : String
  GeetestEnabled : Bool
  JWTSecret : String
  FrontendURL : String
  SMTPHost : String
  RegisterCodeExpireMinutes : Int
  LoginMaxFailureCount : Int
  LoginLockDurationMinutes : Int
  JWTAccessExpire : Int
  JWTRefreshExpire : Int
deriving DecidableEq, Repr

/-- What one request meets outside the program: the clock, the address and
headers gin reports, and the outcomes of the calls that leave the process
(`utils.ValidateGeetest`, `rnd.Intn(1000000)`, `utils.HashPassword`,
`utils.SendEmail`). -/
structure Ctx where
  now : Int
  clientIP : String
  xForwardedFor : String
  xRealIP : String
  acceptLanguage : String
  captchaOk : Bool
  rnd : Nat
  hashed : Option String
  mailErr : Option String
deriving DecidableEq, Repr

/-- Both tables. -/
structure Store where
  users : UserTable
  codes : CodeTable
deriving DecidableEq, Repr

/-- The text of a failed `binding` tag, as `validator` words it. -/
def bindingError (ty field tag : String) : String :=
  "Key: \x27" ++ ty ++ "." ++ field ++ "\x27 Error:Field validation for \x27" ++ field
    ++ "\x27 failed on the \x27" ++ tag ++ "\x27 tag"

/-! ## `Login` -/

/-- `LoginRequest`. -/
structure LoginRequest where
  UserName : String
  Username : String
  Password : String
deriving DecidableEq, Repr

/-- The minutes reported to a locked account: `(*user.LockUntil - now) / 60`,
the integer division of Go, which rounds towards zero. -/
def remainingMinutes (lockUntil now : Int) : Int := Int.tdiv (lockUntil - now) 60

/-- `UPDATE users SET lock_until = NULL WHERE id = ?`. -/
def clearLock (t : UserTable) (userID : Nat) : UserTable :=
  { t with rows := t.rows.map (fun u => if u.ID == userID then { u with LockUntil := none } else u) }

/-- The address `Login` records: `c.ClientIP()`, else `X-Forwarded-For`, else
`X-Real-IP`, else `unknown`. -/
def loginIP (ctx : Ctx) : String :=
  let clientIP := ctx.clientIP
  let clientIP :=
    if clientIP == "" then
      (if ctx.xForwardedFor == "" then ctx.xRealIP else ctx.xForwardedFor)
    else clientIP
  if clientIP == "" then "unknown" else clientIP

/-- The identifier `Login` looks up: the sanitised `userName`, or the sanitised
`username` when that is empty. -/
def loginName (d : Deps) (req : LoginRequest) : String :=
  let reqUserName := d.Clean_XSS req.UserName
  let reqUsername := d.Clean_XSS req.Username
  if reqUserName == "" then reqUsername else reqUserName

/-- The part of `AuthController.Login` after the lock check: the status check,
the password check with its failure path (`IncrementLoginFailure`) and the
success path (`UpdateLoginInfo`, two tokens). -/
def loginUnlocked (d : Deps) (cfg : Config) (ctx : Ctx) (req : LoginRequest)
    (t : UserTable) (user : User) : Response × UserTable :=
  if user.Status == 0 then (Fail 403 "Account is inactive", t)
  else if !d.CheckPasswordHash req.Password user.Password then
    (Fail 401 "Invalid account or password",
      (IncrementLoginFailure d.strict t ctx.now user.ID cfg.LoginMaxFailureCount
        cfg.LoginLockDurationMinutes).1)
  else
    let t := UpdateLoginInfo t ctx.now user.ID (loginIP ctx)
    let accessTTL := cfg.JWTAccessExpire * Second
    let refreshTTL := cfg.JWTRefreshExpire * Second
    let nowUnix := unix ctx.now
    match GenerateTokenWithTTL cfg.JWTSecret ctx.now user.ID user.Role accessTTL with
    | .error _ => (Fail 500 "Failed to generate access token", t)
    | .ok accessToken =>
      match GenerateTokenWithTTL cfg.JWTSecret ctx.now user.ID user.Role refreshTTL with
      | .error _ => (Fail 500 "Failed to generate refresh token", t)
      | .ok refreshToken =>
        (Success (.login user.ID user.Username user.Email [user.Role] accessToken refreshToken
          (nowUnix + cfg.JWTAccessExpire)), t)

/-- The message of a locked account. -/
def lockedMessage (lockUntil now : Int) : String :=
  "Account is locked. Please try again in " ++ toString (remainingMinutes lockUntil now)
    ++ " minutes"

/-- `AuthController.Login`, on a request body that parsed as JSON. -/
def Login (d : Deps) (cfg : Config) (t : UserTable) (ctx : Ctx) (req : LoginRequest) :
    Response × UserTable :=
  if req.Password == "" then
    (Fail 400 (bindingError "LoginRequest" "Password" "required"), t)
  else
    let username := loginName d req
    if username == "" then (Fail 400 "username is required", t)
    else if cfg.GeetestEnabled && !ctx.captchaOk then (Fail 403 "Captcha validation failed", t)
    else
      match GetUserByUsernameOrEmail d.coll t username with
      | none => (Fail 401 "Invalid account or password", t)
      | some user =>
        let now := unix ctx.now
        match user.LockUntil with
        | some lockUntil =>
          if lockUntil > now then (Fail 403 (lockedMessage lockUntil now), t)
          else loginUnlocked d cfg ctx req (clearLock t user.ID) user
        | none => loginUnlocked d cfg ctx req t user

/-! ## `Register` -/

/-- `RegisterRequest`. -/
structure RegisterRequest where
  Username : String
  Password : String
  Email : String
  Code : String
deriving DecidableEq, Repr

/-- The `binding` tags of `RegisterRequest`: the text of the error when
`ShouldBindJSON` rejects the request. -/
def bindRegister (d : Deps) (req : RegisterRequest) : Option String :=
  let errs : List String :=
    (if req.Username == "" then [bindingError "RegisterRequest" "Username" "required"] else [])
    ++ (if req.Password == "" then [bindingError "RegisterRequest" "Password" "required"] else [])
    ++ (if req.Email == "" then [bindingError "RegisterRequest" "Email" "required"]
        else if !d.validEmail req.Email then [bindingError "RegisterRequest" "Email" "email"]
        else if 255 < req.Email.length then [bindingError "RegisterRequest" "Email" "max"]
        else [])
    ++ (if req.Code == "" then [bindingError "RegisterRequest" "Code" "required"] else [])
  if errs.isEmpty then none else some ("\n".intercalate errs)

/-- The regular expression `^[a-zA-Z0-9_]{3,50}$` of `Register`. -/
def usernameRegex (s : String) : Bool :=
  decide (3 ≤ s.length) && decide (s.length ≤ 50)
    && s.data.all (fun ch => ch.isAlphanum || ch == '_')

/-- The zero value of `models.User`. -/
def User.zero : User where
  ID := 0
  GroupId := 0
  Username := ""
  Nickname := ""
  Email := ""
  Mobile := ""
  Avatar := ""
  BackGround := ""
  Gender := 0
  Birthday := none
  Money := 0
  Score := 0
  Level := 0
  Role := ""
  LastLoginTime := none
  LastLoginIp := ""
  LoginFailure := 0
  LockUntil := none
  JoinIp := ""
  JoinTime := none
  Motto := ""
  Password := ""
  Status := 0
  Apikey := none
  UpdateTime := none
  CreateTime := none
  DeleteTime := none
  Language := ""
  Country := ""
  Token := ""

/-- `AuthController.Register`, on a request body that parsed as JSON. -/
def Register (d : Deps) (cfg : Config) (s : Store) (ctx : Ctx) (req : RegisterRequest) :
    Response × Store :=
  match bindRegister d req with
  | some err => (Fail 400 err, s)
  | none =>
    let username := d.Clean_XSS req.Username
    let email := d.Clean_XSS req.Email
    let code := d.Clean_XSS req.Code
    match VerifyCode d.coll s.codes ctx.now email code "register" with
    | (valid, codeID, err) =>
      if err.isSome || !valid then (Fail 400 "Invalid or expired verification code", s)
      else
        let codes := MarkVerificationCodeAsUsed s.codes ctx.now codeID
        let codes := DeleteVerificationCodesByEmail d.coll codes email "register"
        let s : Store := { s with codes := codes }
        if !usernameRegex username then
          (Fail 400 ("Username must be 3-50 characters long and contain only letters, "
            ++ "numbers, and underscores"), s)
        else if (GetUserByUsername d.coll s.users username).isSome then
          (Fail 400 "Username already exists", s)
        else if (GetUserByEmail d.coll s.users email).isSome then
          (Fail 400 "Email already exists", s)
        else if cfg.GeetestEnabled && !ctx.captchaOk then
          (Fail 403 "Captcha validation failed", s)
        else
          match ctx.hashed with
          | none => (Fail 500 "Failed to hash password", s)
          | some hashedPassword =>
            let user : User :=
              { User.zero with
                Username := username, Password := hashedPassword, Email := email,
                Role := "user", Status := 1 }
            match CreateUser d.strict d.coll s.users ctx.now user with
            | (_, _, some err) =>
              if cfg.AppMode == "dev" then (Fail 500 ("Failed to create user: " ++ err), s)
              else (Fail 500 "Failed to create user", s)
            | (users, _, none) =>
              (Success (.message "User registered successfully"), { s with users := users })

/-! ## `SendResetEmail` -/

/-- `ResetEmailRequest`. -/
structure ResetEmailRequest where
  Email : String
  Lang : String
deriving DecidableEq, Repr

/-- The code of six digits: `fmt.Sprintf("%06d", n)`. -/
def code06 (n : Nat) : String :=
  let ds := Nat.toDigits 10 n
  String.mk (List.replicate (6 - ds.length) '0' ++ ds)

/-- `AuthController.SendResetEmail`, on a request body that parsed as JSON.
The rendering of the mail (template, language, link) only feeds
`utils.SendEmail` and the mail log, which are outside the program; the outcome
of the delivery is `ctx.mailErr`. -/
def SendResetEmail (d : Deps) (cfg : Config) (s : Store) (ctx : Ctx) (req : ResetEmailRequest) :
    Response × Store :=
  if req.Email == "" then (Fail 400 (bindingError "ResetEmailRequest" "Email" "required"), s)
  else
    let email := d.Clean_XSS req.Email
    match GetUserByUsernameOrEmail d.coll s.users email with
    | none => (Success (.message "If the email exists, a reset code has been sent"), s)
    | some user =>
      let code := code06 ctx.rnd
      let expiresAt := ctx.now + 15 * Minute
      let s : Store :=
        { s with codes :=
            CreateVerificationCode d.coll s.codes ctx.now user.Email code "reset_password" expiresAt }
      if cfg.SMTPHost != "" then
        match ctx.mailErr with
        | some _ => (Fail 500 "Failed to send email", s)
        | none => (Success (.message "Reset email sent"), s)
      else if cfg.AppMode != "production" then
        (Fail 500 "SMTP not configured (Check server logs for code)", s)
      else (Fail 500 "SMTP service not configured", s)


/-- The account `v` differs from `u` at most in the five columns
`last_login_time`, `last_login_ip`, `login_failure`, `lock_until` and
`update_time`. -/
def User.loginFrame (u v : User) : Prop :=
  v = { u with
        LastLoginTime := v.LastLoginTime, LastLoginIp := v.LastLoginIp,
        LoginFailure := v.LoginFailure, LockUntil := v.LockUntil, UpdateTime := v.UpdateTime }

/-! ## The sanitiser (`utils/validate.go`)

`Clean_XSS` is built from `strings.TrimSpace`, `html.EscapeString` and
`regexp.ReplaceAllString`.  The regular expressions are embedded as terms of
`Re`, run by a backtracking matcher: the match Go reports (leftmost, and among
the leftmost the one a backtracking search finds first) is the one the matcher
returns.  Every repetition in the expressions of `Clean_XSS` is over a single
character class, and none of the expressions matches the empty string. -/

/-- `unicode.IsSpace`. -/
def isSpace (c : Char) : Bool :=
  (9 ≤ c.toNat && c.toNat ≤ 13) || c.toNat == 32 || c.toNat == 0x85 || c.toNat == 0xA0
    || c.toNat == 0x1680 || (0x2000 ≤ c.toNat && c.toNat ≤ 0x200A) || c.toNat == 0x2028
    || c.toNat == 0x2029 || c.toNat == 0x202F || c.toNat == 0x205F || c.toNat == 0x3000

/-- `strings.TrimSpace`. -/
def trimSpace (s : List Char) : List Char :=
  ((s.dropWhile isSpace).reverse.dropWhile isSpace).reverse

/-- `html.EscapeString`: the five characters it replaces. -/
def escapeChar (c : Char) : List Char :=
  if c == '<' then "&lt;".data
  else if c == '>' then "&gt;".data
  else if c == '&' then "&amp;".data
  else if c.toNat == 39 then "&#39;".data
  else if c == '"' then "&#34;".data
  else [c]

/-- `html.EscapeString`. -/
def escapeString (s : List Char) : List Char := s.flatMap escapeChar

/-- The regular expressions of `Clean_XSS`. -/
inductive Re where
  | eps
  | chr (p : Char → Bool)
  | many (greedy : Bool) (p : Char → Bool)
  | seq (a b : Re)
  | alt (a b : Re)
  | wordBoundary
  | endText

/-- The word characters of `\b` and `\w`: `[0-9A-Za-z_]`. -/
def isWordChar (c : Char) : Bool := c.isAlphanum || c == '_'

/-- A character of the expression under `(?i)`: it matches the characters with
the same simple case folding, which for `k` and `s` include the Kelvin sign
and the long s. -/
def foldEq (c x : Char) : Bool :=
  x.toLower == c.toLower || (c.toLower == 's' && x.toNat == 0x17F)
    || (c.toLower == 'k' && x.toNat == 0x212A)

/-- `\w` under `(?i)`: the class is closed under case folding. -/
def isWordCharFold (c : Char) : Bool := isWordChar c || c.toNat == 0x17F || c.toNat == 0x212A

/-- `\s`: `[\t\n\f\r ]`. -/
def isPerlSpace (c : Char) : Bool :=
  c == '\t' || c == '\n' || c.toNat == 12 || c == '\r' || c == ' '

/-- The dot: any character but the line feed. -/
def notNewline (c : Char) : Bool := c != '\n'

/-- `[0-9a-fA-F]`. -/
def isHex (c : Char) : Bool :=
  c.isDigit || (97 ≤ c.toNat && c.toNat ≤ 102) || (65 ≤ c.toNat && c.toNat ≤ 70)

/-- A literal string of an expression, under `(?i)` when `fold` is set. -/
def Re.lit (fold : Bool) (s : String) : Re :=
  s.data.foldr (fun c r => .seq (.chr (if fold then foldEq c else fun x => x == c)) r) .eps

/-- A repetition `p*` (greedy) or `p*?` of a character class, followed by the
continuation `k`; `prev` is the character before the position. -/
def Re.manyRun (greedy : Bool) (p : Char → Bool)
    (k : Option Char → List Char → Option (Option Char × List Char)) :
    Option Char → List Char → Option (Option Char × List Char)
  | prev, [] => k prev []
  | prev, c :: cs =>
    if p c then
      if greedy then
        match Re.manyRun greedy p k (some c) cs with
        | some r => some r
        | none => k prev (c :: cs)
      else
        match k prev (c :: cs) with
        | some r => some r
        | none => Re.manyRun greedy p k (some c) cs
    else k prev (c :: cs)

/-- The backtracking matcher: `re.run k prev s` matches `re` at the start of `s`
(with `prev` the character before it) and hands the rest to `k`; the first
success in the order of a backtracking search is the result. -/
def Re.run : Re → (Option Char → List Char → Option (Option Char × List Char)) →
    Option Char → List Char → Option (Option Char × List Char)
  | .eps, k, prev, s => k prev s
  | .chr _, _, _, [] => none
  | .chr p, k, _, c :: cs => if p c then k (some c) cs else none
  | .many greedy p, k, prev, s => Re.manyRun greedy p k prev s
  | .seq a b, k, prev, s => a.run (fun prev₁ s₁ => b.run k prev₁ s₁) prev s
  | .alt a b, k, prev, s =>
    match a.run k prev s with
    | some r => some r
    | none => b.run k prev s
  | .wordBoundary, k, prev, s =>
    if (prev.any isWordChar) != (s.head?.any isWordChar) then k prev s else none
  | .endText, k, prev, s => if s.isEmpty then k prev s else none

/-- `ReplaceAllString` on the text after `prev`, for an expression that matches
no empty string and a replacement without `$`: the leftmost match is
replaced and the search goes on behind it.  `fuel` bounds the number of
steps; the length of the text plus one is enough. -/
def Re.replaceAllAux (re : Re) (repl : List Char) : Nat → Option Char → List Char → List Char
  | 0, _, s => s
  | _ + 1, _, [] => []
  | fuel + 1, prev, c :: cs =>
    match re.run (fun p r => some (p, r)) prev (c :: cs) with
    | some (p, rest) => repl ++ Re.replaceAllAux re repl fuel p rest
    | none => c :: Re.replaceAllAux re repl fuel (some c) cs

/-- `regexp.MustCompile(pattern).ReplaceAllString(input, replace)`. -/
def Re.replaceAll (re : Re) (repl : String) (s : List Char) : List Char :=
  Re.replaceAllAux re repl.data (s.length + 1) none s

/-- The alternatives `a|b|..` of a list of literals under `(?i)`. -/
def Re.anyLit (ws : List String) : Re :=
  ws.foldr (fun w r => .alt (Re.lit true w) r) (.chr (fun _ => false))

/-- `sqlDangerousPatterns`, in order, each with its replacement. -/
def sqlDangerousPatterns : List (Re × String) :=
  [ (.seq .wordBoundary (.seq (Re.anyLit ["union", "select", "insert", "update", "delete", "drop",
        "create", "alter", "exec", "execute", "sp_", "xp_"]) .wordBoundary), "[FILTERED]"),
    (.seq (Re.lit false "--") (.seq (.many true notNewline) .endText), ""),
    (.seq (Re.lit false "/*") (.seq (.many false notNewline) (Re.lit false "*/")), ""),
    (.chr (fun c => c.toNat == 39 || c == '"' || c == ';'), ""),
    (.seq (Re.lit false "0x") (.seq (.chr isHex) (.many true isHex)), "[HEX]") ]

/-- `xssDangerousPatterns`, in order, each with its replacement. -/
def xssDangerousPatterns : List (Re × String) :=
  [ (.seq (Re.lit true "<script") (.seq (.many true (fun c => c != '>')) (.seq (.chr (fun c => c == '>'))
        (.seq (.many false notNewline) (Re.lit true "</script>")))), "[SCRIPT_REMOVED]"),
    (.seq (Re.lit true "<script") (.seq (.many true (fun c => c != '>')) (.chr (fun c => c == '>'))),
      "[SCRIPT_REMOVED]"),
    (.seq (.many true isPerlSpace) (.seq (Re.lit true "on") (.seq (.chr isWordCharFold)
        (.seq (.many true isWordCharFold) (.seq (.many true isPerlSpace) (.chr (fun c => c == '=')))))),
      " data-removed="),
    (Re.lit true "javascript:", "data:"),
    (Re.lit true "vbscript:", "data:"),
    (.seq (Re.lit true "data:") (.seq (.many false notNewline) (Re.lit true "base64")),
      "data:text/plain"),
    (.seq (.chr (fun c => c == '<')) (.seq (Re.anyLit ["iframe", "object", "embed", "applet"])
        (.seq (.many true (fun c => c != '>')) (.chr (fun c => c == '>')))), "[OBJECT_REMOVED]"),
    (.seq (Re.lit true "expression") (.seq (.many true isPerlSpace) (.chr (fun c => c == '('))),
      "[EXPRESSION_REMOVED](") ]

/-- `[\x00-\x08\x0B\x0C\x0E-\x1F\x7F]`. -/
def isControlChar (c : Char) : Bool :=
  c.toNat ≤ 8 || c.toNat == 11 || c.toNat == 12 || (14 ≤ c.toNat && c.toNat ≤ 31) || c.toNat == 127

/-- `Clean_XSS` on the characters of a non-empty input. -/
def cleanChars (input : List Char) : List Char :=
  let input := trimSpace input
  let input := escapeString input
  let input := sqlDangerousPatterns.foldl (fun s p => p.1.replaceAll p.2 s) input
  let input := xssDangerousPatterns.foldl (fun s p => p.1.replaceAll p.2 s) input
  let input := (Re.chr isControlChar).replaceAll "" input
  trimSpace input

/-- `Clean_XSS`. -/
def Clean_XSS (input : String) : String :=
  if input == "" then input else String.mk (cleanChars input.data)

/-! ## `UpdateToken` and `SendRegisterCode` -/

/-- `RefreshTokenRequest`. -/
structure RefreshTokenRequest where
  RefreshToken : TokenString
deriving DecidableEq, Repr

/-- `AuthController.UpdateToken`, on a request body that parsed as JSON.  The
handler reads and writes no table; the store is passed through. -/
def UpdateToken (cfg : Config) (s : Store) (ctx : Ctx) (req : RefreshTokenRequest) :
    Response × Store :=
  if req.RefreshToken == .malformed "" then
    (Fail 400 (bindingError "RefreshTokenRequest" "RefreshToken" "required"), s)
  else
    match ParseToken cfg.JWTSecret ctx.now req.RefreshToken with
    | .error _ => (Fail 401 "Invalid or expired refresh token", s)
    | .ok claims =>
      let accessTTL := cfg.JWTAccessExpire * Second
      let refreshTTL := cfg.JWTRefreshExpire * Second
      let nowUnix := unix ctx.now
      match GenerateTokenWithTTL cfg.JWTSecret ctx.now claims.UserID claims.Role accessTTL with
      | .error _ => (Fail 500 "Failed to generate access token", s)
      | .ok accessToken =>
        match GenerateTokenWithTTL cfg.JWTSecret ctx.now claims.UserID claims.Role refreshTTL with
        | .error _ => (Fail 500 "Failed to generate refresh token", s)
        | .ok refreshToken =>
          (Success (.tokens accessToken refreshToken (nowUnix + cfg.JWTAccessExpire)), s)

/-- `SendCodeRequest`. -/
structure SendCodeRequest where
  Email : String
  Lang : String
deriving DecidableEq, Repr

/-- `AuthController.SendRegisterCode`, on a request body that parsed as JSON.
As in `SendResetEmail`, the rendering of the mail is left out and the outcome
of the delivery is `ctx.mailErr`. -/
def SendRegisterCode (d : Deps) (cfg : Config) (s : Store) (ctx : Ctx) (req : SendCodeRequest) :
    Response × Store :=
  if req.Email == "" then (Fail 400 (bindingError "SendCodeRequest" "Email" "required"), s)
  else if !d.validEmail req.Email then
    (Fail 400 (bindingError "SendCodeRequest" "Email" "email"), s)
  else
    let email := d.Clean_XSS req.Email
    let code := code06 ctx.rnd
    let expiresAt := ctx.now + cfg.RegisterCodeExpireMinutes * Minute
    let s : Store :=
      { s with codes := CreateVerificationCode d.coll s.codes ctx.now email code "register" expiresAt }
    if cfg.SMTPHost != "" then
      match ctx.mailErr with
      | some err =>
        if cfg.AppMode == "dev" then (Fail 500 "Email send failed (Check server logs for code)", s)
        else (Fail 500 ("Failed to send email: " ++ err), s)
      | none => (Success (.message "Verification code sent"), s)
    else if cfg.AppMode != "production" then
      (Fail 500 "SMTP not configured (Check server logs for code)", s)
    else (Fail 500 "SMTP service not configured", s)

/-- The token `GenerateTokenWithTTL` builds. -/
def signedToken (secret : String) (now : Int) (userID : Nat) (role : String) (ttl : Int) :
    TokenString :=
  .jws { alg := "HS256", claims := ⟨userID, role, some ((now + ttl) / Second)⟩,
         mac := ⟨"HS256", secret, ⟨userID, role, some ((now + ttl) / Second)⟩⟩ }

/-- The code table after a handler has consumed a code: the row marked used,
then every code of the email and type deleted. -/
def consumeCode (c : Collation) (t : CodeTable) (now : Int) (codeID : Nat)
    (email codeType : String) : CodeTable :=
  DeleteVerificationCodesByEmail c (MarkVerificationCodeAsUsed t now codeID) email codeType

/-! ## The words of the specification -/

/-- The number a string of decimal digits denotes. -/
def decimalValue (s : String) : Nat :=
  s.data.foldl (fun acc c => 10 * acc + (c.toNat - 48)) 0

/-- The username shape as the specification words it: 3 to 50 characters, each
an ASCII letter, a digit or an underscore. -/
def usernameShape (s : String) : Prop :=
  3 ≤ s.length ∧ s.length ≤ 50
    ∧ ∀ c ∈ s.data, ('a' ≤ c ∧ c ≤ 'z') ∨ ('A' ≤ c ∧ c ≤ 'Z') ∨ ('0' ≤ c ∧ c ≤ '9') ∨ c = '_'

instance (s : String) : Decidable (usernameShape s) := by
  unfold usernameShape
  exact inferInstance

/-- The message of `Register` for a username of the wrong shape. -/
def usernameMessage : String :=
  "Username must be 3-50 characters long and contain only letters, "
    ++ "numbers, and underscores"

/-- The request passes the binding, the username check and the captcha gate of
`Login`. -/
def passesGate (d : Deps) (cfg : Config) (ctx : Ctx) (req : LoginRequest) : Prop :=
  req.Password ≠ "" ∧ loginName d req ≠ "" ∧ (cfg.GeetestEnabled = true → ctx.captchaOk = true)

instance (d : Deps) (cfg : Config) (ctx : Ctx) (req : LoginRequest) :
    Decidable (passesGate d cfg ctx req) := by
  unfold passesGate
  exact inferInstance

/-- The request is a login attempt on the account `user`: it passes the gate
and the lookup of `Login` finds `user` in the table. -/
def reaches (d : Deps) (cfg : Config) (t : UserTable) (ctx : Ctx) (req : LoginRequest)
    (user : User) : Prop :=
  passesGate d cfg ctx req ∧ GetUserByUsernameOrEmail d.coll t (loginName d req) = some user

instance (d : Deps) (cfg : Config) (t : UserTable) (ctx : Ctx) (req : LoginRequest) (user : User) :
    Decidable (reaches d cfg t ctx req user) := by
  unfold reaches
  exact inferInstance

/-- The table after a run of `Login` calls made one after the other. -/
def loginRun (d : Deps) (cfg : Config) (t : UserTable) : List (Ctx × LoginRequest) → UserTable
  | [] => t
  | p :: rest => loginRun d cfg (Login d cfg t p.1 p.2).2 rest

/-- The table in which the row with the id of `a` is `a`. -/
def UserTable.put (t : UserTable) (a : User) : UserTable :=
  { t with rows := t.rows.map (fun u => if u.ID == a.ID then a else u) }

/-- The account `a` is the account `a₀` after `k` failed logins that have not
locked it: only the failure count and the update time may differ. -/
def User.failedFrom (a a₀ : User) (k : Nat) : Prop :=
  a = { a₀ with LoginFailure := k, LockUntil := none, UpdateTime := a.UpdateTime }

/-! ## `ResetPasswordConfirm` -/

/-- `ResetPasswordConfirmRequest`. -/
structure ResetPasswordConfirmRequest where
  Email : String
  Code : String
  NewPassword : String
deriving DecidableEq, Repr

/-- The `binding` tags of `ResetPasswordConfirmRequest`: the text of the error
when `ShouldBindJSON` rejects the request. -/
def bindResetPasswordConfirm (d : Deps) (req : ResetPasswordConfirmRequest) : Option String :=
  let errs : List String :=
    (if req.Email == "" then [bindingError "ResetPasswordConfirmRequest" "Email" "required"]
     else if !d.validEmail req.Email then
       [bindingError "ResetPasswordConfirmRequest" "Email" "email"]
     else [])
    ++ (if req.Code == "" then [bindingError "ResetPasswordConfirmRequest" "Code" "required"]
        else [])
    ++ (if req.NewPassword == "" then
          [bindingError "ResetPasswordConfirmRequest" "NewPassword" "required"]
        else [])
  if errs.isEmpty then none else some ("\n".intercalate errs)

/-- `AuthController.ResetPasswordConfirm`, on a request body that parsed as
JSON.  `ctx.hashed` is the outcome of `utils.HashPassword(req.NewPassword)`. -/
def ResetPasswordConfirm (d : Deps) (s : Store) (ctx : Ctx) (req : ResetPasswordConfirmRequest) :
    Response × Store :=
  match bindResetPasswordConfirm d req with
  | some err => (Fail 400 err, s)
  | none =>
    let email := d.Clean_XSS req.Email
    let code := d.Clean_XSS req.Code
    match VerifyCode d.coll s.codes ctx.now email code "reset_password" with
    | (valid, codeID, err) =>
      if err.isSome || !valid then (Fail 400 "Invalid or expired reset token", s)
      else
        let codes := MarkVerificationCodeAsUsed s.codes ctx.now codeID
        let codes := DeleteVerificationCodesByEmail d.coll codes email "reset_password"
        let s : Store := { s with codes := codes }
        match GetUserByEmail d.coll s.users email with
        | none => (Fail 400 "User not found", s)
        | some user =>
          match ctx.hashed with
          | none => (Fail 500 "Failed to hash password", s)
          | some hashedPassword =>
            (Success (.message "Password reset successfully"),
              { s with users := UpdatePassword s.users ctx.now user.ID hashedPassword })

/-! ## The account service (`app/services/user_service.go`) -/

/-- `UserCreateRequest`. -/
structure UserCreateRequest where
  Username : String
  Password : String
  Email : String
  Nickname : String
  Mobile : String
  Role : String
  Status : Nat
  GroupID : Nat
deriving DecidableEq, Repr

/-- `UserService.Create`: refuse a username or an email that an undeleted
account has, then `CreateUser`.  Returns the table, the account and the
error. -/
def UserService.Create (strict : Bool) (c : Collation) (t : UserTable) (now : Int)
    (req : UserCreateRequest) : UserTable × Option User × Option String :=
  if (GetUserByUsername c t req.Username).isSome then (t, none, some "用户名已存在")
  else if (GetUserByEmail c t req.Email).isSome then (t, none, some "邮箱已存在")
  else
    let user : User :=
      { User.zero with
        Username := req.Username, Email := req.Email, Nickname := req.Nickname,
        Mobile := req.Mobile, Role := req.Role, Status := req.Status, GroupId := req.GroupID,
        Password := req.Password }
    let user := if user.Role == "" then { user with Role := "user" } else user
    match CreateUser strict c t now user with
    | (t, _, some err) => (t, none, some err)
    | (t, user, none) => (t, some user, none)

/-- `UserUpdateRequest`. -/
structure UserUpdateRequest where
  ID : Nat
  Nickname : String
  Email : String
  Mobile : String
  Avatar : String
  Gender : Nat
  Birthday : Option Int
  Motto : String
  Role : String
  Status : Nat
  GroupID : Nat
deriving DecidableEq, Repr

/-- The Go value of the account in `UserService.Update` after the fields of
the request that are set were copied into it. -/
def UserUpdateRequest.applyTo (req : UserUpdateRequest) (user : User) (now : Int) : User :=
  let user := if req.Nickname != "" then { user with Nickname := req.Nickname } else user
  let user := if req.Mobile != "" then { user with Mobile := req.Mobile } else user
  let user := if req.Avatar != "" then { user with Avatar := req.Avatar } else user
  let user := if req.Gender > 0 then { user with Gender := req.Gender } else user
  let user := if req.Birthday.isSome then { user with Birthday := req.Birthday } else user
  let user := if req.Motto != "" then { user with Motto := req.Motto } else user
  let user := if req.Role != "" then { user with Role := req.Role } else user
  let user := if req.Status > 0 then { user with Status := req.Status } else user
  let user := if req.GroupID > 0 then { user with GroupId := req.GroupID } else user
  { user with UpdateTime := some (unix now) }

/-- The row after `UPDATE users SET nickname = :nickname, email = :email,
mobile = :mobile, avatar = :avatar, gender = :gender, birthday = :birthday,
motto = :motto, role = :role, status = :status, group_id = :group_id,
update_time = :update_time`, the values taken from `user`. -/
def User.updatedFrom (u user : User) : User :=
  { u with
    Nickname := user.Nickname, Email := user.Email, Mobile := user.Mobile, Avatar := user.Avatar,
    Gender := user.Gender, Birthday := user.Birthday, Motto := user.Motto, Role := user.Role,
    Status := user.Status, GroupId := user.GroupId, UpdateTime := user.UpdateTime }

/-- The values of the `UPDATE` of `UserService.Update` as the columns hold
them. -/
def User.updateStored (user : User) : User :=
  { user with
    Nickname := varcharStored 100 user.Nickname
    Email := varcharStored 150 user.Email
    Mobile := varcharStored 50 user.Mobile
    Avatar := varcharStored 255 user.Avatar
    Motto := varcharStored 255 user.Motto
    Role := varcharStored 20 user.Role }

/-- `UserService.Update`: look the account up by id, refuse an email that
another undeleted account has, copy the fields of the request that are set and
write the row back.  The `UPDATE` fails when a column refuses its value (error
1406) and, on a table that satisfies the unique key `idx_users_email`, exactly
when another row, soft-deleted or not, has the email that would be stored
(error 1062). -/
def UserService.Update (strict : Bool) (c : Collation) (t : UserTable) (now : Int)
    (req : UserUpdateRequest) : UserTable × Option String :=
  match GetUserByID t req.ID with
  | none => (t, some "用户不存在")
  | some user =>
    let newEmail := req.Email != "" && req.Email != user.Email
    if newEmail && (match GetUserByEmail c t req.Email with
        | some existing => existing.ID != user.ID
        | none => false) then
      (t, some "邮箱已被使用")
    else
      let user := if newEmail then { user with Email := req.Email } else user
      let user := req.applyTo user now
      if varcharRefused strict 100 user.Nickname || varcharRefused strict 150 user.Email
          || varcharRefused strict 50 user.Mobile || varcharRefused strict 255 user.Avatar
          || varcharRefused strict 255 user.Motto || varcharRefused strict 20 user.Role then
        (t, some ErrDataTooLong)
      else if t.rows.any (fun u => u.ID != user.ID && c.eq u.Email user.updateStored.Email) then
        (t, some ErrDuplicate)
      else
        ({ t with rows := t.rows.map (fun u =>
            if u.ID == user.ID then u.updatedFrom user.updateStored else u) }, none)

/-- `UserService.Delete`: `UPDATE users SET delete_time = ? WHERE id = ?`. -/
def UserService.Delete (t : UserTable) (now : Int) (userID : Nat) : UserTable :=
  { t with rows := t.rows.map (fun u =>
      if u.ID == userID then { u with DeleteTime := some (unix now) } else u) }

/-- The states of the account table that `AuthController.Register` and the
`Create`, `Update` and `Delete` of `UserService` reach from the empty table,
one call at a time, at any time and on any arguments (the code table a
registration meets is arbitrary). -/
inductive UserTable.Reachable (d : Deps) : UserTable → Prop
  | empty : Reachable d UserTable.empty
  | register {t} (cfg : Config) (codes : CodeTable) (ctx : Ctx) (req : RegisterRequest) :
      Reachable d t → Reachable d (Register d cfg ⟨t, codes⟩ ctx req).2.users
  | create {t} (now : Int) (req : UserCreateRequest) :
      Reachable d t → Reachable d (UserService.Create d.strict d.coll t now req).1
  | update {t} (now : Int) (req : UserUpdateRequest) :
      Reachable d t → Reachable d (UserService.Update d.strict d.coll t now req).1
  | delete {t} (now : Int) (userID : Nat) :
      Reachable d t → Reachable d (UserService.Delete t now userID)

/-- The unique keys of `users` (`PRIMARY KEY (id)`, `idx_users_username`,
`idx_users_email`) hold and every id is below the `AUTO_INCREMENT` counter. -/
def UserTable.keysHold (c : Collation) (t : UserTable) : Prop :=
  t.rows.Pairwise (fun a b =>
    a.ID ≠ b.ID ∧ c.eq a.Username b.Username = false ∧ c.eq a.Email b.Email = false)
  ∧ ∀ u ∈ t.rows, u.ID < t.nextID

/-! ## The human-verification settings (`internal/config/config.go`) -/

/-- `strconv.ParseBool`; `none` is the syntax error. -/
def ParseBool (str : String) : Option Bool :=
  if str == "1" || str == "t" || str == "T" || str == "TRUE" || str == "true" || str == "True" then
    some true
  else if str == "0" || str == "f" || str == "F" || str == "FALSE" || str == "false"
      || str == "False" then
    some false
  else none

/-- `strings.TrimSpace` on a string. -/
def TrimSpace (s : String) : String := String.mk (trimSpace s.data)

/-- `getEnv`: the value of the variable when it is set (`os.LookupEnv`), else
the fallback. -/
def getEnv (env : String → Option String) (key fallback : String) : String :=
  match env key with
  | some value => value
  | none => fallback

/-- The members of a JSON `.env` that configure the human-verification gate. -/
structure jsonDotEnv where
  GeetestEnabled : String
  GeetestCaptchaID : String
  GeetestCaptchaKey : String
deriving DecidableEq, Repr

/-- The fields of `Config` that configure the human-verification gate. -/
structure GeetestConfig where
  GeetestEnabled : Bool
  GeetestID : String
  GeetestKey : String
deriving DecidableEq, Repr

/-- `loadJSONDotEnv`, the human-verification fields; `dotenv` is the content of
`.env` when the file exists and is a JSON object (`none`: the loader
returns `nil, false`).  On a syntax error `ParseBool` returns `false`. -/
def loadJSONDotEnv (dotenv : Option jsonDotEnv) : Option GeetestConfig :=
  match dotenv with
  | none => none
  | some raw =>
    let geetestEnabled := (ParseBool (TrimSpace raw.GeetestEnabled)).getD false
    some { GeetestEnabled := geetestEnabled && raw.GeetestCaptchaID != ""
             && raw.GeetestCaptchaKey != "",
           GeetestID := raw.GeetestCaptchaID,
           GeetestKey := raw.GeetestCaptchaKey }

/-- `InitConfig`, the human-verification fields: the JSON `.env` when there is
one, else the environment (after `godotenv.Load`). -/
def InitConfig (dotenv : Option jsonDotEnv) (env : String → Option String) : GeetestConfig :=
  match loadJSONDotEnv dotenv with
  | some cfg => cfg
  | none =>
    let geetestEnabled := (ParseBool (TrimSpace (getEnv env "GEETEST_ENABLED" "false"))).getD false
    let geetestEnabled :=
      if !geetestEnabled then
        (ParseBool (TrimSpace (getEnv env "GEETEST_ENABLE" "false"))).getD false
      else geetestEnabled
    let geetestID := getEnv env "GEETEST_ID" ""
    let geetestID := if geetestID == "" then getEnv env "GEETEST_CAPTCHA_ID" "" else geetestID
    let geetestKey := getEnv env "GEETEST_KEY" ""
    let geetestKey := if geetestKey == "" then getEnv env "GEETEST_CAPTCHA_KEY" "" else geetestKey
    { GeetestEnabled := geetestEnabled && geetestID != "" && geetestKey != "",
      GeetestID := geetestID,
      GeetestKey := geetestKey }

/-- The characters the sanitiser is to keep out of its output: `<`, `>`, the
single quote, the double quote and `;`. -/
def isDangerousChar (c : Char) : Bool :=
  c == '<' || c == '>' || c.toNat == 39 || c == '"' || c == ';'

/-! ## Sample data for the concrete runs -/

/-- A server in strict SQL mode with the binary collation, a password check
that accepts the hash `hash:` followed by the password, and a sanitiser that
returns its input (the samples below only pass it ASCII letters, digits, `@`,
`.` and `_`, in which `Clean_XSS` finds nothing to change). -/
def sampleDeps : Deps where
  strict := true
  coll := Collation.binary
  Clean_XSS s := s
  CheckPasswordHash password hash := decide (hash = "hash:" ++ password)
  validEmail _ := true

/-- The default configuration of `InitConfig`, in production mode with a mail
host. -/
def sampleConfig : Config where
  AppName := "F.st"
  AppMode := "production"
  GeetestEnabled := false
  JWTSecret := "secret"
  FrontendURL := ""
  SMTPHost := "smtp.example.com"
  RegisterCodeExpireMinutes := 60
  LoginMaxFailureCount := 5
  LoginLockDurationMinutes := 10
  JWTAccessExpire := 7200
  JWTRefreshExpire := 604800

/-- A request context at the instant `now`: no captcha, hashing and mail
delivery succeed. -/
def sampleCtx (now : Int) : Ctx where
  now := now
  clientIP := "10.0.0.1"
  xForwardedFor := ""
  xRealIP := ""
  acceptLanguage := ""
  captchaOk := false
  rnd := 123456
  hashed := some "hash:pw"
  mailErr := none

/-- An active account with password `pw`. -/
def alice : User :=
  { User.zero with
    ID := 1, GroupId := 1, Username := "alice", Email := "alice@example.com", Level := 1,
    Role := "user", Password := "hash:pw", Status := 1, Language := "zh-CN" }

/-- The code table after one register code `123456` was issued to
`alice@example.com` at second 1000, to expire at second 2000. -/
def sampleCodes : CodeTable :=
  CreateVerificationCode Collation.binary CodeTable.empty (1000 * Second)
    "alice@example.com" "123456" "register" (2000 * Second)

/-- The sample server with the sanitiser `Clean_XSS` of `utils/validate.go`. -/
def cleanDeps : Deps := { sampleDeps with Clean_XSS := Clean_XSS }

/-- The sample server outside strict SQL mode. -/
def lenientDeps : Deps := { cleanDeps with strict := false }

/-- An email address of 152 characters: 140 times `a`, then `@example.com`. -/
def longEmail : String := String.mk (List.replicate 140 'a') ++ "@example.com"
/-! # Theorems -/

/-! ## `Login` up to the lock check -/

/-- A login attempt on `user` is decided by the lock check and what follows. -/
theorem Login_of_reaches {d : Deps} {cfg : Config} {t : UserTable} {ctx : Ctx}
    {req : LoginRequest} {user : User} (h : reaches d cfg t ctx req user) :
    Login d cfg t ctx req =
      match user.LockUntil with
      | some lockUntil =>
        if lockUntil > unix ctx.now then (Fail 403 (lockedMessage lockUntil (unix ctx.now)), t)
        else loginUnlocked d cfg ctx req (clearLock t user.ID) user
      | none => loginUnlocked d cfg ctx req t user := by
  obtain ⟨⟨hpw, hname, hcap⟩, hfind⟩ := h
  have hcap2 : (cfg.GeetestEnabled && !ctx.captchaOk) = false := by
    cases hg : cfg.GeetestEnabled
    · simp
    · simp [hcap hg]
  simp [Login, hpw, hname, hcap2, hfind]

/-- The success path of `Login`: an active account and a matching password. -/
theorem loginUnlocked_ok {d : Deps} {cfg : Config} {ctx : Ctx} {req : LoginRequest}
    {t : UserTable} {user : User} (hs : user.Status ≠ 0)
    (hp : d.CheckPasswordHash req.Password user.Password = true) :
    loginUnlocked d cfg ctx req t user =
      (Success (.login user.ID user.Username user.Email [user.Role]
          (.jws { alg := "HS256",
                  claims := ⟨user.ID, user.Role, some ((ctx.now + cfg.JWTAccessExpire * Second) / Second)⟩,
                  mac := ⟨"HS256", cfg.JWTSecret,
                    ⟨user.ID, user.Role, some ((ctx.now + cfg.JWTAccessExpire * Second) / Second)⟩⟩ })
          (.jws { alg := "HS256",
                  claims := ⟨user.ID, user.Role, some ((ctx.now + cfg.JWTRefreshExpire * Second) / Second)⟩,
                  mac := ⟨"HS256", cfg.JWTSecret,
                    ⟨user.ID, user.Role, some ((ctx.now + cfg.JWTRefreshExpire * Second) / Second)⟩⟩ })
          (unix ctx.now + cfg.JWTAccessExpire)),
        UpdateLoginInfo t ctx.now user.ID (loginIP ctx)) := by
  simp [loginUnlocked, hs, hp, GenerateTokenWithTTL]

/-- The failure path of `Login`: an active account and a password that does not
match. -/
theorem loginUnlocked_wrong {d : Deps} {cfg : Config} {ctx : Ctx} {req : LoginRequest}
    {t : UserTable} {user : User} (hs : user.Status ≠ 0)
    (hp : d.CheckPasswordHash req.Password user.Password = false) :
    loginUnlocked d cfg ctx req t user =
      (Fail 401 "Invalid account or password",
        (IncrementLoginFailure d.strict t ctx.now user.ID cfg.LoginMaxFailureCount
          cfg.LoginLockDurationMinutes).1) := by
  simp [loginUnlocked, hs, hp]

/-- An inactive account is turned away after the lock check. -/
theorem loginUnlocked_inactive {d : Deps} {cfg : Config} {ctx : Ctx} {req : LoginRequest}
    {t : UserTable} {user : User} (hs : user.Status = 0) :
    loginUnlocked d cfg ctx req t user = (Fail 403 "Account is inactive", t) := by
  simp [loginUnlocked, hs]

/-- When the part of `Login` after the lock check answers 200, the account is
active and the password matched. -/
theorem loginUnlocked_code_200 {d : Deps} {cfg : Config} {ctx : Ctx} {req : LoginRequest}
    {t : UserTable} {user : User} (h : (loginUnlocked d cfg ctx req t user).1.Code = 200) :
    user.Status ≠ 0 ∧ d.CheckPasswordHash req.Password user.Password = true := by
  by_cases hs : user.Status = 0
  · rw [loginUnlocked_inactive hs] at h
    simp [Fail] at h
  · refine ⟨hs, ?_⟩
    cases hp : d.CheckPasswordHash req.Password user.Password
    · rw [loginUnlocked_wrong hs hp] at h
      simp [Fail] at h
    · rfl

/-- When `Login` answers 200, the request was a login attempt on an account
that the lookup found, whose lock (if any) is not in the future, which is
active and whose password matched. -/
theorem Login_code_200 {d : Deps} {cfg : Config} {t : UserTable} {ctx : Ctx}
    {req : LoginRequest} (h : (Login d cfg t ctx req).1.Code = 200) :
    ∃ user, reaches d cfg t ctx req user
      ∧ (∀ l, user.LockUntil = some l → l ≤ unix ctx.now)
      ∧ user.Status ≠ 0 ∧ d.CheckPasswordHash req.Password user.Password = true := by
  by_cases hpw : req.Password = ""
  · simp [Login, hpw, Fail] at h
  by_cases hname : loginName d req = ""
  · simp [Login, hpw, hname, Fail] at h
  by_cases hcap : (cfg.GeetestEnabled && !ctx.captchaOk) = true
  · simp [Login, hpw, hname, hcap, Fail] at h
  cases hfind : GetUserByUsernameOrEmail d.coll t (loginName d req) with
  | none =>
    simp [Login, hpw, hname, hcap, hfind, Fail] at h
  | some user =>
    have hr : reaches d cfg t ctx req user := by
      refine ⟨⟨hpw, hname, ?_⟩, hfind⟩
      intro hg
      cases hc : ctx.captchaOk
      · simp [hg, hc] at hcap
      · rfl
    refine ⟨user, hr, ?_⟩
    rw [Login_of_reaches hr] at h
    cases hl : user.LockUntil with
    | none =>
      simp only [hl] at h
      exact ⟨by simp, loginUnlocked_code_200 h⟩
    | some l =>
      simp only [hl] at h
      by_cases hlt : l > unix ctx.now
      · simp [hlt, Fail] at h
      · simp only [hlt, if_false] at h
        refine ⟨?_, loginUnlocked_code_200 h⟩
        intro l' hl'
        simp only [Option.some.injEq] at hl'
        omega

/-! ## Updates of one account -/

theorem put_rows_map (t : UserTable) (a : User) (f : User → User) (hf : (f a).ID = a.ID) :
    (t.put a).rows.map (fun u => if u.ID == a.ID then f u else u) = (t.put (f a)).rows := by
  simp only [UserTable.put, List.map_map]
  apply List.map_congr_left
  intro u _
  by_cases hu : u.ID = a.ID
  · simp [hu, hf]
  · simp [hu, hf]

theorem put_self {t : UserTable} {a : User} (huniq : ∀ u ∈ t.rows, u.ID = a.ID → u = a) :
    t.put a = t := by
  cases t with
  | mk rows nextID =>
    simp only [UserTable.put, UserTable.mk.injEq, and_true]
    conv_rhs => rw [← List.map_id rows]
    apply List.map_congr_left
    intro u hu
    by_cases hid : u.ID = a.ID
    · simp [hid, huniq u hu hid]
    · simp [hid]

theorem find?_map_of_pred {p : User → Bool} {g : User → User} :
    ∀ {l : List User}, (∀ u ∈ l, p (g u) = p u) → (l.map g).find? p = (l.find? p).map g
  | [], _ => rfl
  | u :: l, h => by
    have hu := h u (List.mem_cons_self _ _)
    have hl : ∀ v ∈ l, p (g v) = p v := fun v hv => h v (List.mem_cons_of_mem _ hv)
    cases hp : p u
    · simp [List.find?, hu, hp, find?_map_of_pred hl]
    · simp [List.find?, hu, hp]

/-- The lookup of `Login` finds the replaced row when the replacement keeps the
id, the names and the deletion mark. -/
theorem lookup_put {c : Collation} {t : UserTable} {name : String} {a₀ a : User}
    (hfind : GetUserByUsernameOrEmail c t name = some a₀)
    (huniq : ∀ u ∈ t.rows, u.ID = a₀.ID → u = a₀)
    (hid : a.ID = a₀.ID) (hun : a.Username = a₀.Username) (hem : a.Email = a₀.Email)
    (hdel : a.DeleteTime = a₀.DeleteTime) :
    GetUserByUsernameOrEmail c (t.put a) name = some a := by
  unfold GetUserByUsernameOrEmail at hfind ⊢
  simp only [UserTable.put]
  rw [find?_map_of_pred, hfind]
  · simp [hid]
  · intro u hu
    by_cases hu' : u.ID = a.ID
    · have := huniq u hu (hu'.trans hid)
      subst this
      simp [hu', hun, hem, hdel]
    · simp [hu']

theorem find_put {t : UserTable} {a₀ a : User} (hmem : a₀ ∈ t.rows) (hid : a.ID = a₀.ID) :
    (t.put a).rows.find? (fun u => u.ID == a.ID) = some a := by
  simp only [UserTable.put]
  rw [find?_map_of_pred]
  · cases hf : t.rows.find? (fun u => u.ID == a.ID) with
    | none =>
      rw [List.find?_eq_none] at hf
      have := hf a₀ hmem
      simp [hid] at this
    | some u =>
      have := List.find?_some hf
      simp only [beq_iff_eq] at this
      simp [this]
  · intro u _
    by_cases hu' : u.ID = a.ID
    · simp [hu']
    · simp [hu']

/-- `IncrementLoginFailure` on the one row of an account whose counter is
below 255: the counter goes up by one and the lock is set exactly when the new
count has reached the threshold. -/
theorem IncrementLoginFailure_put {strict : Bool} {t : UserTable} {a₀ a : User} {now : Int}
    {maxFailureCount lockDurationMinutes : Int}
    (hmem : a₀ ∈ t.rows) (hid : a.ID = a₀.ID) (hlt : a.LoginFailure < 255) :
    (IncrementLoginFailure strict (t.put a) now a.ID maxFailureCount lockDurationMinutes).1 =
      if maxFailureCount ≤ ((a.LoginFailure + 1 : Nat) : Int) then
        t.put ((a.failed (unix now)).lockedTo (unix now) (unix now + lockDurationMinutes * 60))
      else t.put (a.failed (unix now)) := by
  have hany : (t.put a).rows.any
      (fun u => u.ID == a.ID && decide (255 < u.LoginFailure + 1)) = false := by
    rw [List.any_eq_false]
    intro u hu
    simp only [UserTable.put, List.mem_map] at hu
    obtain ⟨v, _, rfl⟩ := hu
    by_cases hv : v.ID = a.ID
    · simp [hv]; omega
    · simp [hv]
  have hcount : (a.failed (unix now)).LoginFailure = a.LoginFailure + 1 := by
    simp only [User.failed]; omega
  have h₁ : (t.put a).rows.map (fun u => if u.ID == a.ID then u.failed (unix now) else u)
      = (t.put (a.failed (unix now))).rows := put_rows_map t a (fun u => u.failed (unix now)) rfl
  have hfind : (t.put (a.failed (unix now))).rows.find? (fun u => u.ID == a.ID)
      = some (a.failed (unix now)) :=
    @find_put t a₀ (a.failed (unix now)) hmem hid
  have h₂ : (t.put (a.failed (unix now))).rows.map (fun u => if u.ID == a.ID then
        u.lockedTo (unix now) (unix now + lockDurationMinutes * 60) else u)
      = (t.put ((a.failed (unix now)).lockedTo (unix now)
          (unix now + lockDurationMinutes * 60))).rows :=
    put_rows_map t (a.failed (unix now))
      (fun u => u.lockedTo (unix now) (unix now + lockDurationMinutes * 60)) rfl
  simp only [IncrementLoginFailure, hany, Bool.and_false, Bool.false_eq_true, if_false, h₁, hfind,
    hcount, h₂]
  by_cases hN : maxFailureCount ≤ ((a.LoginFailure + 1 : Nat) : Int)
  · simp only [hN, if_true]
    rfl
  · simp only [hN, if_false]
    rfl

/-! ## Runs of failed logins -/

theorem loginRun_append (d : Deps) (cfg : Config) (t : UserTable)
    (l₁ l₂ : List (Ctx × LoginRequest)) :
    loginRun d cfg t (l₁ ++ l₂) = loginRun d cfg (loginRun d cfg t l₁) l₂ := by
  induction l₁ generalizing t with
  | nil => rfl
  | cons p l ih => exact ih _

/-- A login attempt on the one row of an unlocked, active account with a
password that does not match: 401, and the failure path of the policy. -/
theorem Login_wrong_put {d : Deps} {cfg : Config} {t : UserTable} {ctx : Ctx}
    {req : LoginRequest} {a₀ a : User} {k : Nat}
    (hr : reaches d cfg t ctx req a₀) (huniq : ∀ u ∈ t.rows, u.ID = a₀.ID → u = a₀)
    (ha : a.failedFrom a₀ k) (hs : a₀.Status ≠ 0) (hlt : k < 255)
    (hp : d.CheckPasswordHash req.Password a₀.Password = false) :
    Login d cfg (t.put a) ctx req =
      (Fail 401 "Invalid account or password",
        if cfg.LoginMaxFailureCount ≤ ((k + 1 : Nat) : Int) then
          t.put ((a.failed (unix ctx.now)).lockedTo (unix ctx.now)
            (unix ctx.now + cfg.LoginLockDurationMinutes * 60))
        else t.put (a.failed (unix ctx.now))) := by
  have hid : a.ID = a₀.ID := by rw [ha]
  have hk : a.LoginFailure = k := by rw [ha]
  have hlock : a.LockUntil = none := by rw [ha]
  have hst : a.Status ≠ 0 := by rw [ha]; exact hs
  have hpw : d.CheckPasswordHash req.Password a.Password = false := by rw [ha]; exact hp
  have hmem : a₀ ∈ t.rows := List.mem_of_find?_eq_some hr.2
  have hr' : reaches d cfg (t.put a) ctx req a :=
    ⟨hr.1, lookup_put hr.2 huniq hid (by rw [ha]) (by rw [ha]) (by rw [ha])⟩
  rw [Login_of_reaches hr', hlock]
  simp only
  rw [loginUnlocked_wrong hst hpw, IncrementLoginFailure_put hmem hid (by omega), hk]

theorem failedFrom_failed {a a₀ : User} {k : Nat} (now : Int) (ha : a.failedFrom a₀ k)
    (hlt : k < 255) : (a.failed now).failedFrom a₀ (k + 1) := by
  have hk : a.LoginFailure = k := by rw [ha]
  have hmin : min (a.LoginFailure + 1) 255 = k + 1 := by omega
  unfold User.failedFrom at ha ⊢
  simp only [User.failed, hmin]
  rw [ha]

/-- A run of failed logins on one account that stays below the threshold only
counts: the account is not locked. -/
theorem loginRun_wrong {d : Deps} {cfg : Config} {t : UserTable} {a₀ : User}
    (huniq : ∀ u ∈ t.rows, u.ID = a₀.ID → u = a₀) (hs : a₀.Status ≠ 0)
    (hmax : cfg.LoginMaxFailureCount ≤ 256) :
    ∀ (l : List (Ctx × LoginRequest)) (a : User) (k : Nat), a.failedFrom a₀ k →
      ((k + l.length : Nat) : Int) < cfg.LoginMaxFailureCount →
      (∀ p ∈ l, reaches d cfg t p.1 p.2 a₀
        ∧ d.CheckPasswordHash p.2.Password a₀.Password = false) →
      ∃ a', a'.failedFrom a₀ (k + l.length) ∧ loginRun d cfg (t.put a) l = t.put a'
  | [], a, k, ha, _, _ => ⟨a, ha, rfl⟩
  | p :: l, a, k, ha, hlen, hall => by
    have hp := hall p (List.mem_cons_self _ _)
    simp only [List.length_cons] at hlen
    have hk : k < 255 := by omega
    have hno : ¬ cfg.LoginMaxFailureCount ≤ ((k + 1 : Nat) : Int) := by omega
    have hstep := Login_wrong_put hp.1 huniq ha hs hk hp.2
    simp only [hno, if_false] at hstep
    obtain ⟨a', ha', hrun⟩ := loginRun_wrong huniq hs hmax l (a.failed (unix p.1.now)) (k + 1)
      (failedFrom_failed _ ha hk) (by omega)
      (fun q hq => hall q (List.mem_cons_of_mem _ hq))
    refine ⟨a', ?_, ?_⟩
    · have : k + (p :: l).length = k + 1 + l.length := by simp only [List.length_cons]; omega
      rw [this]
      exact ha'
    · simp only [loginRun, hstep]
      exact hrun

/-! ## `SendResetEmail` and the existence of an account -/

/-- C2, the failing input: with a mail host configured and the delivery
succeeding, the request for `alice@example.com` is answered "Reset email sent"
when the account exists and "If the email exists, a reset code has been sent"
when it does not; when the delivery fails, or no mail host is configured, an
existing account is answered with code 500 and a missing one still with the
generic success. -/
theorem SendResetEmail_reveals_account :
    (SendResetEmail sampleDeps sampleConfig ⟨⟨[alice], 2⟩, CodeTable.empty⟩
        (sampleCtx (1000 * Second)) ⟨"alice@example.com", ""⟩).1
      = Success (.message "Reset email sent")
    ∧ (SendResetEmail sampleDeps sampleConfig ⟨UserTable.empty, CodeTable.empty⟩
        (sampleCtx (1000 * Second)) ⟨"alice@example.com", ""⟩).1
      = Success (.message "If the email exists, a reset code has been sent")
    ∧ (SendResetEmail sampleDeps sampleConfig ⟨⟨[alice], 2⟩, CodeTable.empty⟩
        { sampleCtx (1000 * Second) with mailErr := some "dial tcp: connection refused" }
        ⟨"alice@example.com", ""⟩).1
      = Fail 500 "Failed to send email"
    ∧ (SendResetEmail sampleDeps sampleConfig ⟨UserTable.empty, CodeTable.empty⟩
        { sampleCtx (1000 * Second) with mailErr := some "dial tcp: connection refused" }
        ⟨"alice@example.com", ""⟩).1
      = Success (.message "If the email exists, a reset code has been sent")
    ∧ (SendResetEmail sampleDeps { sampleConfig with SMTPHost := "" }
        ⟨⟨[alice], 2⟩, CodeTable.empty⟩ (sampleCtx (1000 * Second)) ⟨"alice@example.com", ""⟩).1
      = Fail 500 "SMTP service not configured"
    ∧ (SendResetEmail sampleDeps { sampleConfig with SMTPHost := "" }
        ⟨UserTable.empty, CodeTable.empty⟩ (sampleCtx (1000 * Second))
        ⟨"alice@example.com", ""⟩).1
      = Success (.message "If the email exists, a reset code has been sent") := by
  decide

/-! ## `Register` and the consumption of the code -/

/-- C3, the failing input: a registration with the valid code `123456` and
the username `al` (two characters) is rejected with code 400, no account is
created, and yet the code is gone from the table: the same code no longer
verifies, and the corrected request with username `alice` is turned away as
"Invalid or expired verification code". -/
theorem Register_consumes_code_on_rejection :
    (Register sampleDeps sampleConfig ⟨UserTable.empty, sampleCodes⟩ (sampleCtx (1500 * Second))
        ⟨"al", "pw", "alice@example.com", "123456"⟩).1
      = Fail 400 ("Username must be 3-50 characters long and contain only letters, "
          ++ "numbers, and underscores")
    ∧ (Register sampleDeps sampleConfig ⟨UserTable.empty, sampleCodes⟩ (sampleCtx (1500 * Second))
        ⟨"al", "pw", "alice@example.com", "123456"⟩).2.users = UserTable.empty
    ∧ (Register sampleDeps sampleConfig ⟨UserTable.empty, sampleCodes⟩ (sampleCtx (1500 * Second))
        ⟨"al", "pw", "alice@example.com", "123456"⟩).2.codes.rows = []
    ∧ VerifyCode Collation.binary sampleCodes (1500 * Second)
        "alice@example.com" "123456" "register" = (true, 1, none)
    ∧ VerifyCode Collation.binary
        (Register sampleDeps sampleConfig ⟨UserTable.empty, sampleCodes⟩
          (sampleCtx (1500 * Second)) ⟨"al", "pw", "alice@example.com", "123456"⟩).2.codes
        (1501 * Second) "alice@example.com" "123456" "register" = (false, 0, some ErrNoRows)
    ∧ (Register sampleDeps sampleConfig
        (Register sampleDeps sampleConfig ⟨UserTable.empty, sampleCodes⟩
          (sampleCtx (1500 * Second)) ⟨"al", "pw", "alice@example.com", "123456"⟩).2
        (sampleCtx (1501 * Second)) ⟨"alice", "pw", "alice@example.com", "123456"⟩).1
      = Fail 400 "Invalid or expired verification code" := by
  decide

/-! ## The lockout threshold -/

set_option maxRecDepth 100000 in
/-- C1, counterexample: with the threshold at 256, the 256 failed logins leave
the account unlocked with its counter at 255, and the 257th attempt, with the
right password, is answered 200 with tokens. -/
theorem lockout_threshold_counterexample :
    (loginRun sampleDeps { sampleConfig with LoginMaxFailureCount := 256 } ⟨[alice], 2⟩
        (List.replicate 256 (sampleCtx (1000 * Second), ⟨"alice", "", "wrong"⟩))).rows
      = [{ alice with LoginFailure := 255, LockUntil := none, UpdateTime := some 1000 }]
    ∧ (Login sampleDeps { sampleConfig with LoginMaxFailureCount := 256 }
        (loginRun sampleDeps { sampleConfig with LoginMaxFailureCount := 256 } ⟨[alice], 2⟩
          (List.replicate 256 (sampleCtx (1000 * Second), ⟨"alice", "", "wrong"⟩)))
        (sampleCtx (1001 * Second)) ⟨"alice", "", "pw"⟩).1.Code = 200
    ∧ (Login sampleDeps { sampleConfig with LoginMaxFailureCount := 256 }
        (loginRun sampleDeps { sampleConfig with LoginMaxFailureCount := 256 } ⟨[alice], 2⟩
          (List.replicate 256 (sampleCtx (1000 * Second), ⟨"alice", "", "wrong"⟩)))
        (sampleCtx (1001 * Second)) ⟨"alice", "", "pw"⟩).1.Data ≠ .null := by
  decide

theorem failedFrom_self {a : User} (hcount : a.LoginFailure = 0) (hunlocked : a.LockUntil = none) :
    a.failedFrom a 0 := by
  unfold User.failedFrom
  cases a
  simp only at hcount hunlocked
  simp [hcount, hunlocked]

/-- C1, amended: for every threshold N with 1 <= N <= 255 and every lock
duration, starting from an active, unlocked account with failure count 0 (the
only row with its id), after N consecutive login attempts on the account with a
password that does not match, the next login attempt on it, made before the
lock-expiry that the N-th failure set (its time plus the lock duration), is
rejected as locked: code 403, the locked message, no data (so no tokens), and
no change of the table, whatever password it submits.  A login attempt on the
account is a request with a non-empty password and identifier that passes the
captcha gate and that the lookup resolves to the account. -/
theorem lockout_threshold (d : Deps) (cfg : Config) (t : UserTable) (a : User)
    (earlier : List (Ctx × LoginRequest)) (lastCtx : Ctx) (lastReq : LoginRequest)
    (ctx : Ctx) (req : LoginRequest)
    (hmax : cfg.LoginMaxFailureCount ≤ 255)
    (hpk : (t.rows.map (·.ID)).Nodup)
    (hactive : a.Status ≠ 0) (hcount : a.LoginFailure = 0) (hunlocked : a.LockUntil = none)
    (hlen : ((earlier.length + 1 : Nat) : Int) = cfg.LoginMaxFailureCount)
    (hearlier : ∀ p ∈ earlier, reaches d cfg t p.1 p.2 a
      ∧ d.CheckPasswordHash p.2.Password a.Password = false)
    (hlast : reaches d cfg t lastCtx lastReq a
      ∧ d.CheckPasswordHash lastReq.Password a.Password = false)
    (hnext : reaches d cfg t ctx req a)
    (hbefore : unix ctx.now < unix lastCtx.now + cfg.LoginLockDurationMinutes * 60) :
    Login d cfg (loginRun d cfg t (earlier ++ [(lastCtx, lastReq)])) ctx req
      = (Fail 403 (lockedMessage (unix lastCtx.now + cfg.LoginLockDurationMinutes * 60)
            (unix ctx.now)),
          loginRun d cfg t (earlier ++ [(lastCtx, lastReq)])) := by
  have hmem : a ∈ t.rows := List.mem_of_find?_eq_some hnext.2
  have huniq : ∀ u ∈ t.rows, u.ID = a.ID → u = a := fun u hu hid =>
    List.inj_on_of_nodup_map hpk hu hmem hid
  obtain ⟨a', ha', hrun⟩ := loginRun_wrong (d := d) huniq hactive (by omega) earlier a 0
    (failedFrom_self hcount hunlocked) (by omega) hearlier
  rw [put_self huniq] at hrun
  have hk : 0 + earlier.length < 255 := by omega
  have hstep := Login_wrong_put hlast.1 huniq ha' hactive hk hlast.2
  have hyes : cfg.LoginMaxFailureCount ≤ ((0 + earlier.length + 1 : Nat) : Int) := by omega
  simp only [hyes, if_true] at hstep
  have htable : loginRun d cfg t (earlier ++ [(lastCtx, lastReq)])
      = t.put ((a'.failed (unix lastCtx.now)).lockedTo (unix lastCtx.now)
          (unix lastCtx.now + cfg.LoginLockDurationMinutes * 60)) := by
    rw [loginRun_append, hrun]
    simp only [loginRun, hstep]
  rw [htable]
  have hr : reaches d cfg
      (t.put ((a'.failed (unix lastCtx.now)).lockedTo (unix lastCtx.now)
          (unix lastCtx.now + cfg.LoginLockDurationMinutes * 60))) ctx req
      ((a'.failed (unix lastCtx.now)).lockedTo (unix lastCtx.now)
          (unix lastCtx.now + cfg.LoginLockDurationMinutes * 60)) := by
    refine ⟨hnext.1, lookup_put hnext.2 huniq ?_ ?_ ?_ ?_⟩ <;>
      simp only [User.lockedTo, User.failed] <;> rw [ha']
  rw [Login_of_reaches hr]
  simp [User.lockedTo, hbefore]

/-- C1, witness: threshold 5, five failed logins at second 1000 and a sixth
attempt with the right password one second later. -/
theorem lockout_threshold_witness :
    Login sampleDeps sampleConfig
        (loginRun sampleDeps sampleConfig ⟨[alice], 2⟩
          (List.replicate 4 (sampleCtx (1000 * Second), ⟨"alice", "", "wrong"⟩)
            ++ [(sampleCtx (1000 * Second), ⟨"alice", "", "wrong"⟩)]))
        (sampleCtx (1001 * Second)) ⟨"alice", "", "pw"⟩
      = (Fail 403 (lockedMessage (unix (1000 * Second) + 10 * 60) (unix (1001 * Second))),
          loginRun sampleDeps sampleConfig ⟨[alice], 2⟩
            (List.replicate 4 (sampleCtx (1000 * Second), ⟨"alice", "", "wrong"⟩)
              ++ [(sampleCtx (1000 * Second), ⟨"alice", "", "wrong"⟩)])) :=
  lockout_threshold sampleDeps sampleConfig ⟨[alice], 2⟩ alice
    (List.replicate 4 (sampleCtx (1000 * Second), ⟨"alice", "", "wrong"⟩))
    (sampleCtx (1000 * Second)) ⟨"alice", "", "wrong"⟩
    (sampleCtx (1001 * Second)) ⟨"alice", "", "pw"⟩
    (by decide) (by decide) (by decide) rfl rfl (by decide) (by decide) (by decide) (by decide)
    (by decide)

/-! ## The success path of the lockout policy -/

/-- C7: `UpdateLoginInfo` sets the failure count of the account to 0 and its
lock-expiry to absent whatever they were, writes the last-login time and
address and the update time, and changes no other column and no other
account; and when `Login` answers 200, the table it leaves differs from the one
it found in exactly this way: the account that logged in has failure count 0,
no lock-expiry, and no column other than these five has changed. -/
theorem lockout_reset (d : Deps) (cfg : Config) (t : UserTable) (ctx : Ctx) (req : LoginRequest)
    (now : Int) (id : Nat) (ip : String) :
    List.Forall₂ (fun u v =>
        if u.ID = id then
          v.LoginFailure = 0 ∧ v.LockUntil = none ∧ v.LastLoginTime = some (unix now)
            ∧ v.LastLoginIp = ip ∧ v.UpdateTime = some (unix now) ∧ u.loginFrame v
        else v = u)
      t.rows (UpdateLoginInfo t now id ip).rows
    ∧ (UpdateLoginInfo t now id ip).nextID = t.nextID
    ∧ ((Login d cfg t ctx req).1.Code = 200 →
        ∃ user, GetUserByUsernameOrEmail d.coll t (loginName d req) = some user
          ∧ List.Forall₂ (fun u v =>
              if u.ID = user.ID then v.LoginFailure = 0 ∧ v.LockUntil = none ∧ u.loginFrame v
              else v = u)
            t.rows (Login d cfg t ctx req).2.rows) := by
  refine ⟨?_, rfl, ?_⟩
  · simp only [UpdateLoginInfo, List.forall₂_map_right_iff, List.forall₂_same]
    intro u _
    by_cases hid : u.ID = id
    · simp [hid, User.loginFrame]
    · simp [hid]
  · intro h
    obtain ⟨user, hr, hlock, hs, hp⟩ := Login_code_200 h
    refine ⟨user, hr.2, ?_⟩
    rw [Login_of_reaches hr]
    cases hl : user.LockUntil with
    | none =>
      simp only [loginUnlocked_ok hs hp, UpdateLoginInfo, List.forall₂_map_right_iff,
        List.forall₂_same]
      intro u _
      by_cases hid : u.ID = user.ID
      · simp [hid, User.loginFrame]
      · simp [hid]
    | some l =>
      have hle : ¬ l > unix ctx.now := by
        have := hlock l hl
        omega
      simp only [hle, if_false, loginUnlocked_ok hs hp, UpdateLoginInfo, clearLock, List.map_map,
        List.forall₂_map_right_iff, List.forall₂_same]
      intro u _
      by_cases hid : u.ID = user.ID
      · simp [hid, User.loginFrame]
      · simp [hid]

/-- C7, witness: `alice` logs in after three failures. -/
theorem lockout_reset_witness :
    ∃ user, GetUserByUsernameOrEmail sampleDeps.coll ⟨[{ alice with LoginFailure := 3 }], 2⟩
        (loginName sampleDeps ⟨"alice", "", "pw"⟩) = some user
      ∧ List.Forall₂ (fun u v =>
          if u.ID = user.ID then v.LoginFailure = 0 ∧ v.LockUntil = none ∧ u.loginFrame v
          else v = u)
        [{ alice with LoginFailure := 3 }]
        (Login sampleDeps sampleConfig ⟨[{ alice with LoginFailure := 3 }], 2⟩
          (sampleCtx (1000 * Second)) ⟨"alice", "", "pw"⟩).2.rows :=
  (lockout_reset sampleDeps sampleConfig ⟨[{ alice with LoginFailure := 3 }], 2⟩
    (sampleCtx (1000 * Second)) ⟨"alice", "", "pw"⟩ (1000 * Second) 1 "10.0.0.1").2.2
    (by decide)

/-! ## A lock that has run out -/

/-- C8: a login attempt on an account whose lock-expiry is set and not in the
future is not rejected as locked: `Login` clears the stale lock-expiry and goes
on to the status check and the password check; when the account is active and
the password matches it answers 200 with an access and a refresh token for the
account, and the account is left with no lock-expiry. -/
theorem lock_lazy_expiry (d : Deps) (cfg : Config) (t : UserTable) (ctx : Ctx)
    (req : LoginRequest) (user : User) (lockUntil : Int)
    (h : reaches d cfg t ctx req user) (hl : user.LockUntil = some lockUntil)
    (hle : lockUntil ≤ unix ctx.now) :
    Login d cfg t ctx req = loginUnlocked d cfg ctx req (clearLock t user.ID) user
    ∧ (user.Status ≠ 0 → d.CheckPasswordHash req.Password user.Password = true →
        ∃ accessToken refreshToken,
          GenerateTokenWithTTL cfg.JWTSecret ctx.now user.ID user.Role
              (cfg.JWTAccessExpire * Second) = .ok accessToken
          ∧ GenerateTokenWithTTL cfg.JWTSecret ctx.now user.ID user.Role
              (cfg.JWTRefreshExpire * Second) = .ok refreshToken
          ∧ (Login d cfg t ctx req).1 =
              Success (.login user.ID user.Username user.Email [user.Role] accessToken
                refreshToken (unix ctx.now + cfg.JWTAccessExpire))
          ∧ (∃ v ∈ (Login d cfg t ctx req).2.rows, v.ID = user.ID)
          ∧ ∀ v ∈ (Login d cfg t ctx req).2.rows, v.ID = user.ID → v.LockUntil = none) := by
  have hnot : ¬ lockUntil > unix ctx.now := by omega
  have hlogin : Login d cfg t ctx req = loginUnlocked d cfg ctx req (clearLock t user.ID) user := by
    rw [Login_of_reaches h, hl]
    simp [hnot]
  refine ⟨hlogin, ?_⟩
  intro hs hp
  have hmem : user ∈ t.rows := List.mem_of_find?_eq_some h.2
  rw [hlogin, loginUnlocked_ok hs hp]
  refine ⟨_, _, rfl, rfl, rfl, ?_, ?_⟩
  · simp only [UpdateLoginInfo, clearLock, List.map_map, List.mem_map]
    exact ⟨_, ⟨user, hmem, rfl⟩, by simp⟩
  · intro v hv hid
    simp only [UpdateLoginInfo, clearLock, List.map_map, List.mem_map] at hv
    obtain ⟨u, _, rfl⟩ := hv
    by_cases hu : u.ID = user.ID
    · simp [hu]
    · simp [hu] at hid

/-- C8, witness: `alice`, locked until second 900, logs in at second 1000. -/
theorem lock_lazy_expiry_witness :
    ∃ accessToken refreshToken,
      GenerateTokenWithTTL "secret" (1000 * Second) 1 "user" (7200 * Second) = .ok accessToken
      ∧ GenerateTokenWithTTL "secret" (1000 * Second) 1 "user" (604800 * Second)
          = .ok refreshToken
      ∧ (Login sampleDeps sampleConfig
            ⟨[{ alice with LoginFailure := 5, LockUntil := some 900 }], 2⟩
            (sampleCtx (1000 * Second)) ⟨"alice", "", "pw"⟩).1 =
          Success (.login 1 "alice" "alice@example.com" ["user"] accessToken
            refreshToken (unix (1000 * Second) + 7200))
      ∧ (∃ v ∈ (Login sampleDeps sampleConfig
            ⟨[{ alice with LoginFailure := 5, LockUntil := some 900 }], 2⟩
            (sampleCtx (1000 * Second)) ⟨"alice", "", "pw"⟩).2.rows, v.ID = 1)
      ∧ ∀ v ∈ (Login sampleDeps sampleConfig
            ⟨[{ alice with LoginFailure := 5, LockUntil := some 900 }], 2⟩
            (sampleCtx (1000 * Second)) ⟨"alice", "", "pw"⟩).2.rows,
          v.ID = 1 → v.LockUntil = none :=
  (lock_lazy_expiry sampleDeps sampleConfig
    ⟨[{ alice with LoginFailure := 5, LockUntil := some 900 }], 2⟩
    (sampleCtx (1000 * Second)) ⟨"alice", "", "pw"⟩
    { alice with LoginFailure := 5, LockUntil := some 900 } 900 (by decide) rfl (by decide)).2
    (by decide) (by decide)

/-! ## The remaining minutes of a lock -/

/-- C10, counterexample: an account locked for another 30 seconds is told to
try again in 0 minutes, so the reported value is not always positive. -/
theorem remainingMinutes_zero_counterexample :
    (Login sampleDeps sampleConfig ⟨[{ alice with LockUntil := some 1030 }], 2⟩
        (sampleCtx (1000 * Second)) ⟨"alice", "", "pw"⟩).1
      = Fail 403 "Account is locked. Please try again in 0 minutes"
    ∧ ¬ 1 ≤ remainingMinutes 1030 (unix (1000 * Second)) := by
  decide

/-- C10, amended: when `Login` rejects a login attempt because the account is
locked, it reports `(lockUntil - now) / 60` rounded down, which is never
negative and is at least 1 exactly when at least 60 seconds of the lock
remain. -/
theorem remainingMinutes_locked (d : Deps) (cfg : Config) (t : UserTable) (ctx : Ctx)
    (req : LoginRequest) (user : User) (lockUntil : Int)
    (h : reaches d cfg t ctx req user) (hl : user.LockUntil = some lockUntil)
    (hlt : unix ctx.now < lockUntil) :
    Login d cfg t ctx req = (Fail 403 (lockedMessage lockUntil (unix ctx.now)), t)
    ∧ 0 ≤ remainingMinutes lockUntil (unix ctx.now)
    ∧ (1 ≤ remainingMinutes lockUntil (unix ctx.now) ↔ 60 ≤ lockUntil - unix ctx.now) := by
  have hdiv : remainingMinutes lockUntil (unix ctx.now) = (lockUntil - unix ctx.now) / 60 :=
    Int.tdiv_eq_ediv (by omega) (by decide)
  refine ⟨?_, ?_, ?_⟩
  · rw [Login_of_reaches h, hl]
    simp [hlt]
  · rw [hdiv]; omega
  · rw [hdiv]; omega

/-- C10, witness: an account locked for another 90 seconds. -/
theorem remainingMinutes_locked_witness :
    Login sampleDeps sampleConfig ⟨[{ alice with LockUntil := some 1090 }], 2⟩
        (sampleCtx (1000 * Second)) ⟨"alice", "", "pw"⟩
      = (Fail 403 (lockedMessage 1090 (unix (1000 * Second))),
          ⟨[{ alice with LockUntil := some 1090 }], 2⟩)
    ∧ 0 ≤ remainingMinutes 1090 (unix (1000 * Second))
    ∧ (1 ≤ remainingMinutes 1090 (unix (1000 * Second)) ↔ 60 ≤ 1090 - unix (1000 * Second)) :=
  remainingMinutes_locked sampleDeps sampleConfig ⟨[{ alice with LockUntil := some 1090 }], 2⟩
    (sampleCtx (1000 * Second)) ⟨"alice", "", "pw"⟩ { alice with LockUntil := some 1090 } 1090
    (by decide) rfl (by decide)

/-! ## The code table -/

theorem latest_eq_none {l : List VerificationCode} : latest l = none ↔ l = [] := by
  cases l with
  | nil => simp [latest]
  | cons r rs =>
    simp only [latest]
    cases h : latest rs with
    | none => simp
    | some b => by_cases hlt : r.CreatedAt < b.CreatedAt <;> simp [hlt]

theorem latest_mem {l : List VerificationCode} {r : VerificationCode}
    (h : latest l = some r) : r ∈ l := by
  induction l generalizing r with
  | nil => simp [latest] at h
  | cons a rs ih =>
    simp only [latest] at h
    cases hrs : latest rs with
    | none =>
      rw [hrs] at h
      simp only [Option.some.injEq] at h
      simp [h]
    | some b =>
      rw [hrs] at h
      by_cases hlt : a.CreatedAt < b.CreatedAt
      · simp only [hlt, if_true, Option.some.injEq] at h
        subst h
        exact List.mem_cons_of_mem _ (ih hrs)
      · simp only [hlt, if_false, Option.some.injEq] at h
        simp [h]

/-- `VerifyCode` answers "no rows" when no row passes its `WHERE` clause. -/
theorem VerifyCode_of_no_candidate {c : Collation} {t : CodeTable} {now : Int}
    {email code codeType : String}
    (h : ∀ r ∈ t.rows, ¬ (c.eq r.Email email = true ∧ c.eq r.Code code = true
      ∧ c.eq r.CodeType codeType = true ∧ r.IsUsed = 0 ∧ r.IsDeleted = 0)) :
    VerifyCode c t now email code codeType = (false, 0, some ErrNoRows) := by
  have hnil : t.rows.filter (fun r =>
      c.eq r.Email email && c.eq r.Code code && c.eq r.CodeType codeType
        && r.IsUsed == 0 && r.IsDeleted == 0) = [] := by
    rw [List.filter_eq_nil_iff]
    intro r hr hp
    apply h r hr
    simpa [and_assoc] using hp
  simp [VerifyCode, hnil, latest]

/-- A valid answer of `VerifyCode` names a row of the table that passes its
`WHERE` clause and whose expiry is not before `now`. -/
theorem VerifyCode_valid {c : Collation} {t : CodeTable} {now : Int}
    {email code codeType : String} {id : Nat} {err : Option String}
    (h : VerifyCode c t now email code codeType = (true, id, err)) :
    ∃ vc ∈ t.rows, vc.ID = id ∧ c.eq vc.Email email = true ∧ c.eq vc.Code code = true
      ∧ c.eq vc.CodeType codeType = true ∧ vc.IsUsed = 0 ∧ vc.IsDeleted = 0
      ∧ now ≤ vc.ExpiresAt := by
  unfold VerifyCode at h
  split at h
  · simp at h
  · rename_i vc hvc
    have hmem := latest_mem hvc
    rw [List.mem_filter] at hmem
    obtain ⟨hin, hp⟩ := hmem
    by_cases hexp : vc.ExpiresAt < now
    · simp [hexp] at h
    · simp only [hexp, if_false, Prod.mk.injEq, true_and] at h
      refine ⟨vc, hin, h.1, ?_⟩
      simp only [Bool.and_eq_true, beq_iff_eq] at hp
      obtain ⟨⟨⟨⟨h1, h2⟩, h3⟩, h4⟩, h5⟩ := hp
      exact ⟨h1, h2, h3, h4, h5, by omega⟩

/-- The soft-delete of `CreateVerificationCode` leaves no unused, undeleted row
of the `(email, codeType)` it was called with. -/
theorem create_softdeletes {c : Collation} {rows : List VerificationCode} {now : Int}
    {email codeType : String} {r : VerificationCode}
    (hr : r ∈ rows.map (fun r =>
        if r.isFor c email codeType && r.IsDeleted == 0 && r.IsUsed == 0 then
          { r with IsDeleted := 1, UpdatedAt := now }
        else r))
    (he : c.eq r.Email email = true) (ht : c.eq r.CodeType codeType = true)
    (hu : r.IsUsed = 0) (hd : r.IsDeleted = 0) : False := by
  rw [List.mem_map] at hr
  obtain ⟨r₀, _, hg⟩ := hr
  by_cases hc : (r₀.isFor c email codeType && r₀.IsDeleted == 0 && r₀.IsUsed == 0) = true
  · rw [if_pos hc] at hg
    subst hg
    simp at hd
  · rw [if_neg hc] at hg
    subst hg
    apply hc
    simp [VerificationCode.isFor, he, ht, hu, hd]

/-- After `CreateVerificationCode`, the only unused, undeleted row of the
`(email, codeType)` it was called with is the new one. -/
theorem create_active_row {c : Collation} {t : CodeTable} {now : Int}
    {email code codeType : String} {expiresAt : Int} {r : VerificationCode}
    (hr : r ∈ (CreateVerificationCode c t now email code codeType expiresAt).rows)
    (he : c.eq r.Email email = true) (ht : c.eq r.CodeType codeType = true)
    (hu : r.IsUsed = 0) (hd : r.IsDeleted = 0) :
    r = { ID := t.nextID, Email := email, Code := code, CodeType := codeType,
          ExpiresAt := expiresAt, IsUsed := 0, IsDeleted := 0,
          CreatedAt := now, UpdatedAt := now } := by
  simp only [CreateVerificationCode, List.mem_append, List.mem_singleton] at hr
  rcases hr with hold | hnew
  · exact (create_softdeletes hold he ht hu hd).elim
  · exact hnew

/-! ## Supersession of a code by the next one -/

/-- C5, counterexample: when the generator draws the same value twice, the
first value is still accepted after the second issuance. -/
theorem code_supersession_counterexample :
    VerifyCode Collation.binary
      (CreateVerificationCode Collation.binary sampleCodes (1100 * Second)
        "alice@example.com" "123456" "register" (2100 * Second))
      (1200 * Second) "alice@example.com" "123456" "register" = (true, 2, none) := by
  decide

/-- C5, amended: after `CreateVerificationCode(email, c1, purpose, e1)` and then
`CreateVerificationCode(email, c2, purpose, e2)`, whatever the table was before
and whatever the expiry times, `VerifyCode(email, c1, purpose)` returns invalid
when `c2` differs from `c1` (under the collation of the column); and in every
case the only row it can return is the second one, never the row of the first
issuance. -/
theorem code_supersession (c : Collation) (t : CodeTable) (email purpose c1 c2 : String)
    (now1 e1 now2 e2 now : Int) :
    (c.eq c2 c1 = false →
      VerifyCode c
        (CreateVerificationCode c (CreateVerificationCode c t now1 email c1 purpose e1)
          now2 email c2 purpose e2)
        now email c1 purpose = (false, 0, some ErrNoRows))
    ∧ ∀ id err,
      VerifyCode c
        (CreateVerificationCode c (CreateVerificationCode c t now1 email c1 purpose e1)
          now2 email c2 purpose e2)
        now email c1 purpose = (true, id, err) →
      id = (CreateVerificationCode c t now1 email c1 purpose e1).nextID := by
  constructor
  · intro hne
    apply VerifyCode_of_no_candidate
    rintro r hr ⟨he, hc, ht, hu, hd⟩
    have hrow := create_active_row hr he ht hu hd
    rw [hrow] at hc
    simp [hne] at hc
  · intro id err h
    obtain ⟨vc, hin, hid, he, _, ht, hu, hd, _⟩ := VerifyCode_valid h
    have hrow := create_active_row hin he ht hu hd
    rw [← hid, hrow]

/-- C5, witness: two different codes for the same address. -/
theorem code_supersession_witness :
    VerifyCode Collation.binary
      (CreateVerificationCode Collation.binary
        (CreateVerificationCode Collation.binary CodeTable.empty (1000 * Second)
          "alice@example.com" "123456" "register" (2000 * Second))
        (1100 * Second) "alice@example.com" "654321" "register" (2100 * Second))
      (1200 * Second) "alice@example.com" "123456" "register" = (false, 0, some ErrNoRows) :=
  (code_supersession Collation.binary CodeTable.empty "alice@example.com" "register"
    "123456" "654321" (1000 * Second) (2000 * Second) (1100 * Second) (2100 * Second)
    (1200 * Second)).1 (by decide)

/-! ## A code is used once -/

theorem clash_symm (c : Collation) : Symmetric (fun a b => ¬ VerificationCode.clash c a b) := by
  intro a b h hba
  exact h ⟨hba.2.1, hba.1, c.symm _ _ hba.2.2.1, c.symm _ _ hba.2.2.2⟩

/-- An update that keeps the email and type of every row and activates none
keeps the invariant. -/
theorem oneActive_map {c : Collation} {rows : List VerificationCode}
    (g : VerificationCode → VerificationCode)
    (hg : ∀ r, (g r).Email = r.Email ∧ (g r).CodeType = r.CodeType
      ∧ ((g r).active = true → r.active = true))
    (h : rows.Pairwise (fun a b => ¬ VerificationCode.clash c a b)) :
    (rows.map g).Pairwise (fun a b => ¬ VerificationCode.clash c a b) := by
  rw [List.pairwise_map]
  refine h.imp ?_
  intro a b hab hcl
  apply hab
  obtain ⟨h1, h2, h3, h4⟩ := hcl
  rw [(hg a).1, (hg b).1] at h3
  rw [(hg a).2.1, (hg b).2.1] at h4
  exact ⟨(hg a).2.2 h1, (hg b).2.2 h2, h3, h4⟩

/-- Every reachable code table has at most one unused, undeleted row for each
`(email, code_type)`. -/
theorem Reachable.oneActive {c : Collation} {t : CodeTable} (h : CodeTable.Reachable c t) :
    t.oneActive c := by
  induction h with
  | empty => simp [CodeTable.oneActive, CodeTable.empty]
  | @create t now email code codeType expiresAt _ ih =>
    unfold CodeTable.oneActive at ih ⊢
    simp only [CreateVerificationCode]
    rw [List.pairwise_append]
    refine ⟨?_, List.pairwise_singleton _ _, ?_⟩
    · apply oneActive_map _ _ ih
      intro r
      by_cases hc : (r.isFor c email codeType && r.IsDeleted == 0 && r.IsUsed == 0) = true
      · simp [hc, VerificationCode.active]
      · simp [hc]
    · intro a ha b hb hcl
      rw [List.mem_singleton] at hb
      subst hb
      obtain ⟨h1, _, h3, h4⟩ := hcl
      simp only [VerificationCode.active, Bool.and_eq_true, beq_iff_eq] at h1
      exact create_softdeletes ha h3 h4 h1.1 h1.2
  | markUsed now id _ ih =>
    unfold CodeTable.oneActive at ih ⊢
    simp only [MarkVerificationCodeAsUsed]
    apply oneActive_map _ _ ih
    intro r
    by_cases hc : (r.ID == id && r.IsUsed != 1) = true
    · simp [hc, VerificationCode.active]
    · simp [hc]
  | markDeleted now id _ ih =>
    unfold CodeTable.oneActive at ih ⊢
    simp only [MarkVerificationCodeAsDeleted]
    apply oneActive_map _ _ ih
    intro r
    by_cases hc : (r.ID == id && r.IsDeleted != 1) = true
    · simp [hc, VerificationCode.active]
    · simp [hc]
  | deleteByEmail email codeType _ ih =>
    unfold CodeTable.oneActive at ih ⊢
    simp only [DeleteVerificationCodesByEmail]
    exact ih.filter _
  | softDeleteExpired now _ ih =>
    unfold CodeTable.oneActive at ih ⊢
    simp only [SoftDeleteExpiredCodes]
    apply oneActive_map _ _ ih
    intro r
    by_cases hc : (decide (r.ExpiresAt ≤ now) && r.IsDeleted == 0) = true
    · simp [hc, VerificationCode.active]
    · simp [hc]
  | cleanupOld now _ ih =>
    unfold CodeTable.oneActive at ih ⊢
    simp only [CleanupOldVerificationCodes]
    exact ih.filter _

/-- C4: in every reachable state of the code table, once
`MarkVerificationCodeAsUsed` has been called on the id that a successful
`VerifyCode(email, code, purpose)` returned, a second `VerifyCode` with the
same email, code and purpose returns invalid, at whatever times the three
calls are made. -/
theorem code_single_use (c : Collation) (t : CodeTable) (email code purpose : String)
    (now nowUsed nowAgain : Int) (id : Nat) (err : Option String)
    (hreach : CodeTable.Reachable c t)
    (hvalid : VerifyCode c t now email code purpose = (true, id, err)) :
    VerifyCode c (MarkVerificationCodeAsUsed t nowUsed id) nowAgain email code purpose
      = (false, 0, some ErrNoRows) := by
  obtain ⟨vc, hvc, hid, hve, _, hvt, hvu, hvd, _⟩ := VerifyCode_valid hvalid
  have hinv := Reachable.oneActive hreach
  unfold CodeTable.oneActive at hinv
  apply VerifyCode_of_no_candidate
  rintro r hr ⟨he, _, ht, hu, hd⟩
  simp only [MarkVerificationCodeAsUsed, List.mem_map] at hr
  obtain ⟨r₀, hr₀, hg⟩ := hr
  by_cases hc : (r₀.ID == id && r₀.IsUsed != 1) = true
  · rw [if_pos hc] at hg
    subst hg
    simp at hu
  · rw [if_neg hc] at hg
    subst hg
    have hne : r₀.ID ≠ id := by
      intro heq
      apply hc
      simp [heq, hu]
    have hneq : r₀ ≠ vc := by
      intro heq
      apply hne
      rw [heq, hid]
    refine hinv.forall (clash_symm c) hr₀ hvc hneq ⟨?_, ?_, ?_, ?_⟩
    · simp [VerificationCode.active, hu, hd]
    · simp [VerificationCode.active, hvu, hvd]
    · exact c.trans _ _ _ he (c.symm _ _ hve)
    · exact c.trans _ _ _ ht (c.symm _ _ hvt)

/-- C4, witness: the register code of `alice@example.com`, verified, marked
used and verified again. -/
theorem code_single_use_witness :
    VerifyCode Collation.binary (MarkVerificationCodeAsUsed sampleCodes (1300 * Second) 1)
      (1400 * Second) "alice@example.com" "123456" "register" = (false, 0, some ErrNoRows) :=
  code_single_use Collation.binary sampleCodes "alice@example.com" "123456" "register"
    (1200 * Second) (1300 * Second) (1400 * Second) 1 none
    (CodeTable.Reachable.create _ _ _ _ _ CodeTable.Reachable.empty) (by decide)

/-! ## The expiry check of `VerifyCode` -/

/-- C6, the failing input: at the very instant `expires_at` the code has passed
its expiry for `GetValidVerificationCode` (`expires_at > NOW()`) and for the
sweeper (`expires_at <= NOW()`), yet `VerifyCode` still returns it as valid,
because `ExpiresAt.Before(now)` is false when the two are equal. -/
theorem VerifyCode_valid_at_expiry_instant :
    VerifyCode Collation.binary sampleCodes (2000 * Second)
        "alice@example.com" "123456" "register" = (true, 1, none)
    ∧ GetValidVerificationCode Collation.binary sampleCodes (2000 * Second)
        "alice@example.com" "register" = none
    ∧ (SoftDeleteExpiredCodes sampleCodes (2000 * Second)).rows.map (·.IsDeleted) = [1] := by
  decide

/-! ## Token round trip -/

/-- C9, counterexample: a token issued half a second past a full second with a
ttl of one second is rejected as expired 0.7 seconds later, before its ttl
has elapsed: `exp` was truncated to the full second. -/
theorem token_round_trip_counterexample :
    ∃ tok, GenerateTokenWithTTL "secret" (Second / 2) 7 "user" Second = .ok tok
      ∧ Second / 2 + 7 * (Second / 10) < Second / 2 + Second
      ∧ ParseToken "secret" (Second / 2 + 7 * (Second / 10)) tok = .error .expired := by
  exact ⟨_, rfl, by decide, rfl⟩

/-- C9, amended: for every id, role, ttl and issue time `issued`,
`GenerateTokenWithTTL` succeeds, and `ParseToken` of its token under the same
secret at time `now` succeeds, with the same id and role, exactly when `now`
is before the expiry instant `issued + ttl` truncated to a whole second (so
whenever at least one second of the ttl remains), and fails as expired
otherwise (so whenever the ttl has elapsed). -/
theorem token_round_trip (secret role : String) (id : Nat) (ttl issued now : Int) :
    ∃ tok, GenerateTokenWithTTL secret issued id role ttl = .ok tok
      ∧ (now < (issued + ttl) / Second * Second →
          ∃ c, ParseToken secret now tok = .ok c ∧ c.UserID = id ∧ c.Role = role)
      ∧ (now + Second ≤ issued + ttl → now < (issued + ttl) / Second * Second)
      ∧ ((issued + ttl) / Second * Second ≤ now → ParseToken secret now tok = .error .expired)
      ∧ (issued + ttl ≤ now → (issued + ttl) / Second * Second ≤ now) := by
  refine ⟨_, rfl, ?_, ?_, ?_, ?_⟩
  · intro h
    refine ⟨⟨id, role, some ((issued + ttl) / Second)⟩, ?_, rfl, rfl⟩
    simp [ParseToken, h]
  · intro h
    unfold Second at *
    omega
  · intro h
    have h' : ¬ now < (issued + ttl) / Second * Second := by omega
    simp [ParseToken, h']
  · intro h
    unfold Second at *
    omega

/-- C9, witness: a token of two hours, parsed one hour after it was issued. -/
theorem token_round_trip_witness :
    ∃ tok, GenerateTokenWithTTL "secret" (1000 * Second) 7 "user" (7200 * Second) = .ok tok
      ∧ ∃ c, ParseToken "secret" (4600 * Second) tok = .ok c ∧ c.UserID = 7 ∧ c.Role = "user" :=
  (token_round_trip "secret" "user" 7 (7200 * Second) (1000 * Second) (4600 * Second)).imp
    fun _ h => ⟨h.1, h.2.1 (by decide)⟩

/-! ## The outcomes of `Login` -/

/-- `Login` either fails without touching the table, or it is a login attempt
on an account whose lock, if any, has run out, and goes on to the status and
password checks (after clearing the stale lock). -/
theorem Login_fail_or_unlocked (d : Deps) (cfg : Config) (t : UserTable) (ctx : Ctx)
    (req : LoginRequest) :
    (∃ code msg, code ≠ 200 ∧ Login d cfg t ctx req = (Fail code msg, t))
    ∨ ∃ user, reaches d cfg t ctx req user
        ∧ (∀ l, user.LockUntil = some l → l ≤ unix ctx.now)
        ∧ Login d cfg t ctx req
            = loginUnlocked d cfg ctx req
                (if user.LockUntil.isSome then clearLock t user.ID else t) user := by
  by_cases hpw : req.Password = ""
  · exact .inl ⟨400, bindingError "LoginRequest" "Password" "required", by decide,
      by simp [Login, hpw]⟩
  by_cases hname : loginName d req = ""
  · exact .inl ⟨400, "username is required", by decide, by simp [Login, hpw, hname]⟩
  by_cases hcap : (cfg.GeetestEnabled && !ctx.captchaOk) = true
  · exact .inl ⟨403, "Captcha validation failed", by decide, by simp [Login, hpw, hname, hcap]⟩
  cases hfind : GetUserByUsernameOrEmail d.coll t (loginName d req) with
  | none =>
    exact .inl ⟨401, "Invalid account or password", by decide,
      by simp [Login, hpw, hname, hcap, hfind]⟩
  | some user =>
    have hr : reaches d cfg t ctx req user := by
      refine ⟨⟨hpw, hname, ?_⟩, hfind⟩
      intro hg
      cases hc : ctx.captchaOk
      · simp [hg, hc] at hcap
      · rfl
    cases hl : user.LockUntil with
    | none =>
      refine .inr ⟨user, hr, by simp [hl], ?_⟩
      rw [Login_of_reaches hr, hl]
      simp
    | some l =>
      by_cases hlt : l > unix ctx.now
      · refine .inl ⟨403, lockedMessage l (unix ctx.now), by decide, ?_⟩
        rw [Login_of_reaches hr, hl]
        simp [hlt]
      · refine .inr ⟨user, hr, ?_, ?_⟩
        · intro l' hl'
          simp only [hl, Option.some.injEq] at hl'
          omega
        · rw [Login_of_reaches hr, hl]
          simp [hlt]

/-! ## A disabled account -/

/-- C12: when the identifier of a request resolves to a disabled account
(status 0), `Login` fails whatever the submitted password: the code is not 200
(and it is 403 for every login attempt on the account), the response carries
no data, so no access or refresh token, and in the table it leaves every row
is as before except possibly for a stale lock-expiry that was cleared: the
failure count and the last-login fields are not reset. -/
theorem disabled_never_authenticates (d : Deps) (cfg : Config) (t : UserTable) (ctx : Ctx)
    (req : LoginRequest) (user : User)
    (hfind : GetUserByUsernameOrEmail d.coll t (loginName d req) = some user)
    (hs : user.Status = 0) :
    (Login d cfg t ctx req).1.Code ≠ 200
    ∧ (Login d cfg t ctx req).1.Data = .null
    ∧ (reaches d cfg t ctx req user → (Login d cfg t ctx req).1.Code = 403)
    ∧ List.Forall₂ (fun u v => v = { u with LockUntil := v.LockUntil })
        t.rows (Login d cfg t ctx req).2.rows := by
  rcases Login_fail_or_unlocked d cfg t ctx req with ⟨code, msg, hcode, heq⟩ | ⟨u, hr, _, heq⟩
  · refine ⟨by simp [heq, Fail, hcode], by simp [heq, Fail], ?_, ?_⟩
    · intro hr
      rw [Login_of_reaches hr] at heq ⊢
      cases hl : user.LockUntil with
      | none => simp [hl, loginUnlocked_inactive hs, Fail]
      | some l =>
        by_cases hlt : l > unix ctx.now
        · simp [hl, hlt, Fail]
        · simp [hl, hlt, loginUnlocked_inactive hs, Fail]
    · rw [heq]
      simp only [List.forall₂_same]
      intro x _
      trivial
  · have hu : u = user := by
      have := hr.2
      rw [hfind] at this
      exact (Option.some.inj this).symm
    subst hu
    rw [heq, loginUnlocked_inactive hs]
    refine ⟨by simp [Fail], by simp [Fail], fun _ => by simp [Fail], ?_⟩
    by_cases hsome : u.LockUntil.isSome = true
    · have htab : (if u.LockUntil.isSome = true then clearLock t u.ID else t) = clearLock t u.ID := by
        simp [hsome]
      rw [htab]
      simp only [clearLock, List.forall₂_map_right_iff, List.forall₂_same]
      intro x _
      by_cases hid : x.ID = u.ID
      · simp [hid]
      · simp [hid]
    · have htab : (if u.LockUntil.isSome = true then clearLock t u.ID else t) = t := by
        simp [hsome]
      rw [htab]
      simp only [List.forall₂_same]
      intro x _
      trivial

/-- C12, witness: `alice`, disabled, submits her password. -/
theorem disabled_never_authenticates_witness :
    (Login sampleDeps sampleConfig ⟨[{ alice with Status := 0, LoginFailure := 2 }], 2⟩
        (sampleCtx (1000 * Second)) ⟨"alice", "", "pw"⟩).1.Code ≠ 200
    ∧ (Login sampleDeps sampleConfig ⟨[{ alice with Status := 0, LoginFailure := 2 }], 2⟩
        (sampleCtx (1000 * Second)) ⟨"alice", "", "pw"⟩).1.Data = .null
    ∧ (Login sampleDeps sampleConfig ⟨[{ alice with Status := 0, LoginFailure := 2 }], 2⟩
        (sampleCtx (1000 * Second)) ⟨"alice", "", "pw"⟩).1.Code = 403
    ∧ List.Forall₂ (fun u v => v = { u with LockUntil := v.LockUntil })
        [{ alice with Status := 0, LoginFailure := 2 }]
        (Login sampleDeps sampleConfig ⟨[{ alice with Status := 0, LoginFailure := 2 }], 2⟩
          (sampleCtx (1000 * Second)) ⟨"alice", "", "pw"⟩).2.rows :=
  have h := disabled_never_authenticates sampleDeps sampleConfig
    ⟨[{ alice with Status := 0, LoginFailure := 2 }], 2⟩ (sampleCtx (1000 * Second))
    ⟨"alice", "", "pw"⟩ { alice with Status := 0, LoginFailure := 2 } (by decide) rfl
  ⟨h.1, h.2.1, h.2.2.1 (by decide), h.2.2.2⟩

/-! ## The lock check comes before the password -/

/-- C13: when the identifier of a request resolves to an account whose
lock-expiry is in the future, `Login` answers without consulting the password
check: the response and the table it leaves are the same for any two submitted
(non-empty) passwords and any two password checkers, the table is left exactly
as it was, so the failure count and the lock-expiry of the account do not
move, and a login attempt is answered 403 with the locked message. -/
theorem lock_check_precedes_password (d : Deps) (cfg : Config) (t : UserTable) (ctx : Ctx)
    (req : LoginRequest) (user : User) (lockUntil : Int) (pw₁ pw₂ : String)
    (check₁ check₂ : String → String → Bool)
    (hfind : GetUserByUsernameOrEmail d.coll t (loginName d req) = some user)
    (hl : user.LockUntil = some lockUntil) (hlt : unix ctx.now < lockUntil)
    (h₁ : pw₁ ≠ "") (h₂ : pw₂ ≠ "") :
    Login { d with CheckPasswordHash := check₁ } cfg t ctx { req with Password := pw₁ }
      = Login { d with CheckPasswordHash := check₂ } cfg t ctx { req with Password := pw₂ }
    ∧ (Login { d with CheckPasswordHash := check₁ } cfg t ctx { req with Password := pw₁ }).2 = t
    ∧ (passesGate d cfg ctx { req with Password := pw₁ } →
        (Login { d with CheckPasswordHash := check₁ } cfg t ctx { req with Password := pw₁ }).1
          = Fail 403 (lockedMessage lockUntil (unix ctx.now))) := by
  have key : ∀ (check : String → String → Bool) (pw : String), pw ≠ "" →
      Login { d with CheckPasswordHash := check } cfg t ctx { req with Password := pw }
        = if loginName d req = "" then (Fail 400 "username is required", t)
          else if (cfg.GeetestEnabled && !ctx.captchaOk) = true then
            (Fail 403 "Captcha validation failed", t)
          else (Fail 403 (lockedMessage lockUntil (unix ctx.now)), t) := by
    intro check pw hpw
    have hname : loginName { d with CheckPasswordHash := check } { req with Password := pw }
        = loginName d req := rfl
    by_cases hn : loginName d req = ""
    · simp [Login, hpw, hname, hn]
    by_cases hcap : (cfg.GeetestEnabled && !ctx.captchaOk) = true
    · simp [Login, hpw, hname, hn, hcap]
    · simp only [Login, hname, hfind, hl]
      simp [hpw, hn, hcap, hlt]
  refine ⟨by rw [key check₁ pw₁ h₁, key check₂ pw₂ h₂], ?_, ?_⟩
  · rw [key check₁ pw₁ h₁]
    split_ifs <;> rfl
  · intro hg
    have hn : loginName d req ≠ "" := hg.2.1
    have hcap : ¬ (cfg.GeetestEnabled && !ctx.captchaOk) = true := by
      intro hc
      simp only [Bool.and_eq_true, Bool.not_eq_true', ] at hc
      have := hg.2.2 hc.1
      rw [hc.2] at this
      exact Bool.noConfusion this
    rw [key check₁ pw₁ h₁]
    simp [hn, hcap]

/-- C13, witness: `alice`, locked until second 1600, tries a wrong and the
right password at second 1000. -/
theorem lock_check_precedes_password_witness :
    Login { sampleDeps with CheckPasswordHash := sampleDeps.CheckPasswordHash } sampleConfig
        ⟨[{ alice with LoginFailure := 5, LockUntil := some 1600 }], 2⟩ (sampleCtx (1000 * Second))
        { (⟨"alice", "", "x"⟩ : LoginRequest) with Password := "wrong" }
      = Login { sampleDeps with CheckPasswordHash := fun _ _ => true } sampleConfig
        ⟨[{ alice with LoginFailure := 5, LockUntil := some 1600 }], 2⟩ (sampleCtx (1000 * Second))
        { (⟨"alice", "", "x"⟩ : LoginRequest) with Password := "pw" }
    ∧ (Login { sampleDeps with CheckPasswordHash := sampleDeps.CheckPasswordHash } sampleConfig
        ⟨[{ alice with LoginFailure := 5, LockUntil := some 1600 }], 2⟩ (sampleCtx (1000 * Second))
        { (⟨"alice", "", "x"⟩ : LoginRequest) with Password := "wrong" }).2
      = ⟨[{ alice with LoginFailure := 5, LockUntil := some 1600 }], 2⟩
    ∧ (Login { sampleDeps with CheckPasswordHash := sampleDeps.CheckPasswordHash } sampleConfig
        ⟨[{ alice with LoginFailure := 5, LockUntil := some 1600 }], 2⟩ (sampleCtx (1000 * Second))
        { (⟨"alice", "", "x"⟩ : LoginRequest) with Password := "wrong" }).1
      = Fail 403 (lockedMessage 1600 (unix (1000 * Second))) :=
  have h := lock_check_precedes_password sampleDeps sampleConfig
    ⟨[{ alice with LoginFailure := 5, LockUntil := some 1600 }], 2⟩ (sampleCtx (1000 * Second))
    ⟨"alice", "", "x"⟩ { alice with LoginFailure := 5, LockUntil := some 1600 } 1600 "wrong" "pw"
    sampleDeps.CheckPasswordHash (fun _ _ => true) (by decide) rfl (by decide) (by decide)
    (by decide)
  ⟨h.1, h.2.1, h.2.2 (by decide)⟩

/-! ## The response to a bad credential -/

/-- C14: a login attempt whose identifier matches no account, and a login
attempt on an active account that is not locked with a password that does not
match, get exactly the same response: code 401, message "Invalid account or
password", no data. -/
theorem generic_bad_credential (d : Deps) (cfg : Config) (t₁ t₂ : UserTable) (ctx₁ ctx₂ : Ctx)
    (req₁ req₂ : LoginRequest) (user : User)
    (hgate : passesGate d cfg ctx₁ req₁)
    (hnone : GetUserByUsernameOrEmail d.coll t₁ (loginName d req₁) = none)
    (hr : reaches d cfg t₂ ctx₂ req₂ user)
    (hunlocked : ∀ l, user.LockUntil = some l → l ≤ unix ctx₂.now)
    (hs : user.Status ≠ 0)
    (hp : d.CheckPasswordHash req₂.Password user.Password = false) :
    (Login d cfg t₁ ctx₁ req₁).1 = Fail 401 "Invalid account or password"
    ∧ (Login d cfg t₂ ctx₂ req₂).1 = Fail 401 "Invalid account or password" := by
  constructor
  · obtain ⟨hpw, hname, hcap⟩ := hgate
    have hcap2 : (cfg.GeetestEnabled && !ctx₁.captchaOk) = false := by
      cases hg : cfg.GeetestEnabled
      · simp
      · simp [hcap hg]
    simp [Login, hpw, hname, hcap2, hnone]
  · rw [Login_of_reaches hr]
    cases hl : user.LockUntil with
    | none => simp [loginUnlocked_wrong hs hp]
    | some l =>
      have hle : ¬ l > unix ctx₂.now := by
        have := hunlocked l hl
        omega
      simp [hle, loginUnlocked_wrong hs hp]

/-- C14, witness: an unknown name, and `alice` with a wrong password. -/
theorem generic_bad_credential_witness :
    (Login sampleDeps sampleConfig ⟨[alice], 2⟩ (sampleCtx (1000 * Second)) ⟨"bob", "", "pw"⟩).1
      = Fail 401 "Invalid account or password"
    ∧ (Login sampleDeps sampleConfig ⟨[alice], 2⟩ (sampleCtx (1000 * Second))
        ⟨"alice", "", "wrong"⟩).1
      = Fail 401 "Invalid account or password" :=
  generic_bad_credential sampleDeps sampleConfig ⟨[alice], 2⟩ ⟨[alice], 2⟩
    (sampleCtx (1000 * Second)) (sampleCtx (1000 * Second)) ⟨"bob", "", "pw"⟩
    ⟨"alice", "", "wrong"⟩ alice (by decide) (by decide) (by decide) (by decide) (by decide)
    (by decide)

/-! ## The gate is the lock-expiry, not the counter -/

/-- C16: a login attempt with the matching password on an active account whose
lock-expiry is absent or not in the future succeeds whatever the failure count
of the account, so also when the count is at or above the threshold: the
response is 200 with an access and a refresh token for the account. -/
theorem gate_is_lock_expiry (d : Deps) (cfg : Config) (t : UserTable) (ctx : Ctx)
    (req : LoginRequest) (user : User)
    (h : reaches d cfg t ctx req user)
    (hunlocked : ∀ l, user.LockUntil = some l → l ≤ unix ctx.now)
    (hs : user.Status ≠ 0)
    (hp : d.CheckPasswordHash req.Password user.Password = true) :
    ∃ accessToken refreshToken,
      GenerateTokenWithTTL cfg.JWTSecret ctx.now user.ID user.Role
          (cfg.JWTAccessExpire * Second) = .ok accessToken
      ∧ GenerateTokenWithTTL cfg.JWTSecret ctx.now user.ID user.Role
          (cfg.JWTRefreshExpire * Second) = .ok refreshToken
      ∧ (Login d cfg t ctx req).1 =
          Success (.login user.ID user.Username user.Email [user.Role] accessToken
            refreshToken (unix ctx.now + cfg.JWTAccessExpire)) := by
  refine ⟨_, _, rfl, rfl, ?_⟩
  rw [Login_of_reaches h]
  cases hl : user.LockUntil with
  | none => simp [loginUnlocked_ok hs hp]
  | some l =>
    have hle : ¬ l > unix ctx.now := by
      have := hunlocked l hl
      omega
    simp [hle, loginUnlocked_ok hs hp]

/-- C16, witness: `alice` with seven failures on record, threshold five and no
lock-expiry. -/
theorem gate_is_lock_expiry_witness :
    ∃ accessToken refreshToken,
      GenerateTokenWithTTL "secret" (1000 * Second) 1 "user" (7200 * Second) = .ok accessToken
      ∧ GenerateTokenWithTTL "secret" (1000 * Second) 1 "user" (604800 * Second)
          = .ok refreshToken
      ∧ (Login sampleDeps sampleConfig ⟨[{ alice with LoginFailure := 7 }], 2⟩
            (sampleCtx (1000 * Second)) ⟨"alice", "", "pw"⟩).1 =
          Success (.login 1 "alice" "alice@example.com" ["user"] accessToken
            refreshToken (unix (1000 * Second) + 7200)) :=
  gate_is_lock_expiry sampleDeps sampleConfig ⟨[{ alice with LoginFailure := 7 }], 2⟩
    (sampleCtx (1000 * Second)) ⟨"alice", "", "pw"⟩ { alice with LoginFailure := 7 }
    (by decide) (by decide) (by decide) (by decide)

/-! ## Refreshing a token -/

/-- C11: when a login attempt succeeds, `Login` returns a refresh token for the
account, and `UpdateToken` on that refresh token, at any time before the
expiry it carries (the issue time plus the refresh ttl, in whole seconds),
answers 200 with a new access token and a new refresh token; each of them
carries the id and the role of the account, and `ParseToken` returns exactly
these claims for it at any time before its own expiry. -/
theorem refresh_preserves_identity (d : Deps) (cfg : Config) (t : UserTable) (s : Store)
    (ctx ctx₂ : Ctx) (req : LoginRequest) (user : User)
    (h : reaches d cfg t ctx req user)
    (hunlocked : ∀ l, user.LockUntil = some l → l ≤ unix ctx.now)
    (hs : user.Status ≠ 0)
    (hp : d.CheckPasswordHash req.Password user.Password = true)
    (hbefore : ctx₂.now < (ctx.now + cfg.JWTRefreshExpire * Second) / Second * Second) :
    ∃ accessToken refreshToken newAccess newRefresh,
      (Login d cfg t ctx req).1 =
          Success (.login user.ID user.Username user.Email [user.Role] accessToken
            refreshToken (unix ctx.now + cfg.JWTAccessExpire))
      ∧ UpdateToken cfg s ctx₂ ⟨refreshToken⟩
          = (Success (.tokens newAccess newRefresh (unix ctx₂.now + cfg.JWTAccessExpire)), s)
      ∧ (∀ now, now < (ctx₂.now + cfg.JWTAccessExpire * Second) / Second * Second →
          ParseToken cfg.JWTSecret now newAccess
            = .ok ⟨user.ID, user.Role, some ((ctx₂.now + cfg.JWTAccessExpire * Second) / Second)⟩)
      ∧ (∀ now, now < (ctx₂.now + cfg.JWTRefreshExpire * Second) / Second * Second →
          ParseToken cfg.JWTSecret now newRefresh
            = .ok ⟨user.ID, user.Role, some ((ctx₂.now + cfg.JWTRefreshExpire * Second) / Second)⟩)
      ∧ (∀ now c, ParseToken cfg.JWTSecret now newAccess = .ok c →
          c.UserID = user.ID ∧ c.Role = user.Role)
      ∧ (∀ now c, ParseToken cfg.JWTSecret now newRefresh = .ok c →
          c.UserID = user.ID ∧ c.Role = user.Role) := by
  have hlogin : Login d cfg t ctx req
      = loginUnlocked d cfg ctx req (if user.LockUntil.isSome then clearLock t user.ID else t)
          user := by
    rw [Login_of_reaches h]
    cases hl : user.LockUntil with
    | none => simp
    | some l =>
      have hle : ¬ l > unix ctx.now := by
        have := hunlocked l hl
        omega
      simp [hle]
  rw [hlogin, loginUnlocked_ok hs hp]
  refine ⟨_, _,
    signedToken cfg.JWTSecret ctx₂.now user.ID user.Role (cfg.JWTAccessExpire * Second),
    signedToken cfg.JWTSecret ctx₂.now user.ID user.Role (cfg.JWTRefreshExpire * Second),
    rfl, ?_, ?_, ?_, ?_, ?_⟩
  · simp [UpdateToken, ParseToken, hbefore, GenerateTokenWithTTL, signedToken]
  · intro now hnow
    simp [ParseToken, signedToken, hnow]
  · intro now hnow
    simp [ParseToken, signedToken, hnow]
  · intro now c hc
    simp only [ParseToken, signedToken] at hc
    split_ifs at hc
    simp only [Except.ok.injEq] at hc
    subst hc
    exact ⟨rfl, rfl⟩
  · intro now c hc
    simp only [ParseToken, signedToken] at hc
    split_ifs at hc
    simp only [Except.ok.injEq] at hc
    subst hc
    exact ⟨rfl, rfl⟩

/-- C11, witness: `alice` logs in at second 1000 and refreshes one hour later. -/
theorem refresh_preserves_identity_witness :
    ∃ accessToken refreshToken newAccess newRefresh,
      (Login sampleDeps sampleConfig ⟨[alice], 2⟩ (sampleCtx (1000 * Second))
          ⟨"alice", "", "pw"⟩).1 =
          Success (.login 1 "alice" "alice@example.com" ["user"] accessToken
            refreshToken (unix (1000 * Second) + 7200))
      ∧ UpdateToken sampleConfig ⟨⟨[alice], 2⟩, CodeTable.empty⟩ (sampleCtx (4600 * Second))
            ⟨refreshToken⟩
          = (Success (.tokens newAccess newRefresh (unix (4600 * Second) + 7200)),
              ⟨⟨[alice], 2⟩, CodeTable.empty⟩)
      ∧ ParseToken "secret" (4700 * Second) newAccess = .ok ⟨1, "user", some 11800⟩
      ∧ ParseToken "secret" (4700 * Second) newRefresh = .ok ⟨1, "user", some 609400⟩ :=
  have h := refresh_preserves_identity sampleDeps sampleConfig ⟨[alice], 2⟩
    ⟨⟨[alice], 2⟩, CodeTable.empty⟩ (sampleCtx (1000 * Second)) (sampleCtx (4600 * Second))
    ⟨"alice", "", "pw"⟩ alice (by decide) (by decide) (by decide) (by decide) (by decide)
  h.imp fun _ h => h.imp fun _ h => h.imp fun _ h => h.imp fun _ h =>
    ⟨h.1, h.2.1, h.2.2.1 _ (by decide), h.2.2.2.1 _ (by decide)⟩

/-! ## The format of a code -/

theorem toDigitsCore_acc (f : Nat) : ∀ (n : Nat) (ds : List Char),
    Nat.toDigitsCore 10 f n ds = Nat.toDigitsCore 10 f n [] ++ ds := by
  induction f with
  | zero => intro n ds; simp [Nat.toDigitsCore]
  | succ f ih =>
    intro n ds
    simp only [Nat.toDigitsCore]
    by_cases h : n / 10 = 0
    · simp [h]
    · simp only [h, if_false]
      rw [ih (n / 10) (Nat.digitChar (n % 10) :: ds), ih (n / 10) [Nat.digitChar (n % 10)]]
      simp

theorem toDigitsCore_fuel (f : Nat) : ∀ (g n : Nat), n < f → n < g →
    Nat.toDigitsCore 10 f n [] = Nat.toDigitsCore 10 g n [] := by
  induction f with
  | zero => intro g n h; omega
  | succ f ih =>
    intro g n hf hg
    cases g with
    | zero => omega
    | succ g =>
      simp only [Nat.toDigitsCore]
      by_cases h : n / 10 = 0
      · simp [h]
      · simp only [h, if_false]
        rw [toDigitsCore_acc f, toDigitsCore_acc g, ih g (n / 10) (by omega) (by omega)]

theorem toDigits_lt (n : Nat) (h : n < 10) : Nat.toDigits 10 n = [Nat.digitChar n] := by
  have h0 : n / 10 = 0 := by omega
  have h1 : n % 10 = n := by omega
  simp [Nat.toDigits, Nat.toDigitsCore, h0, h1]

theorem toDigitsCore_succ (f n : Nat) (ds : List Char) :
    Nat.toDigitsCore 10 (f + 1) n ds =
      if n / 10 = 0 then Nat.digitChar (n % 10) :: ds
      else Nat.toDigitsCore 10 f (n / 10) (Nat.digitChar (n % 10) :: ds) := by
  simp [Nat.toDigitsCore]

theorem toDigits_step (n : Nat) (h : 10 ≤ n) :
    Nat.toDigits 10 n = Nat.toDigits 10 (n / 10) ++ [Nat.digitChar (n % 10)] := by
  have h0 : n / 10 ≠ 0 := by omega
  unfold Nat.toDigits
  rw [toDigitsCore_succ n n [], if_neg h0, toDigitsCore_acc,
    toDigitsCore_fuel n (n / 10 + 1) (n / 10) (by omega) (by omega)]

theorem toDigits_six (n : Nat) (h : n < 1000000) :
    List.replicate (6 - (Nat.toDigits 10 n).length) '0' ++ Nat.toDigits 10 n
      = [Nat.digitChar (n / 100000), Nat.digitChar (n / 10000 % 10),
         Nat.digitChar (n / 1000 % 10), Nat.digitChar (n / 100 % 10),
         Nat.digitChar (n / 10 % 10), Nat.digitChar (n % 10)] := by
  by_cases h1 : n < 10
  · have e1 : n / 100000 = 0 := by omega
    have e2 : n / 10000 % 10 = 0 := by omega
    have e3 : n / 1000 % 10 = 0 := by omega
    have e4 : n / 100 % 10 = 0 := by omega
    have e5 : n / 10 % 10 = 0 := by omega
    have e6 : n % 10 = n := by omega
    rw [toDigits_lt n h1, e1, e2, e3, e4, e5, e6]
    rfl
  by_cases h2 : n < 100
  · have e1 : n / 100000 = 0 := by omega
    have e2 : n / 10000 % 10 = 0 := by omega
    have e3 : n / 1000 % 10 = 0 := by omega
    have e4 : n / 100 % 10 = 0 := by omega
    have e5 : n / 10 % 10 = n / 10 := by omega
    rw [toDigits_step n (by omega), toDigits_lt (n / 10) (by omega), e1, e2, e3, e4, e5]
    rfl
  by_cases h3 : n < 1000
  · have e1 : n / 100000 = 0 := by omega
    have e2 : n / 10000 % 10 = 0 := by omega
    have e3 : n / 1000 % 10 = 0 := by omega
    have e4 : n / 100 % 10 = n / 10 / 10 := by omega
    rw [toDigits_step n (by omega), toDigits_step (n / 10) (by omega),
      toDigits_lt (n / 10 / 10) (by omega), e1, e2, e3, e4]
    rfl
  by_cases h4 : n < 10000
  · have e1 : n / 100000 = 0 := by omega
    have e2 : n / 10000 % 10 = 0 := by omega
    have e3 : n / 1000 % 10 = n / 10 / 10 / 10 := by omega
    have e4 : n / 100 % 10 = n / 10 / 10 % 10 := by omega
    rw [toDigits_step n (by omega), toDigits_step (n / 10) (by omega),
      toDigits_step (n / 10 / 10) (by omega),
      toDigits_lt (n / 10 / 10 / 10) (by omega), e1, e2, e3, e4]
    rfl
  by_cases h5 : n < 100000
  · have e1 : n / 100000 = 0 := by omega
    have e2 : n / 10000 % 10 = n / 10 / 10 / 10 / 10 := by omega
    have e3 : n / 1000 % 10 = n / 10 / 10 / 10 % 10 := by omega
    have e4 : n / 100 % 10 = n / 10 / 10 % 10 := by omega
    rw [toDigits_step n (by omega), toDigits_step (n / 10) (by omega),
      toDigits_step (n / 10 / 10) (by omega), toDigits_step (n / 10 / 10 / 10) (by omega),
      toDigits_lt (n / 10 / 10 / 10 / 10) (by omega), e1, e2, e3, e4]
    rfl
  · have e1 : n / 100000 = n / 10 / 10 / 10 / 10 / 10 := by omega
    have e2 : n / 10000 % 10 = n / 10 / 10 / 10 / 10 % 10 := by omega
    have e3 : n / 1000 % 10 = n / 10 / 10 / 10 % 10 := by omega
    have e4 : n / 100 % 10 = n / 10 / 10 % 10 := by omega
    rw [toDigits_step n (by omega), toDigits_step (n / 10) (by omega),
      toDigits_step (n / 10 / 10) (by omega), toDigits_step (n / 10 / 10 / 10) (by omega),
      toDigits_step (n / 10 / 10 / 10 / 10) (by omega),
      toDigits_lt (n / 10 / 10 / 10 / 10 / 10) (by omega), e1, e2, e3, e4]
    rfl

theorem digitChar_digit (x : Nat) (h : x < 10) :
    (Nat.digitChar x).isDigit = true ∧ (Nat.digitChar x).toNat - 48 = x := by
  interval_cases x <;> decide

theorem code06_data (n : Nat) (h : n < 1000000) :
    (code06 n).data
      = [Nat.digitChar (n / 100000), Nat.digitChar (n / 10000 % 10),
         Nat.digitChar (n / 1000 % 10), Nat.digitChar (n / 100 % 10),
         Nat.digitChar (n / 10 % 10), Nat.digitChar (n % 10)] := by
  simp only [code06]
  exact toDigits_six n h

theorem SendRegisterCode_codes (d : Deps) (cfg : Config) (s : Store) (ctx : Ctx)
    (req : SendCodeRequest) :
    (SendRegisterCode d cfg s ctx req).2.codes =
      if req.Email = "" ∨ d.validEmail req.Email = false then s.codes
      else CreateVerificationCode d.coll s.codes ctx.now (d.Clean_XSS req.Email) (code06 ctx.rnd)
        "register" (ctx.now + cfg.RegisterCodeExpireMinutes * Minute) := by
  unfold SendRegisterCode
  by_cases h1 : req.Email = ""
  · simp [h1]
  by_cases h2 : d.validEmail req.Email = false
  · simp [h1, h2]
  have h2' : d.validEmail req.Email = true := by simpa using h2
  have hc : ¬ (req.Email = "" ∨ d.validEmail req.Email = false) := by simp [h1, h2']
  rw [if_neg hc]
  simp only [beq_iff_eq, h1, h2', if_false, Bool.not_true, Bool.false_eq_true]
  cases ctx.mailErr <;> simp only [] <;> split_ifs <;> rfl

theorem SendResetEmail_codes (d : Deps) (cfg : Config) (s : Store) (ctx : Ctx)
    (req : ResetEmailRequest) :
    (SendResetEmail d cfg s ctx req).2.codes =
      if req.Email = "" then s.codes
      else
        match GetUserByUsernameOrEmail d.coll s.users (d.Clean_XSS req.Email) with
        | none => s.codes
        | some user =>
          CreateVerificationCode d.coll s.codes ctx.now user.Email (code06 ctx.rnd)
            "reset_password" (ctx.now + 15 * Minute) := by
  unfold SendResetEmail
  by_cases h1 : req.Email = ""
  · simp [h1]
  rw [if_neg h1]
  simp only [beq_iff_eq, h1, if_false]
  cases GetUserByUsernameOrEmail d.coll s.users (d.Clean_XSS req.Email) with
  | none => rfl
  | some user =>
    simp only []
    cases ctx.mailErr <;> simp only [] <;> split_ifs <;> rfl

/-- C18: for every n with 0 <= n < 1000000 the code `fmt.Sprintf("%06d", n)` is
a string of exactly 6 characters, each a decimal digit, the digits of n from
the hundred-thousands down to the units (so leading zeros are kept), and its
numeric value is n.  When the generator draws n, `SendRegisterCode` on a
request that passes the binding (with a sanitised email that fits the email
column of the code table, 255 characters) issues this string: the code table
after the call is the table after `CreateVerificationCode` with this code for
the sanitised email, and its last row is the new code.  Likewise
`SendResetEmail`, on a request that passes the binding and names an account,
issues this string for the email of the account. -/
theorem code_format (n : Nat) (hn : n < 1000000) :
    (code06 n).length = 6
    ∧ (∀ c ∈ (code06 n).data, c.isDigit = true)
    ∧ decimalValue (code06 n) = n
    ∧ (code06 n).data
        = [Nat.digitChar (n / 100000), Nat.digitChar (n / 10000 % 10),
           Nat.digitChar (n / 1000 % 10), Nat.digitChar (n / 100 % 10),
           Nat.digitChar (n / 10 % 10), Nat.digitChar (n % 10)]
    ∧ (∀ (d : Deps) (cfg : Config) (s : Store) (ctx : Ctx) (req : SendCodeRequest),
        ctx.rnd = n → req.Email ≠ "" → d.validEmail req.Email = true →
        (d.Clean_XSS req.Email).length ≤ 255 →
        (SendRegisterCode d cfg s ctx req).2.codes
            = CreateVerificationCode d.coll s.codes ctx.now (d.Clean_XSS req.Email) (code06 n)
                "register" (ctx.now + cfg.RegisterCodeExpireMinutes * Minute)
        ∧ (SendRegisterCode d cfg s ctx req).2.codes.rows.getLast?
            = some ⟨s.codes.nextID, d.Clean_XSS req.Email, code06 n, "register",
                ctx.now + cfg.RegisterCodeExpireMinutes * Minute, 0, 0, ctx.now, ctx.now⟩)
    ∧ (∀ (d : Deps) (cfg : Config) (s : Store) (ctx : Ctx) (req : ResetEmailRequest)
        (user : User),
        ctx.rnd = n → req.Email ≠ "" →
        GetUserByUsernameOrEmail d.coll s.users (d.Clean_XSS req.Email) = some user →
        (SendResetEmail d cfg s ctx req).2.codes
            = CreateVerificationCode d.coll s.codes ctx.now user.Email (code06 n)
                "reset_password" (ctx.now + 15 * Minute)
        ∧ (SendResetEmail d cfg s ctx req).2.codes.rows.getLast?
            = some ⟨s.codes.nextID, user.Email, code06 n, "reset_password",
                ctx.now + 15 * Minute, 0, 0, ctx.now, ctx.now⟩) := by
  have hdata := code06_data n hn
  have d1 := digitChar_digit (n / 100000) (by omega)
  have d2 := digitChar_digit (n / 10000 % 10) (by omega)
  have d3 := digitChar_digit (n / 1000 % 10) (by omega)
  have d4 := digitChar_digit (n / 100 % 10) (by omega)
  have d5 := digitChar_digit (n / 10 % 10) (by omega)
  have d6 := digitChar_digit (n % 10) (by omega)
  refine ⟨?_, ?_, ?_, hdata, ?_, ?_⟩
  · show (code06 n).data.length = 6
    rw [hdata]
    rfl
  · intro c hc
    rw [hdata] at hc
    simp only [List.mem_cons, List.mem_singleton, List.not_mem_nil, or_false] at hc
    rcases hc with rfl | rfl | rfl | rfl | rfl | rfl
    · exact d1.1
    · exact d2.1
    · exact d3.1
    · exact d4.1
    · exact d5.1
    · exact d6.1
  · simp only [decimalValue, hdata, List.foldl, d1.2, d2.2, d3.2, d4.2, d5.2, d6.2]
    omega
  · intro d cfg s ctx req hrnd hne hvalid _
    subst hrnd
    have hcodes := SendRegisterCode_codes d cfg s ctx req
    rw [if_neg (by simp [hne, hvalid])] at hcodes
    refine ⟨hcodes, ?_⟩
    rw [hcodes]
    simp [CreateVerificationCode]
  · intro d cfg s ctx req user hrnd hne hfind
    subst hrnd
    have hcodes := SendResetEmail_codes d cfg s ctx req
    rw [if_neg hne, hfind] at hcodes
    refine ⟨hcodes, ?_⟩
    rw [hcodes]
    simp [CreateVerificationCode]

/-- C18, witness: the number 42 gives the code `000042`; `SendRegisterCode`
for `bob@example.com` and `SendResetEmail` for the account `alice` store
it. -/
theorem code_format_witness :
    (code06 42).length = 6
    ∧ (∀ c ∈ (code06 42).data, c.isDigit = true)
    ∧ decimalValue (code06 42) = 42
    ∧ code06 42 = "000042"
    ∧ (SendRegisterCode sampleDeps sampleConfig ⟨⟨[alice], 2⟩, CodeTable.empty⟩
          { sampleCtx (1000 * Second) with rnd := 42 } ⟨"bob@example.com", ""⟩).2.codes.rows.getLast?
        = some ⟨1, "bob@example.com", code06 42, "register", 1000 * Second + 60 * Minute, 0, 0,
            1000 * Second, 1000 * Second⟩
    ∧ (SendResetEmail sampleDeps sampleConfig ⟨⟨[alice], 2⟩, CodeTable.empty⟩
          { sampleCtx (1000 * Second) with rnd := 42 } ⟨"alice", ""⟩).2.codes.rows.getLast?
        = some ⟨1, "alice@example.com", code06 42, "reset_password", 1000 * Second + 15 * Minute,
            0, 0, 1000 * Second, 1000 * Second⟩ :=
  have h := code_format 42 (by decide)
  ⟨h.1, h.2.1, h.2.2.1, by decide,
    (h.2.2.2.2.1 sampleDeps sampleConfig ⟨⟨[alice], 2⟩, CodeTable.empty⟩
      { sampleCtx (1000 * Second) with rnd := 42 } ⟨"bob@example.com", ""⟩ rfl (by decide)
      (by decide) (by decide)).2,
    (h.2.2.2.2.2 sampleDeps sampleConfig ⟨⟨[alice], 2⟩, CodeTable.empty⟩
      { sampleCtx (1000 * Second) with rnd := 42 } ⟨"alice", ""⟩ alice rfl (by decide)
      (by decide)).2⟩

/-! ## The invariant of the code table -/

theorem filter_clash {c : Collation} {email purpose : String} {a b : VerificationCode}
    (ha : (a.isFor c email purpose && a.active) = true)
    (hb : (b.isFor c email purpose && b.active) = true) : VerificationCode.clash c a b := by
  simp only [VerificationCode.isFor, Bool.and_eq_true] at ha hb
  exact ⟨ha.2, hb.2, c.trans _ _ _ ha.1.1 (c.symm _ _ hb.1.1),
    c.trans _ _ _ ha.1.2 (c.symm _ _ hb.1.2)⟩

/-- C17: in every state of the code table reachable from the empty table by
the six operations, each `(email, purpose)` has at most one row that is unused
and not soft-deleted; and right after `CreateVerificationCode(email, code,
purpose, expiresAt)` that row is the one just created, every row of the pair
that was unused and undeleted before is now soft-deleted, and every other row
is as it was. -/
theorem active_code_invariant (c : Collation) (t : CodeTable) (email purpose code : String)
    (now expiresAt : Int) (h : CodeTable.Reachable c t) :
    (t.rows.filter (fun r => r.isFor c email purpose && r.active)).length ≤ 1
    ∧ (CreateVerificationCode c t now email code purpose expiresAt).rows.filter
          (fun r => r.isFor c email purpose && r.active)
        = [{ ID := t.nextID, Email := email, Code := code, CodeType := purpose,
             ExpiresAt := expiresAt, IsUsed := 0, IsDeleted := 0,
             CreatedAt := now, UpdatedAt := now }]
    ∧ (∀ r ∈ t.rows, (r.isFor c email purpose && r.active) = true →
        { r with IsDeleted := 1, UpdatedAt := now }
          ∈ (CreateVerificationCode c t now email code purpose expiresAt).rows)
    ∧ (∀ r ∈ t.rows, (r.isFor c email purpose && r.active) = false →
        r ∈ (CreateVerificationCode c t now email code purpose expiresAt).rows) := by
  refine ⟨?_, ?_, ?_, ?_⟩
  · have hinv := Reachable.oneActive h
    unfold CodeTable.oneActive at hinv
    have hf := hinv.filter (fun r => r.isFor c email purpose && r.active)
    match hl : t.rows.filter (fun r => r.isFor c email purpose && r.active) with
    | [] => simp [hl]
    | [_] => simp [hl]
    | a :: b :: rest =>
      exfalso
      rw [hl] at hf
      have ha : a ∈ t.rows.filter (fun r => r.isFor c email purpose && r.active) := by
        rw [hl]; simp
      have hb : b ∈ t.rows.filter (fun r => r.isFor c email purpose && r.active) := by
        rw [hl]; simp
      have hab := (List.pairwise_cons.1 hf).1 b (by simp)
      exact hab (filter_clash (List.mem_filter.1 ha).2 (List.mem_filter.1 hb).2)
  · simp only [CreateVerificationCode, List.filter_append]
    have hold : (t.rows.map (fun r =>
        if r.isFor c email purpose && r.IsDeleted == 0 && r.IsUsed == 0 then
          { r with IsDeleted := 1, UpdatedAt := now }
        else r)).filter (fun r => r.isFor c email purpose && r.active) = [] := by
      rw [List.filter_eq_nil_iff]
      intro r hr hp
      simp only [VerificationCode.isFor, VerificationCode.active, Bool.and_eq_true,
        beq_iff_eq] at hp
      exact create_softdeletes hr hp.1.1 hp.1.2 hp.2.1 hp.2.2
    rw [hold]
    simp [VerificationCode.isFor, VerificationCode.active, c.refl]
  · intro r hr hp
    simp only [CreateVerificationCode, List.mem_append, List.mem_map]
    refine .inl ⟨r, hr, ?_⟩
    simp only [VerificationCode.active, Bool.and_eq_true, beq_iff_eq] at hp
    simp [hp.1, hp.2.1, hp.2.2]
  · intro r hr hp
    simp only [CreateVerificationCode, List.mem_append, List.mem_map]
    refine .inl ⟨r, hr, ?_⟩
    have : ¬ (r.isFor c email purpose && r.IsDeleted == 0 && r.IsUsed == 0) = true := by
      intro hq
      simp only [Bool.and_eq_true, beq_iff_eq] at hq
      simp [VerificationCode.active, hq.1.1, hq.1.2, hq.2] at hp
    rw [if_neg this]

/-- C17, witness: a second code for `alice@example.com` on the table that holds
her first. -/
theorem active_code_invariant_witness :
    (sampleCodes.rows.filter
        (fun r => r.isFor Collation.binary "alice@example.com" "register" && r.active)).length ≤ 1
    ∧ (CreateVerificationCode Collation.binary sampleCodes (1100 * Second)
          "alice@example.com" "654321" "register" (2100 * Second)).rows.filter
          (fun r => r.isFor Collation.binary "alice@example.com" "register" && r.active)
        = [{ ID := 2, Email := "alice@example.com", Code := "654321", CodeType := "register",
             ExpiresAt := 2100 * Second, IsUsed := 0, IsDeleted := 0,
             CreatedAt := 1100 * Second, UpdatedAt := 1100 * Second }] :=
  have h := active_code_invariant Collation.binary sampleCodes "alice@example.com" "register"
    "654321" (1100 * Second) (2100 * Second)
    (CodeTable.Reachable.create _ _ _ _ _ CodeTable.Reachable.empty)
  ⟨h.1, h.2.1⟩

/-! ## The failure path of the lockout policy -/

/-- `IncrementLoginFailure` on the one row of an account, when the first
`UPDATE` goes through (the counter is below 255, or the server is not in
strict mode). -/
theorem IncrementLoginFailure_clip {strict : Bool} {t : UserTable} {a₀ a : User} {now : Int}
    {maxFailureCount lockDurationMinutes : Int}
    (hmem : a₀ ∈ t.rows) (hid : a.ID = a₀.ID) (hok : strict = false ∨ a.LoginFailure < 255) :
    IncrementLoginFailure strict (t.put a) now a.ID maxFailureCount lockDurationMinutes =
      (if maxFailureCount ≤ ((a.failed (unix now)).LoginFailure : Int) then
        t.put ((a.failed (unix now)).lockedTo (unix now) (unix now + lockDurationMinutes * 60))
      else t.put (a.failed (unix now)), none) := by
  have hany : (strict && (t.put a).rows.any
      (fun u => u.ID == a.ID && decide (255 < u.LoginFailure + 1))) = false := by
    rcases hok with hstrict | hlt
    · simp [hstrict]
    · rw [Bool.and_eq_false_iff]
      right
      rw [List.any_eq_false]
      intro u hu
      simp only [UserTable.put, List.mem_map] at hu
      obtain ⟨v, _, rfl⟩ := hu
      by_cases hv : v.ID = a.ID
      · simp [hv]; omega
      · simp [hv]
  have h₁ : (t.put a).rows.map (fun u => if u.ID == a.ID then u.failed (unix now) else u)
      = (t.put (a.failed (unix now))).rows := put_rows_map t a (fun u => u.failed (unix now)) rfl
  have hfind : (t.put (a.failed (unix now))).rows.find? (fun u => u.ID == a.ID)
      = some (a.failed (unix now)) :=
    @find_put t a₀ (a.failed (unix now)) hmem hid
  have h₂ : (t.put (a.failed (unix now))).rows.map (fun u => if u.ID == a.ID then
        u.lockedTo (unix now) (unix now + lockDurationMinutes * 60) else u)
      = (t.put ((a.failed (unix now)).lockedTo (unix now)
          (unix now + lockDurationMinutes * 60))).rows :=
    put_rows_map t (a.failed (unix now))
      (fun u => u.lockedTo (unix now) (unix now + lockDurationMinutes * 60)) rfl
  simp only [IncrementLoginFailure, hany, Bool.false_eq_true, if_false, h₁, hfind, h₂]
  by_cases hN : maxFailureCount ≤ ((a.failed (unix now)).LoginFailure : Int)
  · simp only [hN, if_true]
    rfl
  · simp only [hN, if_false]
    rfl

/-- The rows of a table after the row of `a` was replaced, against the rows
before. -/
theorem forall₂_put {t : UserTable} {a a' : User} {R : User → User → Prop}
    (huniq : ∀ u ∈ t.rows, u.ID = a.ID → u = a) (hid : a'.ID = a.ID)
    (hR : R a a') :
    List.Forall₂ (fun u v => if u.ID = a.ID then R u v else v = u) t.rows (t.put a').rows := by
  simp only [UserTable.put, List.forall₂_map_right_iff, List.forall₂_same]
  intro u hu
  by_cases h : u.ID = a.ID
  · have := huniq u hu h
    subst this
    simp [hid, hR]
  · simp [h, hid]

/-- C15, counterexample: outside strict SQL mode, for an account whose failure
count is 255, `IncrementLoginFailure` with threshold 256 leaves the count at
255, not 256, and sets no lock-expiry although 255 + 1 >= 256: the counter is a
`TINYINT UNSIGNED` and stops at 255. -/
theorem failure_path_counterexample :
    IncrementLoginFailure false ⟨[{ alice with LoginFailure := 255 }], 2⟩ (1000 * Second) 1 256 10
      = (⟨[{ alice with LoginFailure := 255, UpdateTime := some 1000 }], 2⟩, none) := by
  decide

/-- C15, amended: in a users table with unique ids, for every account with
failure count f below 255, `IncrementLoginFailure(id, maxFailureCount,
lockDurationMinutes)` at time now succeeds, leaves the failure count at f + 1,
sets lock-expiry to now + lockDurationMinutes * 60 if f + 1 >= maxFailureCount
and leaves it unchanged otherwise, and writes the update time; no other column
and no other account changes.  At f = 255, the top of the range of the
counter, on a server outside strict SQL mode the count stays 255 and
lock-expiry is set exactly when maxFailureCount <= 255. -/
theorem failure_path (strict : Bool) (t : UserTable) (a : User) (now : Int)
    (maxFailureCount lockDurationMinutes : Int)
    (hpk : (t.rows.map (·.ID)).Nodup) (ha : a ∈ t.rows) :
    (a.LoginFailure < 255 →
      ∃ t', IncrementLoginFailure strict t now a.ID maxFailureCount lockDurationMinutes
          = (t', none)
        ∧ t'.nextID = t.nextID
        ∧ List.Forall₂ (fun u v =>
            if u.ID = a.ID then
              v = { u with
                    LoginFailure := u.LoginFailure + 1,
                    LockUntil :=
                      if maxFailureCount ≤ ((u.LoginFailure + 1 : Nat) : Int) then
                        some (unix now + lockDurationMinutes * 60)
                      else u.LockUntil,
                    UpdateTime := some (unix now) }
            else v = u) t.rows t'.rows)
    ∧ (a.LoginFailure = 255 → strict = false →
      ∃ t', IncrementLoginFailure strict t now a.ID maxFailureCount lockDurationMinutes
          = (t', none)
        ∧ t'.nextID = t.nextID
        ∧ List.Forall₂ (fun u v =>
            if u.ID = a.ID then
              v = { u with
                    LoginFailure := 255,
                    LockUntil :=
                      if maxFailureCount ≤ 255 then some (unix now + lockDurationMinutes * 60)
                      else u.LockUntil,
                    UpdateTime := some (unix now) }
            else v = u) t.rows t'.rows) := by
  have huniq : ∀ u ∈ t.rows, u.ID = a.ID → u = a := fun u hu hid =>
    List.inj_on_of_nodup_map hpk hu ha hid
  have hput : t.put a = t := put_self huniq
  refine ⟨?_, ?_⟩
  · intro hlt
    have h := @IncrementLoginFailure_clip strict t a a now maxFailureCount lockDurationMinutes
      ha rfl (.inr hlt)
    rw [hput] at h
    have hcount : (a.failed (unix now)).LoginFailure = a.LoginFailure + 1 := by
      simp only [User.failed]; omega
    rw [hcount] at h
    by_cases hN : maxFailureCount ≤ ((a.LoginFailure + 1 : Nat) : Int)
    · rw [if_pos hN] at h
      refine ⟨_, h, rfl, forall₂_put huniq rfl ?_⟩
      have hN' : maxFailureCount ≤ (a.LoginFailure : Int) + 1 := by exact_mod_cast hN
      simp [User.lockedTo, User.failed, hN']
      omega
    · rw [if_neg hN] at h
      refine ⟨_, h, rfl, forall₂_put huniq rfl ?_⟩
      have hN' : ¬ maxFailureCount ≤ (a.LoginFailure : Int) + 1 := by exact_mod_cast hN
      simp [User.failed, hN']
      omega
  · intro hfull hstrict
    have h := @IncrementLoginFailure_clip strict t a a now maxFailureCount lockDurationMinutes
      ha rfl (.inl hstrict)
    rw [hput] at h
    have hcount : (a.failed (unix now)).LoginFailure = 255 := by
      simp only [User.failed]; omega
    rw [hcount] at h
    by_cases hN : maxFailureCount ≤ 255
    · rw [if_pos (by exact_mod_cast hN)] at h
      refine ⟨_, h, rfl, forall₂_put huniq rfl ?_⟩
      simp [User.lockedTo, User.failed, hN, hfull]
    · rw [if_neg (by exact_mod_cast hN)] at h
      refine ⟨_, h, rfl, forall₂_put huniq rfl ?_⟩
      simp [User.failed, hN, hfull]

/-- C15, witness: the fifth failure of `alice` at second 1000, threshold 5,
lock of 10 minutes. -/
theorem failure_path_witness :
    ∃ t', IncrementLoginFailure true ⟨[{ alice with LoginFailure := 4 }], 2⟩ (1000 * Second) 1 5 10
        = (t', none)
      ∧ t'.nextID = 2
      ∧ List.Forall₂ (fun u v =>
          if u.ID = 1 then
            v = { u with
                  LoginFailure := u.LoginFailure + 1,
                  LockUntil :=
                    if (5 : Int) ≤ ((u.LoginFailure + 1 : Nat) : Int) then
                      some (unix (1000 * Second) + 10 * 60)
                    else u.LockUntil,
                  UpdateTime := some (unix (1000 * Second)) }
          else v = u) [{ alice with LoginFailure := 4 }] t'.rows :=
  (failure_path true ⟨[{ alice with LoginFailure := 4 }], 2⟩ { alice with LoginFailure := 4 }
    (1000 * Second) 5 10 (by decide) (by decide)).1 (by decide)

/-! ## The username of a registration -/

theorem isAlphanum_iff (c : Char) :
    (c.isAlphanum || c == '_') = true ↔
      (('a' ≤ c ∧ c ≤ 'z') ∨ ('A' ≤ c ∧ c ≤ 'Z') ∨ ('0' ≤ c ∧ c ≤ '9') ∨ c = '_') := by
  simp only [Char.isAlphanum, Char.isAlpha, Char.isUpper, Char.isLower, Char.isDigit,
    Bool.or_eq_true, Bool.and_eq_true, decide_eq_true_eq, beq_iff_eq, Char.le_def]
  constructor
  · rintro (((⟨h1, h2⟩ | ⟨h1, h2⟩) | ⟨h1, h2⟩) | h)
    · exact .inr (.inl ⟨h1, h2⟩)
    · exact .inl ⟨h1, h2⟩
    · exact .inr (.inr (.inl ⟨h1, h2⟩))
    · exact .inr (.inr (.inr h))
  · rintro (⟨h1, h2⟩ | ⟨h1, h2⟩ | ⟨h1, h2⟩ | h)
    · exact .inl (.inl (.inr ⟨h1, h2⟩))
    · exact .inl (.inl (.inl ⟨h1, h2⟩))
    · exact .inl (.inr ⟨h1, h2⟩)
    · exact .inr h

/-- The regular expression of `Register` accepts exactly the usernames of the
shape the specification describes. -/
theorem usernameRegex_iff (s : String) : usernameRegex s = true ↔ usernameShape s := by
  simp only [usernameRegex, usernameShape, Bool.and_eq_true, decide_eq_true_eq, List.all_eq_true,
    isAlphanum_iff, and_assoc]

/-- `Register` with a valid code and a sanitised username of the wrong shape:
400, and the code is consumed. -/
theorem Register_bad_shape {d : Deps} {cfg : Config} {s : Store} {ctx : Ctx}
    {req : RegisterRequest} {id : Nat}
    (hbind : bindRegister d req = none)
    (hv : VerifyCode d.coll s.codes ctx.now (d.Clean_XSS req.Email) (d.Clean_XSS req.Code)
      "register" = (true, id, none))
    (hbad : usernameRegex (d.Clean_XSS req.Username) = false) :
    Register d cfg s ctx req =
      (Fail 400 usernameMessage,
        ⟨s.users, consumeCode d.coll s.codes ctx.now id (d.Clean_XSS req.Email) "register"⟩) := by
  simp [Register, hbind, hv, hbad, usernameMessage, consumeCode]

/-- `Register` with a valid code and a sanitised username of the right shape
does not answer with the username message. -/
theorem Register_good_shape {d : Deps} {cfg : Config} {s : Store} {ctx : Ctx}
    {req : RegisterRequest} {id : Nat}
    (hbind : bindRegister d req = none)
    (hv : VerifyCode d.coll s.codes ctx.now (d.Clean_XSS req.Email) (d.Clean_XSS req.Code)
      "register" = (true, id, none))
    (hgood : usernameRegex (d.Clean_XSS req.Username) = true) :
    (Register d cfg s ctx req).1 ≠ Fail 400 usernameMessage := by
  have hm1 : ¬ "Username already exists" = usernameMessage := by decide
  have hm2 : ¬ "Email already exists" = usernameMessage := by decide
  simp only [Register, hbind, hv, hgood]
  simp only [Option.isSome_none, Bool.false_eq_true, Bool.not_true, Bool.or_self, if_false]
  repeat' split
  all_goals simp [Fail, Success, hm1, hm2]

/-- C19, counterexample: with a valid code, the submitted username ` bob_01 `
(with a space on each side, so not of the shape) is accepted and the account
`bob_01` is created, and the submitted username `select` (six letters, of the
shape) is rejected with the username message: the validation sees the
username after `Clean_XSS`, which trims the first and turns the second into
`[FILTERED]`. -/
theorem username_shape_counterexample :
    ¬ usernameShape " bob_01 "
    ∧ (Register cleanDeps sampleConfig ⟨UserTable.empty, sampleCodes⟩ (sampleCtx (1500 * Second))
        ⟨" bob_01 ", "pw", "alice@example.com", "123456"⟩).1
      = Success (.message "User registered successfully")
    ∧ (Register cleanDeps sampleConfig ⟨UserTable.empty, sampleCodes⟩ (sampleCtx (1500 * Second))
        ⟨" bob_01 ", "pw", "alice@example.com", "123456"⟩).2.users.rows.map (·.Username)
      = ["bob_01"]
    ∧ usernameShape "select"
    ∧ (Register cleanDeps sampleConfig ⟨UserTable.empty, sampleCodes⟩ (sampleCtx (1500 * Second))
        ⟨"select", "pw", "alice@example.com", "123456"⟩).1
      = Fail 400 usernameMessage := by
  decide

/-- C19, amended: given a valid verification code, the username validation of
`Register` accepts a submitted username if and only if the username as
sanitised by `Clean_XSS` is 3 to 50 characters long and consists only of ASCII
letters, digits and underscores; every other username is rejected with the 400
response of the validation and no account is created. -/
theorem username_shape (d : Deps) (cfg : Config) (s : Store) (ctx : Ctx)
    (req : RegisterRequest) (id : Nat)
    (hbind : bindRegister d req = none)
    (hv : VerifyCode d.coll s.codes ctx.now (d.Clean_XSS req.Email) (d.Clean_XSS req.Code)
      "register" = (true, id, none)) :
    ((Register d cfg s ctx req).1 = Fail 400 usernameMessage
        ↔ ¬ usernameShape (d.Clean_XSS req.Username))
    ∧ (¬ usernameShape (d.Clean_XSS req.Username) →
        (Register d cfg s ctx req).2.users = s.users) := by
  constructor
  · constructor
    · intro hresp hshape
      exact Register_good_shape hbind hv ((usernameRegex_iff _).2 hshape) hresp
    · intro hshape
      have hbad : usernameRegex (d.Clean_XSS req.Username) = false := by
        cases h : usernameRegex (d.Clean_XSS req.Username)
        · rfl
        · exact (hshape ((usernameRegex_iff _).1 h)).elim
      rw [Register_bad_shape hbind hv hbad]
  · intro hshape
    have hbad : usernameRegex (d.Clean_XSS req.Username) = false := by
      cases h : usernameRegex (d.Clean_XSS req.Username)
      · rfl
      · exact (hshape ((usernameRegex_iff _).1 h)).elim
    rw [Register_bad_shape hbind hv hbad]

/-- C19, witness: the username `al` with the valid code of
`alice@example.com`. -/
theorem username_shape_witness :
    ((Register cleanDeps sampleConfig ⟨UserTable.empty, sampleCodes⟩ (sampleCtx (1500 * Second))
        ⟨"al", "pw", "alice@example.com", "123456"⟩).1 = Fail 400 usernameMessage
        ↔ ¬ usernameShape (cleanDeps.Clean_XSS "al"))
    ∧ (Register cleanDeps sampleConfig ⟨UserTable.empty, sampleCodes⟩ (sampleCtx (1500 * Second))
        ⟨"al", "pw", "alice@example.com", "123456"⟩).2.users = UserTable.empty :=
  have h := username_shape cleanDeps sampleConfig ⟨UserTable.empty, sampleCodes⟩
    (sampleCtx (1500 * Second)) ⟨"al", "pw", "alice@example.com", "123456"⟩ 1
    (by decide) (by decide)
  ⟨h.1, h.2 (by decide)⟩

/-! ## Registration from end to end -/

/-- After a code was consumed, no code of the email and type verifies. -/
theorem VerifyCode_consumed (c : Collation) (t : CodeTable) (now now₁ : Int) (id : Nat)
    (email code : String) :
    VerifyCode c (consumeCode c t now id email "register") now₁ email code "register"
      = (false, 0, some ErrNoRows) := by
  apply VerifyCode_of_no_candidate
  rintro r hr ⟨he, _, ht, _, _⟩
  simp only [consumeCode, DeleteVerificationCodesByEmail, List.mem_filter] at hr
  simp [he, ht] at hr

/-! ## The purge of old codes -/

/-- C26: `CleanupOldVerificationCodes` keeps, in order and unchanged, exactly
the rows that are not (used or soft-deleted, and last updated more than 7 days
before now): a row of the table stays if and only if it is not such a row, so a
row that is neither used nor soft-deleted stays, and a row updated within the
last 7 days stays; the `AUTO_INCREMENT` counter is unchanged. -/
theorem purge_frame (t : CodeTable) (now : Int) :
    (CleanupOldVerificationCodes t now).rows
        = t.rows.filter (fun r => decide (¬ ((r.IsUsed = 1 ∨ r.IsDeleted = 1)
            ∧ r.UpdatedAt < now - 7 * 24 * 60 * Minute)))
    ∧ (CleanupOldVerificationCodes t now).nextID = t.nextID
    ∧ (CleanupOldVerificationCodes t now).rows.Sublist t.rows
    ∧ (∀ r ∈ t.rows, (r ∈ (CleanupOldVerificationCodes t now).rows ↔
        ¬ ((r.IsUsed = 1 ∨ r.IsDeleted = 1) ∧ r.UpdatedAt < now - 7 * 24 * 60 * Minute)))
    ∧ (∀ r ∈ t.rows, r.IsUsed ≠ 1 ∧ r.IsDeleted ≠ 1 → r ∈ (CleanupOldVerificationCodes t now).rows)
    ∧ (∀ r ∈ t.rows, now - 7 * 24 * 60 * Minute ≤ r.UpdatedAt →
        r ∈ (CleanupOldVerificationCodes t now).rows) := by
  have hrows : (CleanupOldVerificationCodes t now).rows
      = t.rows.filter (fun r => decide (¬ ((r.IsUsed = 1 ∨ r.IsDeleted = 1)
          ∧ r.UpdatedAt < now - 7 * 24 * 60 * Minute))) := by
    simp only [CleanupOldVerificationCodes]
    apply List.filter_congr
    intro r _
    rw [Bool.eq_iff_iff]
    simp only [Bool.not_eq_true', Bool.and_eq_false_iff, Bool.or_eq_false_iff,
      beq_eq_false_iff_ne, decide_eq_false_iff_not, decide_eq_true_eq, ne_eq]
    tauto
  refine ⟨hrows, rfl, ?_, ?_, ?_, ?_⟩
  · rw [hrows]
    exact List.filter_sublist _
  · intro r hr
    rw [hrows, List.mem_filter, decide_eq_true_eq]
    exact ⟨fun h => h.2, fun h => ⟨hr, h⟩⟩
  · intro r hr hactive
    rw [hrows, List.mem_filter, decide_eq_true_eq]
    exact ⟨hr, fun h => h.1.elim hactive.1 hactive.2⟩
  · intro r hr hrecent
    rw [hrows, List.mem_filter, decide_eq_true_eq]
    exact ⟨hr, fun h => absurd h.2 (by omega)⟩

/-- C26, witness: at second 1000000 a used code last updated at second 1000
goes, an unused one of the same age and a used one updated at second 999000
stay. -/
theorem purge_frame_witness :
    (CleanupOldVerificationCodes
      ⟨[⟨1, "a@example.com", "111111", "register", 2000 * Second, 1, 0, 1000 * Second, 1000 * Second⟩,
        ⟨2, "b@example.com", "222222", "register", 2000 * Second, 0, 0, 1000 * Second, 1000 * Second⟩,
        ⟨3, "c@example.com", "333333", "register", 2000 * Second, 1, 0, 1000 * Second,
          999000 * Second⟩], 4⟩ (1000000 * Second)).rows
      = [⟨2, "b@example.com", "222222", "register", 2000 * Second, 0, 0, 1000 * Second, 1000 * Second⟩,
         ⟨3, "c@example.com", "333333", "register", 2000 * Second, 1, 0, 1000 * Second,
           999000 * Second⟩] :=
  (purge_frame _ _).1.trans (by decide)

/-! ## The range of the failure counter -/

/-- C29: for every threshold above 255, every table, account id, time and lock
duration, `IncrementLoginFailure` leaves the lock-expiry of every row as it
was; the count of a row after the increment, which is the count read back, is
at most 255 and so below the threshold. -/
theorem counter_is_uint8 (strict : Bool) (t : UserTable) (now : Int) (userID : Nat)
    (maxFailureCount lockDurationMinutes : Int) (hmax : 255 < maxFailureCount) :
    (IncrementLoginFailure strict t now userID maxFailureCount lockDurationMinutes).1.rows.map
        (fun u => u.LockUntil) = t.rows.map (fun u => u.LockUntil)
    ∧ ∀ (u : User) (at_ : Int), (u.failed at_).LoginFailure ≤ 255 := by
  have hfail : (t.rows.map (fun u => if u.ID == userID then u.failed (unix now) else u)).map
      (fun u => u.LockUntil) = t.rows.map (fun u => u.LockUntil) := by
    simp only [List.map_map]
    apply List.map_congr_left
    intro u _
    by_cases h : u.ID = userID <;> simp [h, User.failed]
  have hread : ∀ user, (t.rows.map (fun u => if u.ID == userID then u.failed (unix now) else u)).find?
      (fun u => u.ID == userID) = some user → ¬ maxFailureCount ≤ (user.LoginFailure : Int) := by
    intro user hfind
    have hmem := List.mem_of_find?_eq_some hfind
    have hid := List.find?_some hfind
    simp only [beq_iff_eq] at hid
    simp only [List.mem_map] at hmem
    obtain ⟨u, _, hu⟩ := hmem
    by_cases h : u.ID = userID
    · simp only [h, beq_self_eq_true, if_true] at hu
      have : user.LoginFailure ≤ 255 := by
        rw [← hu]
        simp only [User.failed]
        omega
      omega
    · simp only [beq_iff_eq, h, if_false] at hu
      rw [← hu] at hid
      exact absurd hid h
  constructor
  · unfold IncrementLoginFailure
    simp only
    split
    · rfl
    · split
      · exact hfail
      · rename_i user hfind
        rw [if_neg (hread user hfind)]
        exact hfail
  · intro u at_
    simp only [User.failed]
    omega

/-- C29, witness: with threshold 256 the failure of `alice` at count 255,
outside strict mode, sets no lock-expiry. -/
theorem counter_is_uint8_witness :
    (IncrementLoginFailure false ⟨[{ alice with LoginFailure := 255 }], 2⟩ (1000 * Second) 1 256
        10).1.rows.map (fun u => u.LockUntil) = [none] :=
  (counter_is_uint8 false ⟨[{ alice with LoginFailure := 255 }], 2⟩ (1000 * Second) 1 256 10
    (by decide)).1

/-! ## The refresh endpoint and the account store -/

/-- What `UpdateToken` answers to a token that `ParseToken` accepts. -/
theorem UpdateToken_of_parsed {cfg : Config} {s : Store} {ctx : Ctx} {tok : TokenString}
    {claims : Claims} (hne : tok ≠ .malformed "")
    (hparse : ParseToken cfg.JWTSecret ctx.now tok = .ok claims) :
    UpdateToken cfg s ctx ⟨tok⟩ =
      (Success (.tokens
        (signedToken cfg.JWTSecret ctx.now claims.UserID claims.Role (cfg.JWTAccessExpire * Second))
        (signedToken cfg.JWTSecret ctx.now claims.UserID claims.Role (cfg.JWTRefreshExpire * Second))
        (unix ctx.now + cfg.JWTAccessExpire)), s) := by
  simp [UpdateToken, hne, hparse, GenerateTokenWithTTL, signedToken]

/-- What `UpdateToken` answers to a token that `ParseToken` rejects. -/
theorem UpdateToken_of_rejected {cfg : Config} {s : Store} {ctx : Ctx} {tok : TokenString}
    {e : TokenError} (hne : tok ≠ .malformed "")
    (hparse : ParseToken cfg.JWTSecret ctx.now tok = .error e) :
    UpdateToken cfg s ctx ⟨tok⟩ = (Fail 401 "Invalid or expired refresh token", s) := by
  simp [UpdateToken, hne, hparse]

/-- What `UpdateToken` answers to the empty token. -/
theorem UpdateToken_of_empty (cfg : Config) (s : Store) (ctx : Ctx) :
    UpdateToken cfg s ctx ⟨.malformed ""⟩ =
      (Fail 400 (bindingError "RefreshTokenRequest" "RefreshToken" "required"), s) := by
  simp [UpdateToken]

/-- C23, counterexample: for the empty token `ParseToken` fails and the answer
of `UpdateToken` is 400, the message of the request binding, not 401. -/
theorem refresh_ignores_accounts_counterexample :
    ParseToken sampleConfig.JWTSecret (1000 * Second) (.malformed "") = .error .malformed
    ∧ (UpdateToken sampleConfig ⟨UserTable.empty, CodeTable.empty⟩ (sampleCtx (1000 * Second))
        ⟨.malformed ""⟩).1
      = Fail 400 (bindingError "RefreshTokenRequest" "RefreshToken" "required") :=
  ⟨rfl, by decide⟩

/-- C23, amended: the answer of `UpdateToken` is the same for any two stores
and the store is left as it was; the answer is a failure exactly when
`ParseToken` (with the configured secret, at the time of the request) fails on
the submitted token, and it is 401 exactly when `ParseToken` fails and the
token is not the empty string; the empty string is answered 400. -/
theorem refresh_ignores_accounts (cfg : Config) (s₁ s₂ : Store) (ctx : Ctx)
    (req : RefreshTokenRequest) :
    (UpdateToken cfg s₁ ctx req).1 = (UpdateToken cfg s₂ ctx req).1
    ∧ (UpdateToken cfg s₁ ctx req).2 = s₁
    ∧ ((UpdateToken cfg s₁ ctx req).1.Code ≠ 200 ↔
        ∃ e, ParseToken cfg.JWTSecret ctx.now req.RefreshToken = .error e)
    ∧ ((UpdateToken cfg s₁ ctx req).1.Code = 401 ↔
        req.RefreshToken ≠ .malformed ""
          ∧ ∃ e, ParseToken cfg.JWTSecret ctx.now req.RefreshToken = .error e)
    ∧ (UpdateToken cfg s₁ ctx ⟨.malformed ""⟩).1.Code = 400 := by
  obtain ⟨tok⟩ := req
  have hempty := UpdateToken_of_empty cfg
  by_cases hne : tok = .malformed ""
  · subst hne
    simp only [hempty]
    refine ⟨trivial, trivial, ?_, ?_, ?_⟩
    · simp [Fail, ParseToken]
    · simp [Fail]
    · simp [Fail]
  · cases hparse : ParseToken cfg.JWTSecret ctx.now tok with
    | error e =>
      simp only [UpdateToken_of_rejected hne hparse, hempty]
      refine ⟨trivial, trivial, ?_, ?_, ?_⟩
      · simp [Fail]
      · simp [Fail, hne]
      · simp [Fail]
    | ok claims =>
      simp only [UpdateToken_of_parsed hne hparse, hempty]
      refine ⟨trivial, trivial, ?_, ?_, ?_⟩
      · simp [Success]
      · simp [Success]
      · simp [Fail]

/-! ## Access and refresh tokens at the refresh endpoint -/

/-- `UpdateToken` accepts every token of `GenerateTokenWithTTL` under the
configured secret until the expiry the token carries. -/
theorem UpdateToken_of_generated {cfg : Config} {s : Store} {ctx : Ctx} {tok : TokenString}
    {issued ttl : Int} {id : Nat} {role : String}
    (hgen : GenerateTokenWithTTL cfg.JWTSecret issued id role ttl = .ok tok)
    (hlive : ctx.now < (issued + ttl) / Second * Second) :
    UpdateToken cfg s ctx ⟨tok⟩ =
      (Success (.tokens
        (signedToken cfg.JWTSecret ctx.now id role (cfg.JWTAccessExpire * Second))
        (signedToken cfg.JWTSecret ctx.now id role (cfg.JWTRefreshExpire * Second))
        (unix ctx.now + cfg.JWTAccessExpire)), s) := by
  simp only [GenerateTokenWithTTL, Except.ok.injEq] at hgen
  subst hgen
  have hparse : ParseToken cfg.JWTSecret ctx.now
      (.jws { alg := "HS256", claims := ⟨id, role, some ((issued + ttl) / Second)⟩,
              mac := ⟨"HS256", cfg.JWTSecret, ⟨id, role, some ((issued + ttl) / Second)⟩⟩ })
      = .ok ⟨id, role, some ((issued + ttl) / Second)⟩ := by
    simp [ParseToken, hlive]
  exact UpdateToken_of_parsed (by simp) hparse

/-- The tokens of a successful `Login`: both are signed over the id and the
role of the account, at the time of the login, and differ in the time to live
only. -/
theorem Login_tokens {d : Deps} {cfg : Config} {t : UserTable} {ctx : Ctx} {req : LoginRequest}
    {id : Nat} {userName email : String} {role : List String}
    {accessToken refreshToken : TokenString} {expiresAt : Int}
    (hlogin : (Login d cfg t ctx req).1
      = Success (.login id userName email role accessToken refreshToken expiresAt)) :
    ∃ r, role = [r]
      ∧ GenerateTokenWithTTL cfg.JWTSecret ctx.now id r (cfg.JWTAccessExpire * Second)
          = .ok accessToken
      ∧ GenerateTokenWithTTL cfg.JWTSecret ctx.now id r (cfg.JWTRefreshExpire * Second)
          = .ok refreshToken := by
  have hcode : (Login d cfg t ctx req).1.Code = 200 := by rw [hlogin]; rfl
  obtain ⟨user, hr, hlock, hs, hp⟩ := Login_code_200 hcode
  have hresp : (Login d cfg t ctx req).1 =
      Success (.login user.ID user.Username user.Email [user.Role]
        (signedToken cfg.JWTSecret ctx.now user.ID user.Role (cfg.JWTAccessExpire * Second))
        (signedToken cfg.JWTSecret ctx.now user.ID user.Role (cfg.JWTRefreshExpire * Second))
        (unix ctx.now + cfg.JWTAccessExpire)) := by
    rw [Login_of_reaches hr]
    cases hl : user.LockUntil with
    | none =>
      simp only
      rw [loginUnlocked_ok hs hp]
      rfl
    | some l =>
      have hle : ¬ l > unix ctx.now := by
        have := hlock l hl
        omega
      simp only [hle, if_false]
      rw [loginUnlocked_ok hs hp]
      rfl
  rw [hresp] at hlogin
  simp only [Success, Response.mk.injEq, Payload.login.injEq, true_and] at hlogin
  obtain ⟨hid, _, _, hrole, ha, hrt, _⟩ := hlogin
  refine ⟨user.Role, hrole.symm, ?_, ?_⟩
  · rw [← hid, ← ha]
    rfl
  · rw [← hid, ← hrt]
    rfl

/-- C28: every token `GenerateTokenWithTTL` signs under the configured secret,
for any id, role and time to live, is accepted by `UpdateToken` until the
expiry it carries, and the answer is a new access and refresh token for the
same id and role.  The access token and the refresh token of a successful
`Login` are two such tokens for the id and role of the account, signed at the
same instant with the access and the refresh time to live, so each of them is
accepted until its own expiry and gets the same answer. -/
theorem tokens_interchangeable (d : Deps) (cfg : Config) (t : UserTable) (s : Store)
    (ctx later : Ctx) (req : LoginRequest) :
    (∀ (tok : TokenString) (issued ttl : Int) (id : Nat) (role : String),
      GenerateTokenWithTTL cfg.JWTSecret issued id role ttl = .ok tok →
      later.now < (issued + ttl) / Second * Second →
      UpdateToken cfg s later ⟨tok⟩ =
        (Success (.tokens
          (signedToken cfg.JWTSecret later.now id role (cfg.JWTAccessExpire * Second))
          (signedToken cfg.JWTSecret later.now id role (cfg.JWTRefreshExpire * Second))
          (unix later.now + cfg.JWTAccessExpire)), s))
    ∧ (∀ (id : Nat) (userName email : String) (role : List String)
        (accessToken refreshToken : TokenString) (expiresAt : Int),
      (Login d cfg t ctx req).1
        = Success (.login id userName email role accessToken refreshToken expiresAt) →
      ∃ r, role = [r]
        ∧ accessToken = signedToken cfg.JWTSecret ctx.now id r (cfg.JWTAccessExpire * Second)
        ∧ refreshToken = signedToken cfg.JWTSecret ctx.now id r (cfg.JWTRefreshExpire * Second)
        ∧ (later.now < (ctx.now + cfg.JWTAccessExpire * Second) / Second * Second →
            UpdateToken cfg s later ⟨accessToken⟩ =
              (Success (.tokens
                (signedToken cfg.JWTSecret later.now id r (cfg.JWTAccessExpire * Second))
                (signedToken cfg.JWTSecret later.now id r (cfg.JWTRefreshExpire * Second))
                (unix later.now + cfg.JWTAccessExpire)), s))
        ∧ (later.now < (ctx.now + cfg.JWTRefreshExpire * Second) / Second * Second →
            UpdateToken cfg s later ⟨refreshToken⟩ =
              (Success (.tokens
                (signedToken cfg.JWTSecret later.now id r (cfg.JWTAccessExpire * Second))
                (signedToken cfg.JWTSecret later.now id r (cfg.JWTRefreshExpire * Second))
                (unix later.now + cfg.JWTAccessExpire)), s))) := by
  refine ⟨fun tok issued ttl id role hgen hlive => UpdateToken_of_generated hgen hlive, ?_⟩
  intro id userName email role accessToken refreshToken expiresAt hlogin
  obtain ⟨r, hrole, ha, hrt⟩ := Login_tokens hlogin
  refine ⟨r, hrole, ?_, ?_, fun hlive => UpdateToken_of_generated ha hlive,
    fun hlive => UpdateToken_of_generated hrt hlive⟩
  · simp only [GenerateTokenWithTTL, Except.ok.injEq] at ha
    rw [← ha]
    rfl
  · simp only [GenerateTokenWithTTL, Except.ok.injEq] at hrt
    rw [← hrt]
    rfl

/-- C28, witness: `alice` logs in at second 1000; at second 2000 the refresh
endpoint answers her access token and her refresh token with the same new
pair. -/
theorem tokens_interchangeable_witness :
    UpdateToken sampleConfig ⟨UserTable.empty, CodeTable.empty⟩ (sampleCtx (2000 * Second))
        ⟨signedToken "secret" (1000 * Second) 1 "user" (7200 * Second)⟩
      = (Success (.tokens (signedToken "secret" (2000 * Second) 1 "user" (7200 * Second))
          (signedToken "secret" (2000 * Second) 1 "user" (604800 * Second))
          (unix (2000 * Second) + 7200)), ⟨UserTable.empty, CodeTable.empty⟩)
    ∧ UpdateToken sampleConfig ⟨UserTable.empty, CodeTable.empty⟩ (sampleCtx (2000 * Second))
        ⟨signedToken "secret" (1000 * Second) 1 "user" (604800 * Second)⟩
      = (Success (.tokens (signedToken "secret" (2000 * Second) 1 "user" (7200 * Second))
          (signedToken "secret" (2000 * Second) 1 "user" (604800 * Second))
          (unix (2000 * Second) + 7200)), ⟨UserTable.empty, CodeTable.empty⟩) := by
  obtain ⟨r, hrole, ha, hrt, h₁, h₂⟩ :=
    (tokens_interchangeable sampleDeps sampleConfig ⟨[alice], 2⟩
      ⟨UserTable.empty, CodeTable.empty⟩ (sampleCtx (1000 * Second)) (sampleCtx (2000 * Second))
      ⟨"alice", "", "pw"⟩).2 1 "alice" "alice@example.com" ["user"]
      (signedToken "secret" (1000 * Second) 1 "user" (7200 * Second))
      (signedToken "secret" (1000 * Second) 1 "user" (604800 * Second))
      (unix (1000 * Second) + 7200) (by decide)
  have hr : r = "user" := by
    simp only [List.cons.injEq, and_true] at hrole
    exact hrole.symm
  subst hr
  exact ⟨h₁ (by decide), h₂ (by decide)⟩

/-! ## A wrong password after the lock has run out -/

/-- C27, counterexample: two accounts with failure count at the threshold 5 or
above and a lock that ran out at second 900, and a login with a wrong password
at second 1000.  In strict SQL mode at count 255 the increment is refused, the
answer is 401 and the account is left with its stale lock cleared and no new
lock; a disabled account is answered "Account is inactive" before the password
is looked at, and is left without a lock as well. -/
theorem relock_after_elapsed_lock_counterexample :
    Login sampleDeps sampleConfig ⟨[{ alice with LoginFailure := 255, LockUntil := some 900 }], 2⟩
        (sampleCtx (1000 * Second)) ⟨"alice", "", "bad"⟩
      = (Fail 401 "Invalid account or password",
          ⟨[{ alice with LoginFailure := 255, LockUntil := none }], 2⟩)
    ∧ Login sampleDeps sampleConfig
        ⟨[{ alice with LoginFailure := 5, LockUntil := some 900, Status := 0 }], 2⟩
        (sampleCtx (1000 * Second)) ⟨"alice", "", "bad"⟩
      = (Fail 403 "Account is inactive",
          ⟨[{ alice with LoginFailure := 5, LockUntil := none, Status := 0 }], 2⟩) := by
  decide

/-- C27, amended: in a users table with unique ids, for an active account whose
failure count is at or above the threshold (and within the range of the
counter, at most 255) and whose lock-expiry has passed, a login attempt on the
account with a wrong password, when the count is below 255 or the server is
not in strict SQL mode, is answered 401 and re-locks the account: the failure
count goes up by one (staying at 255), lock-expiry is set to now + lock
duration, the update time is written, and nothing else changes. -/
theorem relock_after_elapsed_lock (d : Deps) (cfg : Config) (t : UserTable) (ctx : Ctx)
    (req : LoginRequest) (user : User) (lockUntil : Int)
    (hpk : (t.rows.map (·.ID)).Nodup)
    (h : reaches d cfg t ctx req user)
    (hcount : cfg.LoginMaxFailureCount ≤ (user.LoginFailure : Int))
    (hrange : user.LoginFailure ≤ 255)
    (hl : user.LockUntil = some lockUntil) (hle : lockUntil ≤ unix ctx.now)
    (hs : user.Status ≠ 0)
    (hp : d.CheckPasswordHash req.Password user.Password = false)
    (hok : d.strict = false ∨ user.LoginFailure < 255) :
    (Login d cfg t ctx req).1 = Fail 401 "Invalid account or password"
    ∧ (Login d cfg t ctx req).2.nextID = t.nextID
    ∧ List.Forall₂ (fun u v =>
        if u.ID = user.ID then
          v = { u with
                LoginFailure := min (u.LoginFailure + 1) 255,
                LockUntil := some (unix ctx.now + cfg.LoginLockDurationMinutes * 60),
                UpdateTime := some (unix ctx.now) }
        else v = u) t.rows (Login d cfg t ctx req).2.rows := by
  have hmem : user ∈ t.rows := List.mem_of_find?_eq_some h.2
  have huniq : ∀ u ∈ t.rows, u.ID = user.ID → u = user := fun u hu hid =>
    List.inj_on_of_nodup_map hpk hu hmem hid
  have hnot : ¬ lockUntil > unix ctx.now := by omega
  have hclear : clearLock t user.ID = t.put { user with LockUntil := none } := by
    have hrows := put_rows_map t user (fun u => { u with LockUntil := none }) rfl
    rw [put_self huniq] at hrows
    simp only [clearLock, UserTable.put]
    rw [hrows]
    rfl
  have hinc := @IncrementLoginFailure_clip d.strict t user { user with LockUntil := none } ctx.now
    cfg.LoginMaxFailureCount cfg.LoginLockDurationMinutes hmem rfl hok
  have hreach : cfg.LoginMaxFailureCount
      ≤ ((({ user with LockUntil := none } : User).failed (unix ctx.now)).LoginFailure : Int) := by
    simp only [User.failed]
    omega
  rw [if_pos hreach] at hinc
  have hlogin : Login d cfg t ctx req = (Fail 401 "Invalid account or password",
      t.put ((({ user with LockUntil := none } : User).failed (unix ctx.now)).lockedTo
        (unix ctx.now) (unix ctx.now + cfg.LoginLockDurationMinutes * 60))) := by
    rw [Login_of_reaches h, hl]
    simp only [hnot, if_false]
    rw [loginUnlocked_wrong hs hp, hclear]
    exact congrArg (fun r => (Fail 401 "Invalid account or password", r.1)) hinc
  rw [hlogin]
  refine ⟨rfl, rfl, forall₂_put huniq rfl ?_⟩
  simp [User.lockedTo, User.failed]

/-- C27, witness: `alice`, at count 5 with threshold 5 and a lock that ran out
at second 900, fails a login at second 1000 and is locked until second 1600. -/
theorem relock_after_elapsed_lock_witness :
    (Login sampleDeps sampleConfig ⟨[{ alice with LoginFailure := 5, LockUntil := some 900 }], 2⟩
        (sampleCtx (1000 * Second)) ⟨"alice", "", "bad"⟩).1
      = Fail 401 "Invalid account or password"
    ∧ (Login sampleDeps sampleConfig ⟨[{ alice with LoginFailure := 5, LockUntil := some 900 }], 2⟩
        (sampleCtx (1000 * Second)) ⟨"alice", "", "bad"⟩).2.nextID = 2
    ∧ List.Forall₂ (fun u v =>
        if u.ID = 1 then
          v = { u with
                LoginFailure := min (u.LoginFailure + 1) 255,
                LockUntil := some (unix (1000 * Second) + 10 * 60),
                UpdateTime := some (unix (1000 * Second)) }
        else v = u) [{ alice with LoginFailure := 5, LockUntil := some 900 }]
        (Login sampleDeps sampleConfig ⟨[{ alice with LoginFailure := 5, LockUntil := some 900 }], 2⟩
          (sampleCtx (1000 * Second)) ⟨"alice", "", "bad"⟩).2.rows :=
  relock_after_elapsed_lock sampleDeps sampleConfig
    ⟨[{ alice with LoginFailure := 5, LockUntil := some 900 }], 2⟩ (sampleCtx (1000 * Second))
    ⟨"alice", "", "bad"⟩ { alice with LoginFailure := 5, LockUntil := some 900 } 900
    (by decide) (by decide) (by decide) (by decide) rfl (by decide) (by decide) (by decide)
    (by decide)

/-! ## The password reset and the code -/

/-- C22: when `VerifyCode` rejects the (sanitised) email and code of a
`ResetPasswordConfirm` request for the purpose `reset_password`, the answer is
a 400 failure without data and the store, and with it the password hash of
every account, is left as it was. -/
theorem reset_needs_valid_code (d : Deps) (s : Store) (ctx : Ctx)
    (req : ResetPasswordConfirmRequest)
    (hrej : (VerifyCode d.coll s.codes ctx.now (d.Clean_XSS req.Email) (d.Clean_XSS req.Code)
      "reset_password").1 = false) :
    (ResetPasswordConfirm d s ctx req).1.Code = 400
    ∧ (ResetPasswordConfirm d s ctx req).1.Data = .null
    ∧ (ResetPasswordConfirm d s ctx req).2 = s
    ∧ (ResetPasswordConfirm d s ctx req).2.users.rows.map (fun u => (u.ID, u.Password))
        = s.users.rows.map (fun u => (u.ID, u.Password)) := by
  have hcases : (ResetPasswordConfirm d s ctx req).1.Code = 400
      ∧ (ResetPasswordConfirm d s ctx req).1.Data = .null
      ∧ (ResetPasswordConfirm d s ctx req).2 = s := by
    unfold ResetPasswordConfirm
    cases hb : bindResetPasswordConfirm d req with
    | some err => simp [Fail]
    | none =>
      simp only
      rcases hv : VerifyCode d.coll s.codes ctx.now (d.Clean_XSS req.Email) (d.Clean_XSS req.Code)
        "reset_password" with ⟨valid, codeID, err⟩
      rw [hv] at hrej
      simp only at hrej
      subst hrej
      simp [Fail]
  exact ⟨hcases.1, hcases.2.1, hcases.2.2, by rw [hcases.2.2]⟩

/-- C22, witness: a reset request for `alice@example.com` with the code
`000000`, when the code that was issued is `123456`. -/
theorem reset_needs_valid_code_witness :
    (ResetPasswordConfirm sampleDeps
        ⟨⟨[alice], 2⟩, CreateVerificationCode Collation.binary CodeTable.empty (1000 * Second)
          "alice@example.com" "123456" "reset_password" (1900 * Second)⟩
        (sampleCtx (1100 * Second)) ⟨"alice@example.com", "000000", "new"⟩).1.Code = 400
    ∧ (ResetPasswordConfirm sampleDeps
        ⟨⟨[alice], 2⟩, CreateVerificationCode Collation.binary CodeTable.empty (1000 * Second)
          "alice@example.com" "123456" "reset_password" (1900 * Second)⟩
        (sampleCtx (1100 * Second)) ⟨"alice@example.com", "000000", "new"⟩).2.users
      = ⟨[alice], 2⟩ :=
  have h := reset_needs_valid_code sampleDeps
    ⟨⟨[alice], 2⟩, CreateVerificationCode Collation.binary CodeTable.empty (1000 * Second)
      "alice@example.com" "123456" "reset_password" (1900 * Second)⟩
    (sampleCtx (1100 * Second)) ⟨"alice@example.com", "000000", "new"⟩ (by decide)
  ⟨h.1, by rw [h.2.2.1]⟩

/-! ## Error texts in production -/

/-- C24, the failing input: in production mode with a mail host configured,
`SendRegisterCode` for `bob@example.com` answers with the text of the error of
the mail transport, so two runs that differ in that text only get different
answers; `SendResetEmail` on the same two failures answers "Failed to send
email" both times. -/
theorem SendRegisterCode_leaks_mail_error :
    sampleConfig.AppMode = "production"
    ∧ (SendRegisterCode sampleDeps sampleConfig ⟨⟨[alice], 2⟩, CodeTable.empty⟩
        { sampleCtx (1000 * Second) with mailErr := some "dial tcp 10.0.0.5:465: i/o timeout" }
        ⟨"bob@example.com", ""⟩).1
      = Fail 500 "Failed to send email: dial tcp 10.0.0.5:465: i/o timeout"
    ∧ (SendRegisterCode sampleDeps sampleConfig ⟨⟨[alice], 2⟩, CodeTable.empty⟩
        { sampleCtx (1000 * Second) with mailErr := some "535 5.7.8 authentication failed" }
        ⟨"bob@example.com", ""⟩).1
      = Fail 500 "Failed to send email: 535 5.7.8 authentication failed"
    ∧ (SendResetEmail sampleDeps sampleConfig ⟨⟨[alice], 2⟩, CodeTable.empty⟩
        { sampleCtx (1000 * Second) with mailErr := some "dial tcp 10.0.0.5:465: i/o timeout" }
        ⟨"alice@example.com", ""⟩).1
      = Fail 500 "Failed to send email"
    ∧ (SendResetEmail sampleDeps sampleConfig ⟨⟨[alice], 2⟩, CodeTable.empty⟩
        { sampleCtx (1000 * Second) with mailErr := some "535 5.7.8 authentication failed" }
        ⟨"alice@example.com", ""⟩).1
      = Fail 500 "Failed to send email" := by
  decide

/-! ## The human-verification gate -/

/-- C25: in both loaders `GeetestEnabled` is true exactly when the enable flag
parses as true and the captcha id and the captcha key of the configuration are
both non-empty; in particular it is true only when both are non-empty.  In the
JSON `.env` the flag is `geetest_enabled`; in the environment it is
`GEETEST_ENABLED` or, when that is not true, `GEETEST_ENABLE`. -/
theorem geetest_gate (dotenv : Option jsonDotEnv) (env : String → Option String) :
    ((InitConfig dotenv env).GeetestEnabled = true ↔
      (match dotenv with
        | some raw => ParseBool (TrimSpace raw.GeetestEnabled) = some true
        | none => ParseBool (TrimSpace (getEnv env "GEETEST_ENABLED" "false")) = some true
            ∨ ParseBool (TrimSpace (getEnv env "GEETEST_ENABLE" "false")) = some true)
      ∧ (InitConfig dotenv env).GeetestID ≠ "" ∧ (InitConfig dotenv env).GeetestKey ≠ "")
    ∧ (∀ raw cfg, loadJSONDotEnv (some raw) = some cfg →
        (cfg.GeetestEnabled = true ↔
          ParseBool (TrimSpace raw.GeetestEnabled) = some true
            ∧ cfg.GeetestID ≠ "" ∧ cfg.GeetestKey ≠ "")
        ∧ cfg.GeetestID = raw.GeetestCaptchaID ∧ cfg.GeetestKey = raw.GeetestCaptchaKey)
    ∧ ((InitConfig dotenv env).GeetestEnabled = true →
        (InitConfig dotenv env).GeetestID ≠ "" ∧ (InitConfig dotenv env).GeetestKey ≠ "") := by
  have hjson : ∀ raw cfg, loadJSONDotEnv (some raw) = some cfg →
      (cfg.GeetestEnabled = true ↔
        ParseBool (TrimSpace raw.GeetestEnabled) = some true
          ∧ cfg.GeetestID ≠ "" ∧ cfg.GeetestKey ≠ "")
      ∧ cfg.GeetestID = raw.GeetestCaptchaID ∧ cfg.GeetestKey = raw.GeetestCaptchaKey := by
    intro raw cfg hcfg
    simp only [loadJSONDotEnv, Option.some.injEq] at hcfg
    subst hcfg
    refine ⟨?_, rfl, rfl⟩
    cases hflag : ParseBool (TrimSpace raw.GeetestEnabled) with
    | none => simp
    | some b => cases b <;> simp
  have hmain : (InitConfig dotenv env).GeetestEnabled = true ↔
      (match dotenv with
        | some raw => ParseBool (TrimSpace raw.GeetestEnabled) = some true
        | none => ParseBool (TrimSpace (getEnv env "GEETEST_ENABLED" "false")) = some true
            ∨ ParseBool (TrimSpace (getEnv env "GEETEST_ENABLE" "false")) = some true)
      ∧ (InitConfig dotenv env).GeetestID ≠ "" ∧ (InitConfig dotenv env).GeetestKey ≠ "" := by
    cases dotenv with
    | some raw =>
      obtain ⟨cfg, hcfg⟩ : ∃ cfg, loadJSONDotEnv (some raw) = some cfg := ⟨_, rfl⟩
      have hI : InitConfig (some raw) env = cfg := by simp only [InitConfig, hcfg]
      rw [hI]
      exact (hjson raw cfg hcfg).1
    | none =>
      simp only [InitConfig, loadJSONDotEnv]
      cases h₁ : ParseBool (TrimSpace (getEnv env "GEETEST_ENABLED" "false")) with
      | none =>
        cases h₂ : ParseBool (TrimSpace (getEnv env "GEETEST_ENABLE" "false")) with
        | none => simp
        | some b => cases b <;> simp
      | some a =>
        cases a
        · cases h₂ : ParseBool (TrimSpace (getEnv env "GEETEST_ENABLE" "false")) with
          | none => simp
          | some b => cases b <;> simp
        · simp
  exact ⟨hmain, hjson, fun h => (hmain.1 h).2⟩

/-- C25, witness: a JSON `.env` with the flag ` true ` and an id but no key
leaves the gate off; with both it is on. -/
theorem geetest_gate_witness :
    (InitConfig (some ⟨" true ", "id", ""⟩) (fun _ => none)).GeetestEnabled = false
    ∧ (InitConfig (some ⟨" true ", "id", "key"⟩) (fun _ => none)).GeetestEnabled = true
    ∧ (InitConfig none (fun k => if k = "GEETEST_ENABLE" then some "1"
          else if k = "GEETEST_ID" then some "id"
          else if k = "GEETEST_CAPTCHA_KEY" then some "key" else none)).GeetestEnabled = true := by
  refine ⟨?_, ?_, ?_⟩
  · have h := (geetest_gate (some ⟨" true ", "id", ""⟩) (fun _ => none)).2.2
    cases hg : (InitConfig (some ⟨" true ", "id", ""⟩) (fun _ => none)).GeetestEnabled
    · rfl
    · exact absurd rfl (h hg).2
  · exact (geetest_gate (some ⟨" true ", "id", "key"⟩) (fun _ => none)).1.2
      ⟨by decide, by decide, by decide⟩
  · exact (geetest_gate none _).1.2 ⟨by decide, by decide, by decide⟩

/-! ## The output of the sanitiser -/

/-- `strings.TrimSpace` only drops characters. -/
theorem trimSpace_subset {s : List Char} {x : Char} (hx : x ∈ trimSpace s) : x ∈ s := by
  unfold trimSpace at hx
  rw [List.mem_reverse] at hx
  have h₁ := (List.dropWhile_suffix isSpace).subset hx
  rw [List.mem_reverse] at h₁
  exact (List.dropWhile_suffix isSpace).subset h₁

/-- The text `strings.TrimSpace` returns does not start with a space. -/
theorem trimSpace_head {s : List Char} {c : Char} (h : (trimSpace s).head? = some c) :
    isSpace c = false := by
  have hpre : trimSpace s <+: s.dropWhile isSpace := by
    have := List.dropWhile_suffix (l := (s.dropWhile isSpace).reverse) isSpace
    have h₂ := List.reverse_prefix.2 this
    rwa [List.reverse_reverse] at h₂
  obtain ⟨rest, hrest⟩ := hpre
  have hhead : (s.dropWhile isSpace).head? = some c := by
    rw [← hrest]
    cases ht : trimSpace s with
    | nil => rw [ht] at h; simp at h
    | cons a l =>
      rw [ht] at h
      simpa using h
  have := List.head?_dropWhile_not isSpace s
  rw [hhead] at this
  exact this

/-- The text `strings.TrimSpace` returns does not end in a space. -/
theorem trimSpace_getLast {s : List Char} {c : Char} (h : (trimSpace s).getLast? = some c) :
    isSpace c = false := by
  unfold trimSpace at h
  rw [List.getLast?_reverse] at h
  have := List.head?_dropWhile_not isSpace (s.dropWhile isSpace).reverse
  rw [h] at this
  exact this

/-- What a repetition hands to its continuation is a suffix of the text. -/
theorem Re.manyRun_suffix {greedy : Bool} {p : Char → Bool}
    {k : Option Char → List Char → Option (Option Char × List Char)}
    (hk : ∀ prev s q r, k prev s = some (q, r) → r <:+ s) :
    ∀ (s : List Char) (prev q r), Re.manyRun greedy p k prev s = some (q, r) → r <:+ s
  | [], prev, q, r, h => hk prev [] q r (by simpa [Re.manyRun] using h)
  | c :: cs, prev, q, r, h => by
    rw [Re.manyRun] at h
    by_cases hp : p c = true
    · rw [if_pos hp] at h
      cases greedy with
      | true =>
        simp only [if_true] at h
        cases hrec : Re.manyRun true p k (some c) cs with
        | some x =>
          rw [hrec] at h
          simp only [Option.some.injEq] at h
          subst h
          exact (Re.manyRun_suffix hk cs _ _ _ hrec).trans (List.suffix_cons _ _)
        | none =>
          rw [hrec] at h
          exact hk _ _ _ _ h
      | false =>
        simp only [Bool.false_eq_true, if_false] at h
        cases hnow : k prev (c :: cs) with
        | some x =>
          rw [hnow] at h
          simp only [Option.some.injEq] at h
          subst h
          exact hk _ _ _ _ hnow
        | none =>
          rw [hnow] at h
          exact (Re.manyRun_suffix hk cs _ _ _ h).trans (List.suffix_cons _ _)
    · rw [if_neg hp] at h
      exact hk _ _ _ _ h

/-- What the matcher hands to its continuation is a suffix of the text. -/
theorem Re.run_suffix (re : Re) :
    ∀ (k : Option Char → List Char → Option (Option Char × List Char)),
      (∀ prev s q r, k prev s = some (q, r) → r <:+ s) →
      ∀ prev s q r, re.run k prev s = some (q, r) → r <:+ s := by
  induction re with
  | eps =>
    intro k hk prev s q r h
    exact hk prev s q r (by simpa [Re.run] using h)
  | chr p =>
    intro k hk prev s q r h
    cases s with
    | nil => simp [Re.run] at h
    | cons c cs =>
      simp only [Re.run] at h
      by_cases hp : p c = true
      · rw [if_pos hp] at h
        exact (hk _ _ _ _ h).trans (List.suffix_cons _ _)
      · rw [if_neg hp] at h
        exact absurd h (by simp)
  | many greedy p =>
    intro k hk prev s q r h
    exact Re.manyRun_suffix hk s prev q r (by simpa [Re.run] using h)
  | seq a b iha ihb =>
    intro k hk prev s q r h
    simp only [Re.run] at h
    exact iha _ (fun prev₁ s₁ q₁ r₁ h₁ => ihb k hk prev₁ s₁ q₁ r₁ h₁) prev s q r h
  | alt a b iha ihb =>
    intro k hk prev s q r h
    simp only [Re.run] at h
    cases ha : a.run k prev s with
    | some x =>
      rw [ha] at h
      simp only [Option.some.injEq] at h
      subst h
      exact iha k hk prev s q r ha
    | none =>
      rw [ha] at h
      exact ihb k hk prev s q r h
  | wordBoundary =>
    intro k hk prev s q r h
    simp only [Re.run] at h
    split at h
    · exact hk _ _ _ _ h
    · exact absurd h (by simp)
  | endText =>
    intro k hk prev s q r h
    simp only [Re.run] at h
    split at h
    · exact hk _ _ _ _ h
    · exact absurd h (by simp)

/-- Every character of the text after `ReplaceAllString` is a character of the
text before or of the replacement. -/
theorem Re.replaceAllAux_subset (re : Re) (repl : List Char) :
    ∀ (fuel : Nat) (prev : Option Char) (s : List Char) (x : Char),
      x ∈ Re.replaceAllAux re repl fuel prev s → x ∈ s ∨ x ∈ repl
  | 0, _, s, x, hx => .inl (by simpa [Re.replaceAllAux] using hx)
  | fuel + 1, _, [], x, hx => by simp [Re.replaceAllAux] at hx
  | fuel + 1, prev, c :: cs, x, hx => by
    rw [Re.replaceAllAux] at hx
    cases hrun : re.run (fun p r => some (p, r)) prev (c :: cs) with
    | none =>
      rw [hrun] at hx
      simp only [List.mem_cons] at hx
      rcases hx with rfl | hx
      · exact .inl (List.mem_cons_self _ _)
      · rcases Re.replaceAllAux_subset re repl fuel _ cs x hx with h | h
        · exact .inl (List.mem_cons_of_mem _ h)
        · exact .inr h
    | some pr =>
      obtain ⟨p, rest⟩ := pr
      rw [hrun] at hx
      simp only [List.mem_append] at hx
      rcases hx with h | h
      · exact .inr h
      · rcases Re.replaceAllAux_subset re repl fuel _ rest x h with h' | h'
        · have hsuf : rest <:+ c :: cs := by
            refine Re.run_suffix re _ ?_ prev (c :: cs) p rest hrun
            intro prev₁ s₁ q₁ r₁ h₁
            simp only [Option.some.injEq, Prod.mk.injEq] at h₁
            exact h₁.2 ▸ List.suffix_refl _
          exact .inl (hsuf.subset h')
        · exact .inr h'

/-- A property of characters that the text and the replacement have is kept by
`ReplaceAllString`. -/
theorem Re.replaceAll_keeps {P : Char → Prop} (re : Re) (repl : String) {s : List Char}
    (hs : ∀ x ∈ s, P x) (hr : ∀ x ∈ repl.data, P x) : ∀ x ∈ re.replaceAll repl s, P x := by
  intro x hx
  rcases Re.replaceAllAux_subset re repl.data _ _ _ x hx with h | h
  · exact hs x h
  · exact hr x h

/-- A property of characters that the text and the replacements have is kept
by a list of replacements. -/
theorem foldl_replaceAll_keeps {P : Char → Prop} :
    ∀ (ps : List (Re × String)), (∀ p ∈ ps, ∀ x ∈ p.2.data, P x) →
      ∀ s : List Char, (∀ x ∈ s, P x) →
      ∀ x ∈ ps.foldl (fun s p => p.1.replaceAll p.2 s) s, P x
  | [], _, s, hs => hs
  | p :: ps, hps, s, hs => by
    simp only [List.foldl_cons]
    exact foldl_replaceAll_keeps ps (fun q hq => hps q (List.mem_cons_of_mem _ hq)) _
      (Re.replaceAll_keeps p.1 p.2 hs (hps p (List.mem_cons_self _ _)))

/-- Replacing a character class by the empty string removes its characters. -/
theorem Re.replaceAllAux_chr (p : Char → Bool) :
    ∀ (fuel : Nat) (prev : Option Char) (s : List Char), s.length < fuel →
      Re.replaceAllAux (.chr p) [] fuel prev s = s.filter (fun c => !p c)
  | 0, _, s, h => absurd h (by omega)
  | fuel + 1, _, [], _ => by simp [Re.replaceAllAux]
  | fuel + 1, prev, c :: cs, h => by
    have hlen : cs.length < fuel := by
      simp only [List.length_cons] at h
      omega
    rw [Re.replaceAllAux]
    simp only [Re.run]
    by_cases hp : p c = true
    · simp [hp, Re.replaceAllAux_chr p fuel _ cs hlen]
    · simp [hp, Re.replaceAllAux_chr p fuel _ cs hlen]

/-- Replacing a character class by the empty string removes its characters. -/
theorem Re.replaceAll_chr (p : Char → Bool) (s : List Char) :
    (Re.chr p).replaceAll "" s = s.filter (fun c => !p c) :=
  Re.replaceAllAux_chr p (s.length + 1) none s (Nat.lt_succ_self _)

/-- `html.EscapeString` leaves no `<` and no `>`. -/
theorem escapeString_safe {s : List Char} {x : Char} (hx : x ∈ escapeString s) :
    x ≠ '<' ∧ x ≠ '>' := by
  simp only [escapeString, List.mem_flatMap] at hx
  obtain ⟨a, _, ha⟩ := hx
  unfold escapeChar at ha
  split_ifs at ha with h₁ h₂ h₃ h₄ h₅
  all_goals simp only [List.mem_cons, List.mem_singleton, List.not_mem_nil, or_false] at ha
  · rcases ha with rfl | rfl | rfl | rfl <;> decide
  · rcases ha with rfl | rfl | rfl | rfl <;> decide
  · rcases ha with rfl | rfl | rfl | rfl | rfl <;> decide
  · rcases ha with rfl | rfl | rfl | rfl | rfl <;> decide
  · rcases ha with rfl | rfl | rfl | rfl | rfl <;> decide
  · subst ha
    simp only [beq_iff_eq] at h₁ h₂
    exact ⟨h₁, h₂⟩

/-- The characters of `cleanChars`: none is `<`, `>`, a quote or `;`. -/
theorem cleanChars_safe (input : List Char) :
    ∀ x ∈ cleanChars input, isDangerousChar x = false := by
  have h₀ : ∀ x ∈ escapeString (trimSpace input), x ≠ '<' ∧ x ≠ '>' :=
    fun x hx => escapeString_safe hx
  have h₃ := foldl_replaceAll_keeps (sqlDangerousPatterns.take 3) (by decide) _ h₀
  have h₄ : ∀ x ∈ (Re.chr (fun c => c.toNat == 39 || c == '"' || c == ';')).replaceAll ""
      ((sqlDangerousPatterns.take 3).foldl (fun s p => p.1.replaceAll p.2 s)
        (escapeString (trimSpace input))), isDangerousChar x = false := by
    intro x hx
    rw [Re.replaceAll_chr, List.mem_filter] at hx
    obtain ⟨hmem, hq⟩ := hx
    have hlt := h₃ x hmem
    simp only [Bool.not_eq_true', Bool.or_eq_false_iff] at hq
    simp only [isDangerousChar, Bool.or_eq_false_iff, beq_eq_false_iff_ne, ne_eq]
    simp only [beq_eq_false_iff_ne, ne_eq] at hq
    exact ⟨⟨⟨⟨hlt.1, hlt.2⟩, hq.1.1⟩, hq.1.2⟩, hq.2⟩
  have h₅ := foldl_replaceAll_keeps (sqlDangerousPatterns.drop 4) (by decide) _ h₄
  have h₆ := foldl_replaceAll_keeps xssDangerousPatterns (by decide) _ h₅
  have h₇ := Re.replaceAll_keeps (Re.chr isControlChar) "" h₆ (by decide)
  intro x hx
  exact h₇ x (trimSpace_subset hx)

/-- The first character of `cleanChars` is no white space. -/
theorem cleanChars_head {input : List Char} {c : Char}
    (h : (cleanChars input).head? = some c) : isSpace c = false := by
  simp only [cleanChars] at h
  exact trimSpace_head h

/-- The last character of `cleanChars` is no white space. -/
theorem cleanChars_getLast {input : List Char} {c : Char}
    (h : (cleanChars input).getLast? = some c) : isSpace c = false := by
  simp only [cleanChars] at h
  exact trimSpace_getLast h

/-- The characters of the output of `Clean_XSS` on an input that is not empty. -/
theorem Clean_XSS_data {input : String} (h : input ≠ "") :
    (Clean_XSS input).data = cleanChars input.data := by
  simp [Clean_XSS, h]

/-- `Clean_XSS` returns the empty string as it is. -/
theorem Clean_XSS_empty : Clean_XSS "" = "" := by
  simp [Clean_XSS]

/-- C30: for every input the output of `Clean_XSS` contains none of the
characters `<`, `>`, single quote, double quote and `;`, its first and its
last character (when there are any) are no white space (`unicode.IsSpace`, what
`strings.TrimSpace` trims), and the empty string is returned as it is. -/
theorem Clean_XSS_alphabet (input : String) :
    (∀ c ∈ (Clean_XSS input).data,
      c ≠ '<' ∧ c ≠ '>' ∧ c ≠ Char.ofNat 39 ∧ c ≠ '"' ∧ c ≠ ';')
    ∧ (∀ c, (Clean_XSS input).data.head? = some c → isSpace c = false)
    ∧ (∀ c, (Clean_XSS input).data.getLast? = some c → isSpace c = false)
    ∧ Clean_XSS "" = "" := by
  by_cases hempty : input = ""
  · subst hempty
    rw [Clean_XSS_empty]
    simp
  · rw [Clean_XSS_data hempty]
    refine ⟨?_, fun c hc => cleanChars_head hc, fun c hc => cleanChars_getLast hc,
      Clean_XSS_empty⟩
    intro c hc
    have hsafe := cleanChars_safe input.data c hc
    simp only [isDangerousChar, Bool.or_eq_false_iff, beq_eq_false_iff_ne, ne_eq] at hsafe
    refine ⟨hsafe.1.1.1.1, hsafe.1.1.1.2, ?_, hsafe.1.2, hsafe.2⟩
    intro h
    exact hsafe.1.1.2 (by rw [h]; rfl)

/-- C30, witness: the input ` <b>it's; ` holds `<`, a quote and `;` and starts
and ends with a space; the output is `&ltb&gtit&#39s`. -/
theorem Clean_XSS_alphabet_witness :
    Clean_XSS " <b>it\x27s; " = "&ltb&gtit&#39s"
    ∧ (∀ c ∈ (Clean_XSS " <b>it\x27s; ").data,
      c ≠ '<' ∧ c ≠ '>' ∧ c ≠ Char.ofNat 39 ∧ c ≠ '"' ∧ c ≠ ';')
    ∧ (∀ c, (Clean_XSS " <b>it\x27s; ").data.head? = some c → isSpace c = false)
    ∧ (∀ c, (Clean_XSS " <b>it\x27s; ").data.getLast? = some c → isSpace c = false) :=
  ⟨by decide, (Clean_XSS_alphabet " <b>it\x27s; ").1, (Clean_XSS_alphabet " <b>it\x27s; ").2.1,
    (Clean_XSS_alphabet " <b>it\x27s; ").2.2.1⟩

/-! ## The unique keys of the account table -/

theorem Collation.eq_false_symm (c : Collation) {a b : String} (h : c.eq a b = false) :
    c.eq b a = false := by
  cases hba : c.eq b a
  · rfl
  · rw [c.symm b a hba] at h
    exact absurd h (by simp)

/-- The outcomes of `CreateUser`: an error and the table as it was, or no
error and one more row, the stored values of the account with the next id,
whose username and email no row of the table has. -/
theorem CreateUser_cases (strict : Bool) (c : Collation) (t : UserTable) (now : Int)
    (user : User) :
    ((CreateUser strict c t now user).1 = t ∧ (CreateUser strict c t now user).2.2 ≠ none)
    ∨ ((CreateUser strict c t now user).2.2 = none
        ∧ (user.withDefaults (unix now)).refused strict = none
        ∧ (∀ u ∈ t.rows,
            c.eq u.Username (user.withDefaults (unix now)).stored.Username = false
            ∧ c.eq u.Email (user.withDefaults (unix now)).stored.Email = false)
        ∧ (CreateUser strict c t now user).1 =
            ⟨t.rows ++ [{ (user.withDefaults (unix now)).stored with
                          ID := t.nextID, LockUntil := none, DeleteTime := none }],
              t.nextID + 1⟩) := by
  unfold CreateUser
  dsimp only
  cases hrefused : (user.withDefaults (unix now)).refused strict with
  | some err => exact .inl ⟨rfl, by simp⟩
  | none =>
    dsimp only
    split
    · exact .inl ⟨rfl, by simp⟩
    · rename_i hany
      simp only [Bool.not_eq_true, List.any_eq_false, Bool.or_eq_true, not_or] at hany
      refine .inr ⟨rfl, rfl, ?_, rfl⟩
      intro u hu
      have hclash := hany u hu
      exact ⟨by simpa using hclash.1.1, by simpa using hclash.1.2⟩

/-- `CreateUser` keeps the unique keys. -/
theorem CreateUser_keysHold {c : Collation} {t : UserTable} (h : t.keysHold c) (strict : Bool)
    (now : Int) (user : User) : (CreateUser strict c t now user).1.keysHold c := by
  rcases CreateUser_cases strict c t now user with ⟨heq, _⟩ | ⟨_, _, hfree, heq⟩
  · rw [heq]
    exact h
  · rw [heq]
    obtain ⟨hpw, hlt⟩ := h
    constructor
    · simp only [List.pairwise_append, List.pairwise_cons, List.Pairwise.nil, List.not_mem_nil,
        false_implies, implies_true, and_true, true_and, List.mem_singleton, forall_eq]
      refine ⟨hpw, ?_⟩
      intro a ha
      have := hlt a ha
      exact ⟨by show a.ID ≠ t.nextID; omega, (hfree a ha).1, (hfree a ha).2⟩
    · intro u hu
      simp only [List.mem_append, List.mem_singleton] at hu
      rcases hu with hu | rfl
      · have := hlt u hu
        show u.ID < t.nextID + 1
        omega
      · show t.nextID < t.nextID + 1
        omega

/-- The account table after `Register` is the table before or the table after
a `CreateUser`. -/
theorem Register_users (d : Deps) (cfg : Config) (s : Store) (ctx : Ctx) (req : RegisterRequest) :
    (Register d cfg s ctx req).2.users = s.users
    ∨ ∃ user, (Register d cfg s ctx req).2.users
        = (CreateUser d.strict d.coll s.users ctx.now user).1 := by
  unfold Register
  cases bindRegister d req with
  | some err => exact .inl rfl
  | none =>
    dsimp only
    rcases VerifyCode d.coll s.codes ctx.now (d.Clean_XSS req.Email) (d.Clean_XSS req.Code)
      "register" with ⟨valid, codeID, err⟩
    dsimp only
    repeat' split
    all_goals first
      | exact .inl rfl
      | (rename_i h
         exact .inr ⟨_, by rw [h]⟩)

/-- The account table after `UserService.Create` is the table before or the
table after a `CreateUser`. -/
theorem Create_users (strict : Bool) (c : Collation) (t : UserTable) (now : Int)
    (req : UserCreateRequest) :
    (UserService.Create strict c t now req).1 = t
    ∨ ∃ user, (UserService.Create strict c t now req).1 = (CreateUser strict c t now user).1 := by
  unfold UserService.Create
  split
  · exact .inl rfl
  · split
    · exact .inl rfl
    · dsimp only
      split <;>
        (rename_i heq
         exact .inr ⟨_, by rw [heq]⟩)

/-- `UserService.Update` keeps the unique keys. -/
theorem Update_keysHold {c : Collation} {t : UserTable} (h : t.keysHold c) (strict : Bool)
    (now : Int) (req : UserUpdateRequest) : (UserService.Update strict c t now req).1.keysHold c := by
  obtain ⟨hpw, hlt⟩ := h
  unfold UserService.Update
  split
  · exact ⟨hpw, hlt⟩
  · rename_i user hfind
    dsimp only
    split
    · exact ⟨hpw, hlt⟩
    · generalize req.applyTo
        (if (req.Email != "" && req.Email != user.Email) = true then
          { user with Email := req.Email } else user) now = user'
      split
      · exact ⟨hpw, hlt⟩
      · split
        · exact ⟨hpw, hlt⟩
        · rename_i hany
          simp only [Bool.not_eq_true, List.any_eq_false, Bool.and_eq_true, bne_iff_ne, ne_eq,
            not_and] at hany
          constructor
          · show List.Pairwise _ (t.rows.map _)
            rw [List.pairwise_map]
            refine hpw.imp_of_mem ?_
            intro a b ha hb hab
            obtain ⟨hne, hun, hem⟩ := hab
            by_cases ha' : a.ID = user'.ID
            · by_cases hb' : b.ID = user'.ID
              · exact absurd (ha'.trans hb'.symm) hne
              · have hfree : c.eq b.Email user'.updateStored.Email = false := hany b hb hb'
                simp only [ha', hb', beq_self_eq_true, if_true, beq_iff_eq, if_false]
                exact ⟨hne, hun, c.eq_false_symm hfree⟩
            · by_cases hb' : b.ID = user'.ID
              · have hfree : c.eq a.Email user'.updateStored.Email = false := hany a ha ha'
                simp only [ha', hb', beq_self_eq_true, if_true, beq_iff_eq, if_false]
                exact ⟨hne, hun, hfree⟩
              · simp only [ha', hb', beq_iff_eq, if_false]
                exact ⟨hne, hun, hem⟩
          · intro u hu
            simp only [List.mem_map] at hu
            obtain ⟨v, hv, rfl⟩ := hu
            have hid : (if (v.ID == user'.ID) = true then v.updatedFrom user'.updateStored
                else v).ID = v.ID := by
              split <;> rfl
            rw [hid]
            exact hlt v hv

/-- `UserService.Delete` keeps the unique keys. -/
theorem Delete_keysHold {c : Collation} {t : UserTable} (h : t.keysHold c) (now : Int)
    (userID : Nat) : (UserService.Delete t now userID).keysHold c := by
  obtain ⟨hpw, hlt⟩ := h
  constructor
  · show List.Pairwise _ (t.rows.map _)
    rw [List.pairwise_map]
    refine hpw.imp ?_
    intro a b hab
    have hrow : ∀ v : User,
        (if (v.ID == userID) = true then { v with DeleteTime := some (unix now) } else v).ID = v.ID
        ∧ (if (v.ID == userID) = true then { v with DeleteTime := some (unix now) } else v).Username
            = v.Username
        ∧ (if (v.ID == userID) = true then { v with DeleteTime := some (unix now) } else v).Email
            = v.Email := by
      intro v
      split <;> exact ⟨rfl, rfl, rfl⟩
    rw [(hrow a).1, (hrow a).2.1, (hrow a).2.2, (hrow b).1, (hrow b).2.1, (hrow b).2.2]
    exact hab
  · intro u hu
    simp only [UserService.Delete, List.mem_map] at hu
    obtain ⟨v, hv, rfl⟩ := hu
    have hid : (if (v.ID == userID) = true then { v with DeleteTime := some (unix now) } else v).ID
        = v.ID := by
      split <;> rfl
    rw [hid]
    exact hlt v hv

/-- Every account table the four operations reach satisfies the unique keys. -/
theorem Reachable.keysHold {d : Deps} {t : UserTable} (h : UserTable.Reachable d t) :
    t.keysHold d.coll := by
  induction h with
  | empty => exact ⟨List.Pairwise.nil, fun u hu => absurd hu (List.not_mem_nil u)⟩
  | register cfg codes ctx req _ ih =>
    rcases Register_users d cfg ⟨_, codes⟩ ctx req with heq | ⟨user, heq⟩
    · rw [heq]
      exact ih
    · rw [heq]
      exact CreateUser_keysHold ih _ _ _
  | create now req _ ih =>
    rcases Create_users d.strict d.coll _ now req with heq | ⟨user, heq⟩
    · rw [heq]
      exact ih
    · rw [heq]
      exact CreateUser_keysHold ih _ _ _
  | update now req _ ih => exact Update_keysHold ih _ now req
  | delete now userID _ ih => exact Delete_keysHold ih now userID

/-- `Register` turns away a request whose (sanitised) username or email an
undeleted account has, and leaves the account table as it was. -/
theorem Register_taken {d : Deps} {cfg : Config} {s : Store} {ctx : Ctx} {req : RegisterRequest}
    {u : User} (hu : u ∈ s.users.rows) (hdel : u.DeleteTime = none)
    (htaken : d.coll.eq u.Username (d.Clean_XSS req.Username) = true
      ∨ d.coll.eq u.Email (d.Clean_XSS req.Email) = true) :
    (Register d cfg s ctx req).1.Code = 400 ∧ (Register d cfg s ctx req).2.users = s.users := by
  have hsome : (GetUserByUsername d.coll s.users (d.Clean_XSS req.Username)).isSome = true
      ∨ (GetUserByEmail d.coll s.users (d.Clean_XSS req.Email)).isSome = true := by
    rcases htaken with h | h
    · left
      simp only [GetUserByUsername, List.find?_isSome]
      exact ⟨u, hu, by simp [h, hdel]⟩
    · right
      simp only [GetUserByEmail, List.find?_isSome]
      exact ⟨u, hu, by simp [h, hdel]⟩
  unfold Register
  cases bindRegister d req with
  | some err => exact ⟨rfl, rfl⟩
  | none =>
    dsimp only
    rcases VerifyCode d.coll s.codes ctx.now (d.Clean_XSS req.Email) (d.Clean_XSS req.Code)
      "register" with ⟨valid, codeID, err⟩
    dsimp only
    split
    · exact ⟨rfl, rfl⟩
    · split
      · exact ⟨rfl, rfl⟩
      · split
        · exact ⟨rfl, rfl⟩
        · rename_i hname
          split
          · exact ⟨rfl, rfl⟩
          · rename_i hemail
            rcases hsome with h | h
            · exact absurd h hname
            · exact absurd h hemail

/-- `UserService.Create` turns away a request whose username or email an
undeleted account has, and leaves the account table as it was. -/
theorem Create_taken {strict : Bool} {c : Collation} {t : UserTable} {now : Int}
    {req : UserCreateRequest} {u : User} (hu : u ∈ t.rows) (hdel : u.DeleteTime = none)
    (htaken : c.eq u.Username req.Username = true ∨ c.eq u.Email req.Email = true) :
    ∃ err, UserService.Create strict c t now req = (t, none, some err) := by
  unfold UserService.Create
  split
  · exact ⟨_, rfl⟩
  · rename_i hname
    split
    · exact ⟨_, rfl⟩
    · rename_i hemail
      rcases htaken with h | h
      · refine absurd ?_ hname
        simp only [GetUserByUsername, List.find?_isSome]
        exact ⟨u, hu, by simp [h, hdel]⟩
      · refine absurd ?_ hemail
        simp only [GetUserByEmail, List.find?_isSome]
        exact ⟨u, hu, by simp [h, hdel]⟩

/-- C21: in every account table reached from the empty table by
`AuthController.Register`, `UserService.Create`, `UserService.Update` and
`UserService.Delete`, one call at a time, no two undeleted accounts have the
same username and no two have the same email (not as strings, and not under
the collation of the columns either).  `Register` answers 400 and leaves the
account table as it was when an undeleted account has the username or the
email of the request (as sanitised, compared as the database compares them);
`Create` returns an error and leaves the table as it was when an undeleted
account has the username or the email of the request. -/
theorem uniqueness_invariant (d : Deps) :
    (∀ t, UserTable.Reachable d t →
      (t.rows.filter (fun u => u.DeleteTime.isNone)).Pairwise (fun a b =>
        a.Username ≠ b.Username ∧ a.Email ≠ b.Email
        ∧ d.coll.eq a.Username b.Username = false ∧ d.coll.eq a.Email b.Email = false))
    ∧ (∀ (cfg : Config) (s : Store) (ctx : Ctx) (req : RegisterRequest),
        (∃ u ∈ s.users.rows, u.DeleteTime = none
          ∧ (d.coll.eq u.Username (d.Clean_XSS req.Username) = true
            ∨ d.coll.eq u.Email (d.Clean_XSS req.Email) = true)) →
        (Register d cfg s ctx req).1.Code = 400 ∧ (Register d cfg s ctx req).2.users = s.users)
    ∧ (∀ (t : UserTable) (now : Int) (req : UserCreateRequest),
        (∃ u ∈ t.rows, u.DeleteTime = none
          ∧ (d.coll.eq u.Username req.Username = true ∨ d.coll.eq u.Email req.Email = true)) →
        ∃ err, UserService.Create d.strict d.coll t now req = (t, none, some err)) := by
  refine ⟨?_, ?_, ?_⟩
  · intro t ht
    have hkeys := (Reachable.keysHold ht).1
    refine (hkeys.filter _).imp ?_
    intro a b hab
    obtain ⟨_, hun, hem⟩ := hab
    refine ⟨?_, ?_, hun, hem⟩
    · intro h
      rw [h, d.coll.refl] at hun
      exact absurd hun (by simp)
    · intro h
      rw [h, d.coll.refl] at hem
      exact absurd hem (by simp)
  · rintro cfg s ctx req ⟨u, hu, hdel, htaken⟩
    exact Register_taken hu hdel htaken
  · rintro t now req ⟨u, hu, hdel, htaken⟩
    exact Create_taken hu hdel htaken

/-- C21, witness: with `alice` in the table, a registration as `alice` (with a
valid code) is answered 400 and a `Create` with her email returns an error,
and the table is left as it was; the table reached by creating `alice` and
`bob`, giving `bob` a new email and deleting `alice` has no two undeleted
accounts with one username or one email. -/
theorem uniqueness_invariant_witness :
    ((Register sampleDeps sampleConfig ⟨⟨[alice], 2⟩, sampleCodes⟩ (sampleCtx (1500 * Second))
        ⟨"alice", "pw", "alice@example.com", "123456"⟩).1.Code = 400
      ∧ (Register sampleDeps sampleConfig ⟨⟨[alice], 2⟩, sampleCodes⟩ (sampleCtx (1500 * Second))
        ⟨"alice", "pw", "alice@example.com", "123456"⟩).2.users = ⟨[alice], 2⟩)
    ∧ (∃ err, UserService.Create sampleDeps.strict sampleDeps.coll ⟨[alice], 2⟩ (1500 * Second)
        ⟨"alice2", "hash:pw", "alice@example.com", "", "", "", 1, 0⟩
          = (⟨[alice], 2⟩, none, some err))
    ∧ ((UserService.Delete
          (UserService.Update sampleDeps.strict sampleDeps.coll
            (UserService.Create sampleDeps.strict sampleDeps.coll
              (UserService.Create sampleDeps.strict sampleDeps.coll UserTable.empty (1000 * Second)
                ⟨"alice", "hash:pw", "alice@example.com", "", "", "", 1, 0⟩).1
              (1100 * Second) ⟨"bob", "hash:pw", "bob@example.com", "", "", "", 1, 0⟩).1
            (1200 * Second) ⟨2, "", "bob@example.org", "", "", 0, none, "", "", 0, 0⟩).1
          (1300 * Second) 1).rows.filter (fun u => u.DeleteTime.isNone)).Pairwise (fun a b =>
        a.Username ≠ b.Username ∧ a.Email ≠ b.Email
        ∧ sampleDeps.coll.eq a.Username b.Username = false
        ∧ sampleDeps.coll.eq a.Email b.Email = false) :=
  ⟨(uniqueness_invariant sampleDeps).2.1 sampleConfig ⟨⟨[alice], 2⟩, sampleCodes⟩
      (sampleCtx (1500 * Second)) ⟨"alice", "pw", "alice@example.com", "123456"⟩
      ⟨alice, List.mem_cons_self _ _, rfl, .inl (by decide)⟩,
    (uniqueness_invariant sampleDeps).2.2 ⟨[alice], 2⟩ (1500 * Second)
      ⟨"alice2", "hash:pw", "alice@example.com", "", "", "", 1, 0⟩
      ⟨alice, List.mem_cons_self _ _, rfl, .inr (by decide)⟩,
    (uniqueness_invariant sampleDeps).1 _
      (.delete _ _ (.update _ _ (.create _ _ (.create _ _ .empty))))⟩

/-! ## Registration from end to end, and the width of the columns -/

/-- A string that fits its column is stored as it is. -/
theorem varcharStored_of_le {n : Nat} {s : String} (h : s.length ≤ n) : varcharStored n s = s := by
  simp [varcharStored, h]

/-- `Register` when the binding, the code, the username shape, the two
look-ups, the captcha gate and the hashing let the request through to
`CreateUser`, and `CreateUser` returns no error. -/
theorem Register_of_created {d : Deps} {cfg : Config} {s : Store} {ctx : Ctx}
    {req : RegisterRequest} {id : Nat} {hashed : String}
    (hbind : bindRegister d req = none)
    (hv : VerifyCode d.coll s.codes ctx.now (d.Clean_XSS req.Email) (d.Clean_XSS req.Code)
      "register" = (true, id, none))
    (hgood : usernameRegex (d.Clean_XSS req.Username) = true)
    (hname : GetUserByUsername d.coll s.users (d.Clean_XSS req.Username) = none)
    (hemail : GetUserByEmail d.coll s.users (d.Clean_XSS req.Email) = none)
    (hcap : cfg.GeetestEnabled = false)
    (hhash : ctx.hashed = some hashed)
    (hstore : (CreateUser d.strict d.coll s.users ctx.now
      { User.zero with
        Username := d.Clean_XSS req.Username, Password := hashed, Email := d.Clean_XSS req.Email,
        Role := "user", Status := 1 }).2.2 = none) :
    Register d cfg s ctx req =
      (Success (.message "User registered successfully"),
        ⟨(CreateUser d.strict d.coll s.users ctx.now
          { User.zero with
            Username := d.Clean_XSS req.Username, Password := hashed, Email := d.Clean_XSS req.Email,
            Role := "user", Status := 1 }).1,
          consumeCode d.coll s.codes ctx.now id (d.Clean_XSS req.Email) "register"⟩) := by
  rcases hC : CreateUser d.strict d.coll s.users ctx.now
    { User.zero with
      Username := d.Clean_XSS req.Username, Password := hashed, Email := d.Clean_XSS req.Email,
      Role := "user", Status := 1 } with ⟨users, u, e⟩
  rw [hC] at hstore
  simp only at hstore
  subst hstore
  simp only [Register, hbind, hv, hgood, hname, hemail, hcap, hhash, hC, consumeCode,
    Option.isSome_none, Bool.false_eq_true, Bool.not_true, Bool.or_self, if_false,
    Bool.false_and, Bool.not_false]

set_option maxRecDepth 100000 in
/-- C20, counterexample: two registrations that meet every hypothesis of the
claim.  With the valid code of `alice@example.com` and the well-formed, free
username `select`, `Register` answers 400 and creates no account: the
sanitiser has turned the username into `[FILTERED]`.  Outside strict SQL mode,
with a valid code for an email of 152 characters and the username `bob_01`,
the store succeeds and `Register` answers 200, but the account carries the
first 150 characters of the email, not the email. -/
theorem register_end_to_end_counterexample :
    (VerifyCode Collation.binary sampleCodes (1500 * Second) "alice@example.com" "123456"
        "register" = (true, 1, none)
      ∧ usernameShape "select"
      ∧ sampleConfig.GeetestEnabled = false
      ∧ (Register cleanDeps sampleConfig ⟨UserTable.empty, sampleCodes⟩ (sampleCtx (1500 * Second))
          ⟨"select", "pw", "alice@example.com", "123456"⟩).1
        = Fail 400 usernameMessage
      ∧ (Register cleanDeps sampleConfig ⟨UserTable.empty, sampleCodes⟩ (sampleCtx (1500 * Second))
          ⟨"select", "pw", "alice@example.com", "123456"⟩).2.users = UserTable.empty)
    ∧ (VerifyCode Collation.binary
          (CreateVerificationCode Collation.binary CodeTable.empty (1000 * Second) longEmail
            "123456" "register" (2000 * Second))
          (1500 * Second) longEmail "123456" "register" = (true, 1, none)
      ∧ usernameShape "bob_01"
      ∧ Clean_XSS longEmail = longEmail
      ∧ (Register lenientDeps sampleConfig
          ⟨UserTable.empty, CreateVerificationCode Collation.binary CodeTable.empty (1000 * Second)
            longEmail "123456" "register" (2000 * Second)⟩
          (sampleCtx (1500 * Second)) ⟨"bob_01", "pw", longEmail, "123456"⟩).1
        = Success (.message "User registered successfully")
      ∧ (Register lenientDeps sampleConfig
          ⟨UserTable.empty, CreateVerificationCode Collation.binary CodeTable.empty (1000 * Second)
            longEmail "123456" "register" (2000 * Second)⟩
          (sampleCtx (1500 * Second)) ⟨"bob_01", "pw", longEmail, "123456"⟩).2.users.rows.map
            (fun u => (u.Username, u.Email))
        = [("bob_01", String.mk (List.replicate 140 'a') ++ "@example.c")]
      ∧ String.mk (List.replicate 140 'a') ++ "@example.c" ≠ longEmail) := by
  decide

/-- C20, amended: if the request passes the binding, the register code verifies
for the sanitised email and code, the sanitised username is well-formed,
neither the sanitised username nor the sanitised email is taken by an
undeleted account, the sanitised email has at most 150 characters (the width of
the email column), the captcha gate is disabled, hashing succeeds and the store
succeeds (`CreateUser` returns no error), then `Register` answers 200 and adds
exactly one account, with the next id, the sanitised username and email, the
hash (cut to the 255 characters of its column), role user, status active, no
failures, no lock and no deletion mark; afterwards `VerifyCode` returns
invalid for the sanitised email and every code of type register. -/
theorem register_end_to_end (d : Deps) (cfg : Config) (s : Store) (ctx : Ctx)
    (req : RegisterRequest) (id : Nat) (hashed : String)
    (hbind : bindRegister d req = none)
    (hv : VerifyCode d.coll s.codes ctx.now (d.Clean_XSS req.Email) (d.Clean_XSS req.Code)
      "register" = (true, id, none))
    (hshape : usernameShape (d.Clean_XSS req.Username))
    (hname : GetUserByUsername d.coll s.users (d.Clean_XSS req.Username) = none)
    (hemail : GetUserByEmail d.coll s.users (d.Clean_XSS req.Email) = none)
    (hwidth : (d.Clean_XSS req.Email).length ≤ 150)
    (hcap : cfg.GeetestEnabled = false)
    (hhash : ctx.hashed = some hashed)
    (hstore : (CreateUser d.strict d.coll s.users ctx.now
      { User.zero with
        Username := d.Clean_XSS req.Username, Password := hashed, Email := d.Clean_XSS req.Email,
        Role := "user", Status := 1 }).2.2 = none) :
    (Register d cfg s ctx req).1 = Success (.message "User registered successfully")
    ∧ (Register d cfg s ctx req).2.users.nextID = s.users.nextID + 1
    ∧ (Register d cfg s ctx req).2.users.rows
        = s.users.rows ++
          [{ User.zero with
             ID := s.users.nextID
             GroupId := 1
             Username := d.Clean_XSS req.Username
             Email := d.Clean_XSS req.Email
             Level := 1
             Role := "user"
             JoinTime := some (unix ctx.now)
             Password := varcharStored 255 hashed
             Status := 1
             UpdateTime := some (unix ctx.now)
             CreateTime := some (unix ctx.now)
             Language := "zh-CN" }]
    ∧ (∀ code now, VerifyCode d.coll (Register d cfg s ctx req).2.codes now
          (d.Clean_XSS req.Email) code "register" = (false, 0, some ErrNoRows)) := by
  have hgood := (usernameRegex_iff _).2 hshape
  have hU : varcharStored 100 (d.Clean_XSS req.Username) = d.Clean_XSS req.Username :=
    varcharStored_of_le (by have := hshape.2.1; omega)
  have hE : varcharStored 150 (d.Clean_XSS req.Email) = d.Clean_XSS req.Email :=
    varcharStored_of_le hwidth
  rw [Register_of_created hbind hv hgood hname hemail hcap hhash hstore]
  rcases CreateUser_cases d.strict d.coll s.users ctx.now
    { User.zero with
      Username := d.Clean_XSS req.Username, Password := hashed, Email := d.Clean_XSS req.Email,
      Role := "user", Status := 1 } with ⟨_, hne⟩ | ⟨_, _, _, htable⟩
  · exact absurd hstore hne
  · rw [htable]
    refine ⟨rfl, rfl, ?_, fun code now => VerifyCode_consumed _ _ _ _ _ _ _⟩
    have hempty : ∀ n, varcharStored n "" = "" := fun n => varcharStored_of_le (Nat.zero_le n)
    have hrole : varcharStored 20 "user" = "user" := by decide
    have hlang : varcharStored 20 "zh-CN" = "zh-CN" := by decide
    simp [User.stored, User.withDefaults, User.zero, hU, hE, hempty, hrole, hlang, maxMoney]

/-- C20, witness: `bob_01` registers with the code of `alice@example.com`. -/
theorem register_end_to_end_witness :
    (Register cleanDeps sampleConfig ⟨UserTable.empty, sampleCodes⟩ (sampleCtx (1500 * Second))
        ⟨"bob_01", "pw", "alice@example.com", "123456"⟩).1
      = Success (.message "User registered successfully")
    ∧ (Register cleanDeps sampleConfig ⟨UserTable.empty, sampleCodes⟩ (sampleCtx (1500 * Second))
        ⟨"bob_01", "pw", "alice@example.com", "123456"⟩).2.users.nextID = 1 + 1
    ∧ (Register cleanDeps sampleConfig ⟨UserTable.empty, sampleCodes⟩ (sampleCtx (1500 * Second))
        ⟨"bob_01", "pw", "alice@example.com", "123456"⟩).2.users.rows
        = [] ++
          [{ User.zero with
             ID := 1
             GroupId := 1
             Username := cleanDeps.Clean_XSS "bob_01"
             Email := cleanDeps.Clean_XSS "alice@example.com"
             Level := 1
             Role := "user"
             JoinTime := some (unix (1500 * Second))
             Password := varcharStored 255 "hash:pw"
             Status := 1
             UpdateTime := some (unix (1500 * Second))
             CreateTime := some (unix (1500 * Second))
             Language := "zh-CN" }]
    ∧ (∀ code now, VerifyCode cleanDeps.coll
          (Register cleanDeps sampleConfig ⟨UserTable.empty, sampleCodes⟩
            (sampleCtx (1500 * Second)) ⟨"bob_01", "pw", "alice@example.com", "123456"⟩).2.codes
          now (cleanDeps.Clean_XSS "alice@example.com") code "register"
        = (false, 0, some ErrNoRows)) :=
  register_end_to_end cleanDeps sampleConfig ⟨UserTable.empty, sampleCodes⟩
    (sampleCtx (1500 * Second)) ⟨"bob_01", "pw", "alice@example.com", "123456"⟩ 1 "hash:pw"
    (by decide) (by decide) (by decide) (by decide) (by decide) (by decide) rfl rfl (by decide)

end Fst
